import Mathlib

/-!
# MultiplayerCitybuilder: the authoritative lobby server

A shallow embedding of `server.go` / `shared.go`.

* Numbers.  The Go code computes in `float32` / `float64`.  The embedding is
  generic in a linearly ordered field `R` and in the square-root function
  `sqrt : R → R` that `rl.Vector2Distance` and `math.Sqrt` stand for, so every
  definition below is an ordinary computable function.  Theorems that need
  no property of the square root hold for every `R` and `sqrt`; the others
  are stated for `R := ℝ` and `sqrt := Real.sqrt`, i.e. in exact arithmetic.
* Go `int` values (`RouteID`, `CurrentSegment`, `Direction`, the type tags)
  are `Int`; slice indices are `Nat`.
* A Go run-time panic (index out of range) is the result `none`.
* Socket writes are not performed; each operation returns the list of
  broadcast calls it makes, in order.
* The operations take the fields of the inbound line already parsed
  (the `strconv` calls at the top of each Go function).
-/

namespace CityServer

/-! ## Constants (shared.go 5-31) -/

/-- `GRID_SIZE = 32`. -/
def GRID_SIZE (R : Type) [LinearOrderedField R] : R := 32

/-- `ROAD_COST_PER_UNIT = 0.5`. -/
def ROAD_COST_PER_UNIT (R : Type) [LinearOrderedField R] : R := 1 / 2

/-- `BUS_SPEED = 200.0`. -/
def BUS_SPEED (R : Type) [LinearOrderedField R] : R := 200

/-- `ROAD_SNAP_DISTANCE = 8.0`. -/
def ROAD_SNAP_DISTANCE (R : Type) [LinearOrderedField R] : R := 8

/-- `RESIDENTIAL_BUILDING_COST = 100.0`. -/
def RESIDENTIAL_BUILDING_COST (R : Type) [LinearOrderedField R] : R := 100

/-- `COMMERCIAL_BUILDING_COST = 250.0`. -/
def COMMERCIAL_BUILDING_COST (R : Type) [LinearOrderedField R] : R := 250

/-- `INDUSTRIAL_BUILDING_COST = 1000.0`. -/
def INDUSTRIAL_BUILDING_COST (R : Type) [LinearOrderedField R] : R := 1000

/-- `COMMERCIAL_INCOME_INCREASE = 5.0`. -/
def COMMERCIAL_INCOME_INCREASE (R : Type) [LinearOrderedField R] : R := 5

/-- `INDUSTRIAL_INCOME_INCREASE = 25.0`. -/
def INDUSTRIAL_INCOME_INCREASE (R : Type) [LinearOrderedField R] : R := 25

/-- `InfrastructureType` value `Road` (iota 0). -/
def Road : Int := 0

/-- `InfrastructureType` value `Water` (iota 1). -/
def Water : Int := 1

/-- `BuildingType` value `Residential` (iota 0). -/
def Residential : Int := 0

/-- `BuildingType` value `Commercial` (iota 1). -/
def Commercial : Int := 1

/-- `BuildingType` value `Industrial` (iota 2). -/
def Industrial : Int := 2

/-- The bus-motion tick length in seconds: `frameTime = 50.0 / 1000.0`
(server.go 155). -/
def frameTime (R : Type) [LinearOrderedField R] : R := 50 / 1000

/-- The number of sample steps per route segment:
`intermediatePointsPerSegment = 4` (server.go 496 and 631). -/
def intermediatePointsPerSegment : Nat := 4

/-! ## Data model (server.go 15-59, shared.go 45-51) -/

/-- The raylib vector `rl.Vector2`. -/
structure Vector2 (R : Type) where
  X : R
  Y : R

/-- The struct `StoredBuilding`; the field `Type` is `Typ` here. -/
structure StoredBuilding (R : Type) where
  X : R
  Y : R
  Typ : Int
  PlayerID : String

/-- The struct `StoredBusRoute`; `Points` is the flat coordinate list
`x0, y0, x1, y1, ...`. -/
structure StoredBusRoute (R : Type) where
  Points : List R
  PlayerID : String
  Length : R

/-- The struct `StoredLine`; the field `Type` is `Typ` here. -/
structure StoredLine (R : Type) where
  StartX : R
  StartY : R
  EndX : R
  EndY : R
  Typ : Int
  PlayerID : String

/-- The struct `Bus` of shared.go. -/
structure Bus (R : Type) where
  Position : Vector2 R
  RouteID : Int
  CurrentSegment : Int
  Progress : R
  Direction : Int

/-- The game part of the struct `LobbyServer`: the four collections, money
and the income rate. -/
structure LobbyServer (R : Type) where
  lines : List (StoredLine R)
  buildings : List (StoredBuilding R)
  busRoutes : List (StoredBusRoute R)
  buses : List (Bus R)
  money : R
  incomeRate : R

/-- The text of one outbound protocol line, before formatting. -/
inductive Msg (R : Type) where
  /-- The line `STATUS:<text>`. -/
  | status (text : String)
  /-- The line `STATUS:Not enough money to build <name>! Cost: <cost>`. -/
  | statusCost (name : String) (cost : R)
  /-- The line `MONEY:<amount>` of `broadcastMoney`. -/
  | money (amount : R)
  /-- The echo of the inbound line `msg`. -/
  | raw (msg : String)
  /-- The line `BUS:<index>:<x>:<y>`. -/
  | bus (index : Nat) (x y : R)
  /-- The line `STATE_RESET`. -/
  | stateReset
  /-- The line `C:<playerID>:<name>:<x>:<y>` relayed by `handleMessage`,
  with the two coordinate fields as they came in. -/
  | cursor (playerID name x y : String)
  /-- The line `DISCONNECT:<playerID>` of the connection teardown. -/
  | disconnect (playerID : String)

/-- One broadcast call made by an operation. -/
inductive Out (R : Type) where
  /-- A call `broadcastToAll(msg)`. -/
  | toAll (m : Msg R)
  /-- A call `broadcastToPlayer(playerID, msg)`. -/
  | toPlayer (playerID : String) (m : Msg R)
  /-- The loop `sendFullState(clientConn)` over all connections, sending
  the state `snapshot`. -/
  | fullStateToAll (snapshot : LobbyServer R)
  /-- A call `broadcastToOthers(msg, exclude)`; connections are numbered. -/
  | toOthers (exclude : Nat) (m : Msg R)
  /-- A call `sendFullState(conn)` sending the state `snapshot`. -/
  | fullStateTo (conn : Nat) (snapshot : LobbyServer R)

/-- The state set up by `Start` (server.go 62-69). -/
def Start (R : Type) [LinearOrderedField R] : LobbyServer R :=
  { lines := [], buildings := [], busRoutes := [], buses := [],
    money := 1000, incomeRate := 0 }

/-! ## Geometry (raylib `Vector2*`, server.go 672-681) -/

section Geometry

variable {R : Type} [LinearOrderedField R]

/-- The raylib function `Vector2Subtract`. -/
def Vector2Subtract (v1 v2 : Vector2 R) : Vector2 R :=
  ⟨v1.X - v2.X, v1.Y - v2.Y⟩

/-- The raylib function `Vector2Add`. -/
def Vector2Add (v1 v2 : Vector2 R) : Vector2 R :=
  ⟨v1.X + v2.X, v1.Y + v2.Y⟩

/-- The raylib function `Vector2Scale`. -/
def Vector2Scale (v : Vector2 R) (scale : R) : Vector2 R :=
  ⟨v.X * scale, v.Y * scale⟩

/-- The raylib function `Vector2DotProduct`. -/
def Vector2DotProduct (v1 v2 : Vector2 R) : R :=
  v1.X * v2.X + v1.Y * v2.Y

/-- The raylib function `Vector2DistanceSqr`. -/
def Vector2DistanceSqr (v1 v2 : Vector2 R) : R :=
  (v1.X - v2.X) * (v1.X - v2.X) + (v1.Y - v2.Y) * (v1.Y - v2.Y)

/-- The raylib function `Vector2Distance`. -/
def Vector2Distance (sqrt : R → R) (v1 v2 : Vector2 R) : R :=
  sqrt ((v1.X - v2.X) * (v1.X - v2.X) + (v1.Y - v2.Y) * (v1.Y - v2.Y))

/-- The raylib function `Vector2Lerp`. -/
def Vector2Lerp (v1 v2 : Vector2 R) (amount : R) : Vector2 R :=
  ⟨v1.X + amount * (v2.X - v1.X), v1.Y + amount * (v2.Y - v1.Y)⟩

/-- The function `pointSegmentDistance` (server.go 672-681). -/
def pointSegmentDistance (sqrt : R → R) (p a b : Vector2 R) : R :=
  let l2 := Vector2DistanceSqr a b
  if l2 = 0 then Vector2Distance sqrt p a
  else
    let t := Vector2DotProduct (Vector2Subtract p a) (Vector2Subtract b a) / l2
    let t := max 0 (min 1 t)
    let projection := Vector2Add a (Vector2Scale (Vector2Subtract b a) t)
    Vector2Distance sqrt p projection

/-- The expression `math.Sqrt(math.Pow(ax-x, 2) + math.Pow(ay-y, 2))` used by
`deleteObject` (server.go 553, 579, 580, 606). -/
def pointDist (sqrt : R → R) (ax ay x y : R) : R :=
  sqrt ((ax - x) ^ 2 + (ay - y) ^ 2)

end Geometry

/-! ## Command processor -/

section Commands

variable {R : Type} [LinearOrderedField R]

/-- The method `addInfrastructure` (server.go 409-429), after the fields
of the line are parsed. -/
def addInfrastructure (sqrt : R → R) (s : LobbyServer R) (msg playerID : String)
    (startX startY endX endY : R) (infraType : Int) :
    LobbyServer R × List (Out R) :=
  let newLine : StoredLine R :=
    { StartX := startX, StartY := startY, EndX := endX, EndY := endY,
      Typ := infraType, PlayerID := playerID }
  if infraType = Road then
    let roadLength := Vector2Distance sqrt ⟨startX, startY⟩ ⟨endX, endY⟩
    let cost := roadLength * ROAD_COST_PER_UNIT R
    if s.money < cost then
      (s, [Out.toPlayer playerID (Msg.status "Not enough money to build road!")])
    else
      ({ s with money := s.money - cost, lines := s.lines ++ [newLine] },
        [Out.toAll (Msg.money (s.money - cost)), Out.toAll (Msg.raw msg)])
  else
    ({ s with lines := s.lines ++ [newLine] }, [Out.toAll (Msg.raw msg)])

/-- The function `getBuildingName` (main.go 308-319). -/
def getBuildingName (buildingType : Int) : String :=
  if buildingType = Residential then "Residential"
  else if buildingType = Commercial then "Commercial"
  else if buildingType = Industrial then "Industrial"
  else "Unknown"

/-- The price switch of `addBuilding` (server.go 442-454): cost and income
increase of a kind, `none` for the `default` branch. -/
def buildingPrice (R : Type) [LinearOrderedField R] (buildingType : Int) :
    Option (R × R) :=
  if buildingType = Residential then some (RESIDENTIAL_BUILDING_COST R, 0)
  else if buildingType = Commercial then
    some (COMMERCIAL_BUILDING_COST R, COMMERCIAL_INCOME_INCREASE R)
  else if buildingType = Industrial then
    some (INDUSTRIAL_BUILDING_COST R, INDUSTRIAL_INCOME_INCREASE R)
  else none

/-- The method `addBuilding` (server.go 432-471), after the fields of the
line are parsed. -/
def addBuilding (s : LobbyServer R) (msg playerID : String) (x y : R)
    (buildingType : Int) : LobbyServer R × List (Out R) :=
  match buildingPrice R buildingType with
  | none => (s, [Out.toPlayer playerID (Msg.status "Unknown building type!")])
  | some (cost, incomeIncrease) =>
    if s.money < cost then
      (s, [Out.toPlayer playerID
        (Msg.statusCost (getBuildingName buildingType) cost)])
    else
      let newBuilding : StoredBuilding R :=
        { X := x, Y := y, Typ := buildingType, PlayerID := playerID }
      ({ s with money := s.money - cost,
                incomeRate := s.incomeRate + incomeIncrease,
                buildings := s.buildings ++ [newBuilding] },
        [Out.toAll (Msg.money (s.money - cost)), Out.toAll (Msg.raw msg)])

/-- The method `isPointOnRoad` (server.go 355-373): the loop over the stored
lines that returns at the first Road line within the snap distance. -/
def isPointOnRoad (sqrt : R → R) : List (StoredLine R) → R → R → Bool
  | [], _, _ => false
  | line :: rest, px, py =>
    if line.Typ ≠ Road then isPointOnRoad sqrt rest px py
    else if pointSegmentDistance sqrt ⟨px, py⟩ ⟨line.StartX, line.StartY⟩
        ⟨line.EndX, line.EndY⟩ ≤ ROAD_SNAP_DISTANCE R then true
    else isPointOnRoad sqrt rest px py

/-- The sample point number `p` of a segment: `rl.Vector2Lerp(segmentStart,
segmentEnd, float32(p) / float32(intermediatePointsPerSegment))`
(server.go 504-505, 637-638). -/
def samplePoint (segmentStart segmentEnd : Vector2 R) (p : Nat) : Vector2 R :=
  Vector2Lerp segmentStart segmentEnd ((p : R) / (intermediatePointsPerSegment : R))

/-- The inner loop `for p := 0; p <= intermediatePointsPerSegment; p++` of
server.go 503-510 and 636-643: `true` when no sample point made it break. -/
def segmentOnRoad (sqrt : R → R) (lines : List (StoredLine R))
    (segmentStart segmentEnd : Vector2 R) : Bool :=
  (List.range (intermediatePointsPerSegment + 1)).all fun p =>
    isPointOnRoad sqrt lines (samplePoint segmentStart segmentEnd p).X
      (samplePoint segmentStart segmentEnd p).Y

/-- The loop `for i := 0; i < len(nodes)-1; i++` of `addBusRoute`
(server.go 497-514) on the nodes from index `i` on: it returns
`totalLength` and `allSegmentsOnRoad`. -/
def routeLoop (sqrt : R → R) (lines : List (StoredLine R)) :
    List (Vector2 R) → R → R × Bool
  | [], totalLength => (totalLength, true)
  | segmentStart :: rest, totalLength =>
    match rest with
    | [] => (totalLength, true)
    | segmentEnd :: _ =>
      let segmentLength := Vector2Distance sqrt segmentStart segmentEnd
      if segmentOnRoad sqrt lines segmentStart segmentEnd then
        routeLoop sqrt lines rest (totalLength + segmentLength)
      else (totalLength + segmentLength, false)

/-- The flat coordinate slice `points` that `addBusRoute` builds next to
`nodes` (server.go 481-482). -/
def flattenNodes : List (Vector2 R) → List R
  | [] => []
  | n :: rest => n.X :: n.Y :: flattenNodes rest

/-- The method `addBusRoute` (server.go 489-538), after the coordinate
fields are parsed into `nodes`. -/
def addBusRoute (sqrt : R → R) (s : LobbyServer R) (msg playerID : String)
    (nodes : List (Vector2 R)) : LobbyServer R × List (Out R) :=
  match nodes with
  | [] => (s, [Out.toPlayer playerID (Msg.status "Bus route needs at least 2 nodes!")])
  | [_] => (s, [Out.toPlayer playerID (Msg.status "Bus route needs at least 2 nodes!")])
  | node0 :: _ :: _ =>
    let result := routeLoop sqrt s.lines nodes 0
    if ¬ result.2 then
      (s, [Out.toPlayer playerID (Msg.status "Bus route must be fully on roads!")])
    else
      let newRoute : StoredBusRoute R :=
        { Points := flattenNodes nodes, PlayerID := playerID, Length := result.1 }
      let busRoutes := s.busRoutes ++ [newRoute]
      let newBus : Bus R :=
        { RouteID := (busRoutes.length : Int) - 1, Position := node0,
          CurrentSegment := 0, Progress := 0, Direction := 1 }
      let buses := s.buses ++ [newBus]
      ({ s with busRoutes := busRoutes, buses := buses },
        [Out.toAll (Msg.raw msg),
         Out.toAll (Msg.bus (buses.length - 1) newBus.Position.X newBus.Position.Y)])

/-- The method `removeBusesForRoute` (server.go 683-694). -/
def removeBusesForRoute (routeID : Int) (buses : List (Bus R)) : List (Bus R) :=
  buses.filterMap fun bus =>
    if bus.RouteID ≠ routeID then
      some (if bus.RouteID > routeID then { bus with RouteID := bus.RouteID - 1 } else bus)
    else none

/-- A descending search loop `for i := len(l) - 1; i >= 0; i--` that stops
at the first element satisfying `hit`; the argument counts the indices
still to visit, so the loop is `scanDown hit l l.length`. -/
def scanDown {α : Type} (hit : α → Bool) (l : List α) : Nat → Option (Nat × α)
  | 0 => none
  | i + 1 =>
    match l[i]? with
    | some a => if hit a then some (i, a) else scanDown hit l i
    | none => scanDown hit l i

/-- The radius `deleteRadius := float64(GRID_SIZE * 0.75)` (server.go 545). -/
def deleteRadius (R : Type) [LinearOrderedField R] : R := GRID_SIZE R * (3 / 4)

/-- The hit test of the building loop of `deleteObject` (server.go 553-554). -/
def buildingHit (sqrt : R → R) (x y : R) (b : StoredBuilding R) : Bool :=
  pointDist sqrt b.X b.Y x y ≤ deleteRadius R

/-- The hit test of the line loop of `deleteObject` (server.go 579-583). -/
def lineHit (sqrt : R → R) (x y : R) (l : StoredLine R) : Bool :=
  let distStart := pointDist sqrt l.StartX l.StartY x y
  let distEnd := pointDist sqrt l.EndX l.EndY x y
  let lineSegmentDist :=
    pointSegmentDistance sqrt ⟨x, y⟩ ⟨l.StartX, l.StartY⟩ ⟨l.EndX, l.EndY⟩
  distStart ≤ deleteRadius R ∨ distEnd ≤ deleteRadius R ∨
    lineSegmentDist ≤ deleteRadius R

/-- The node loop `for j := 0; j < len(r.Points); j += 2` of `deleteObject`
(server.go 604-614): whether some node is within the radius; `none` is the
index panic at `r.Points[j+1]` on an odd number of coordinates. -/
def nodeHit (sqrt : R → R) (x y : R) : List R → Option Bool
  | [] => some false
  | [_] => none
  | nodeX :: nodeY :: rest =>
    if pointDist sqrt nodeX nodeY x y ≤ deleteRadius R then some true
    else nodeHit sqrt x y rest

/-- The route loop `for i := len(s.busRoutes) - 1; i >= 0; i--` of
`deleteObject` (server.go 601-618): the index of the route to delete, if
any; the outer `none` is a panic of the node loop. -/
def routeScan (sqrt : R → R) (x y : R) (busRoutes : List (StoredBusRoute R)) :
    Nat → Option (Option Nat)
  | 0 => some none
  | i + 1 =>
    match busRoutes[i]? with
    | some r =>
      match nodeHit sqrt x y r.Points with
      | none => none
      | some true => some (some i)
      | some false => routeScan sqrt x y busRoutes i
    | none => routeScan sqrt x y busRoutes i

/-- The node slice rebuilt from the flat `Points` (server.go 171-174 and
626-629); `none` is the index panic at `Points[j+1]` on an odd number of
coordinates. -/
def toNodes : List R → Option (List (Vector2 R))
  | [] => some []
  | [_] => none
  | x :: y :: rest =>
    match toNodes rest with
    | some nodes => some (⟨x, y⟩ :: nodes)
    | none => none

/-- The loop `for j := 0; j < len(nodes)-1; j++` of the re-validation in
`deleteObject` (server.go 632-647): the final value of `routeIsValid`. -/
def nodesValid (sqrt : R → R) (lines : List (StoredLine R)) :
    List (Vector2 R) → Bool
  | [] => true
  | segmentStart :: rest =>
    match rest with
    | [] => true
    | segmentEnd :: _ =>
      if segmentOnRoad sqrt lines segmentStart segmentEnd then
        nodesValid sqrt lines rest
      else false

/-- The body of the re-validation loop for one route (server.go 624-647):
the value of `routeIsValid`, or `none` when rebuilding the nodes panics. -/
def routeIsValid (sqrt : R → R) (lines : List (StoredLine R))
    (route : StoredBusRoute R) : Option Bool :=
  match toNodes route.Points with
  | some nodes => some (nodesValid sqrt lines nodes)
  | none => none

/-- The loop `for i := 0; i < len(s.busRoutes); i++` of server.go 623-652 on
the routes from index `i` on: the slice `routesToPrune`. -/
def routesToPrune (sqrt : R → R) (lines : List (StoredLine R)) :
    Nat → List (StoredBusRoute R) → Option (List Nat)
  | _, [] => some []
  | i, route :: rest =>
    match routeIsValid sqrt lines route with
    | none => none
    | some routeIsValid =>
      match routesToPrune sqrt lines (i + 1) rest with
      | none => none
      | some more => some (if routeIsValid then more else i :: more)

/-- The loop `for k := len(routesToPrune) - 1; k >= 0; k--` of server.go
654-659; the argument is `routesToPrune` reversed, i.e. in visiting order. -/
def pruneLoop : List Nat → List (StoredBusRoute R) × List (Bus R) →
    List (StoredBusRoute R) × List (Bus R)
  | [], st => st
  | idxToRemove :: more, st =>
    pruneLoop more (st.1.eraseIdx idxToRemove,
      removeBusesForRoute (idxToRemove : Int) st.2)

/-- The income adjustment after a building was deleted (server.go 563-574):
the new income rate. -/
def incomeAfterDelete (incomeRate : R) (deletedBuildingType : Int) : R :=
  let rate :=
    if deletedBuildingType = Commercial then incomeRate - COMMERCIAL_INCOME_INCREASE R
    else if deletedBuildingType = Industrial then incomeRate - INDUSTRIAL_INCOME_INCREASE R
    else incomeRate
  if rate < 0 then 0 else rate

/-- The tail of `deleteObject` when something was deleted (server.go
662-666): `STATE_RESET`, then the full state to every connection. -/
def resync (s : LobbyServer R) : List (Out R) :=
  [Out.toAll Msg.stateReset, Out.fullStateToAll s]

/-- The method `deleteObject` (server.go 545-669), after the fields of the
line are parsed.  The three searches run in the order buildings, lines,
route nodes, each only when nothing was deleted before; `none` is a
run-time panic. -/
def deleteObject (sqrt : R → R) (s : LobbyServer R) (playerID : String)
    (x y : R) : Option (LobbyServer R × List (Out R)) :=
  match scanDown (buildingHit sqrt x y) s.buildings s.buildings.length with
  | some (i, b) =>
    let s1 := { s with buildings := s.buildings.eraseIdx i }
    if b.Typ ≠ -1 then
      let s2 := { s1 with incomeRate := incomeAfterDelete s.incomeRate b.Typ }
      some (s2, Out.toAll (Msg.money s2.money) :: resync s2)
    else some (s1, resync s1)
  | none =>
    match scanDown (lineHit sqrt x y) s.lines s.lines.length with
    | some (i, l) =>
      if l.Typ = Road then
        let roadLength := Vector2Distance sqrt ⟨l.StartX, l.StartY⟩ ⟨l.EndX, l.EndY⟩
        let refund := roadLength * ROAD_COST_PER_UNIT R
        let money := s.money + refund
        let lines := s.lines.eraseIdx i
        match routesToPrune sqrt lines 0 s.busRoutes with
        | none => none
        | some toPrune =>
          let pruned := pruneLoop toPrune.reverse (s.busRoutes, s.buses)
          let s1 := { s with lines := lines, money := money,
                             busRoutes := pruned.1, buses := pruned.2 }
          some (s1, Out.toAll (Msg.money money) :: resync s1)
      else
        let s1 := { s with lines := s.lines.eraseIdx i }
        some (s1, resync s1)
    | none =>
      match routeScan sqrt x y s.busRoutes s.busRoutes.length with
      | none => none
      | some (some i) =>
        let s1 := { s with busRoutes := s.busRoutes.eraseIdx i,
                           buses := removeBusesForRoute (i : Int) s.buses }
        some (s1, resync s1)
      | some none =>
        some (s, [Out.toPlayer playerID (Msg.status "No deletable object found here.")])

end Commands

/-! ## Simulation scheduler (server.go 134-240) -/

section Scheduler

variable {R : Type} [LinearOrderedField R]

/-- The tick body of `incomeRoutine` (server.go 144-147). -/
def incomeTick (s : LobbyServer R) : LobbyServer R × List (Out R) :=
  if s.incomeRate > 0 then
    ({ s with money := s.money + s.incomeRate },
      [Out.toAll (Msg.money (s.money + s.incomeRate))])
  else (s, [])

/-- The slice access `currentRoute.Nodes[k]` with a Go `int` index; `none`
is the index panic. -/
def nodeAt (nodes : List (Vector2 R)) (k : Int) : Option (Vector2 R) :=
  if k < 0 then none else nodes[k.toNat]?

/-- The choice of `startNode`, `endNode` by direction (server.go 183-189
and 227-233). -/
def segmentEnds (nodes : List (Vector2 R)) (currentSegment direction : Int) :
    Option (Vector2 R × Vector2 R) :=
  match nodeAt nodes currentSegment, nodeAt nodes (currentSegment + 1) with
  | some lo, some hi => if direction = 1 then some (lo, hi) else some (hi, lo)
  | _, _ => none

/-- The lap reward paid at a route end (server.go 206-209 and 218-221): the
new money. -/
def payReward (money length : R) : R :=
  if length > 0 then money + length / 16 else money

/-- The progress update of server.go 191-196 on a segment of length
`distance`. -/
def advanceProgress (progress distance : R) : R :=
  if distance > 0 then progress + (BUS_SPEED R / distance) * frameTime R else 1

/-- The block `if bus.Progress >= 1.0 { ... }` of server.go 198-225 for a
bus whose progress was just updated to `progress`, on a route of `n` nodes
and stored length `length`: the new bus, the new money and the money
broadcasts. -/
def finishSegment (bus : Bus R) (progress : R) (n : Nat) (money length : R) :
    Bus R × R × List (Out R) :=
  if progress ≥ 1 then
    if bus.Direction = 1 then
      if bus.CurrentSegment + 1 ≥ (n : Int) - 1 then
        ({ bus with Progress := 0, Direction := -1, CurrentSegment := (n : Int) - 2 },
          payReward money length, [Out.toAll (Msg.money (payReward money length))])
      else
        ({ bus with Progress := 0, CurrentSegment := bus.CurrentSegment + 1 }, money, [])
    else
      if bus.CurrentSegment - 1 < 0 then
        ({ bus with Progress := 0, Direction := 1, CurrentSegment := 0 },
          payReward money length, [Out.toAll (Msg.money (payReward money length))])
      else
        ({ bus with Progress := 0, CurrentSegment := bus.CurrentSegment - 1 }, money, [])
  else ({ bus with Progress := progress }, money, [])

/-- The body of the loop `for i := range s.buses` of `updateBusesRoutine`
for the bus at index `i` (server.go 164-236): the new bus, the new money
and the broadcasts; `none` is an index panic. -/
def updateBus (sqrt : R → R) (busRoutes : List (StoredBusRoute R)) (i : Nat)
    (bus : Bus R) (money : R) : Option (Bus R × R × List (Out R)) :=
  if bus.RouteID ≥ (busRoutes.length : Int) then some (bus, money, [])
  else if bus.RouteID < 0 then none
  else
    match busRoutes[bus.RouteID.toNat]? with
    | none => none
    | some storedRoute =>
      match toNodes storedRoute.Points with
      | none => none
      | some nodes =>
        if nodes.length < 2 then some (bus, money, [])
        else
          match segmentEnds nodes bus.CurrentSegment bus.Direction with
          | none => none
          | some (startNode, endNode) =>
            let distance := Vector2Distance sqrt startNode endNode
            let moved := finishSegment bus (advanceProgress bus.Progress distance)
              nodes.length money storedRoute.Length
            match segmentEnds nodes moved.1.CurrentSegment moved.1.Direction with
            | none => none
            | some (startNode, endNode) =>
              let position := Vector2Lerp startNode endNode moved.1.Progress
              some ({ moved.1 with Position := position }, moved.2.1,
                moved.2.2 ++ [Out.toAll (Msg.bus i position.X position.Y)])

/-- The loop `for i := range s.buses` of `updateBusesRoutine` on the buses
from index `i` on, threading `s.money`. -/
def updateBuses (sqrt : R → R) (busRoutes : List (StoredBusRoute R)) :
    Nat → List (Bus R) → R → Option (List (Bus R) × R × List (Out R))
  | _, [], money => some ([], money, [])
  | i, bus :: rest, money =>
    match updateBus sqrt busRoutes i bus money with
    | none => none
    | some (bus1, money1, out1) =>
      match updateBuses sqrt busRoutes (i + 1) rest money1 with
      | none => none
      | some (rest1, money2, out2) => some (bus1 :: rest1, money2, out1 ++ out2)

/-- One bus-motion tick of `updateBusesRoutine` (server.go 162-238). -/
def busTick (sqrt : R → R) (s : LobbyServer R) :
    Option (LobbyServer R × List (Out R)) :=
  match updateBuses sqrt s.busRoutes 0 s.buses s.money with
  | none => none
  | some (buses, money, out) => some ({ s with buses := buses, money := money }, out)

end Scheduler

/-! ## Runs of the server -/

section Runs

variable {R : Type} [LinearOrderedField R]

/-- The things that change the game state: the four state-changing commands
(with the fields of their line parsed) and the two economy ticks. -/
inductive Event (R : Type) where
  /-- An accepted-for-dispatch line `I:<id>:<sx>:<sy>:<ex>:<ey>:<type>`. -/
  | I (msg playerID : String) (startX startY endX endY : R) (infraType : Int)
  /-- A line `B:<id>:<x>:<y>:<type>`. -/
  | B (msg playerID : String) (x y : R) (buildingType : Int)
  /-- A line `R:<id>:<x1>:<y1>:...` whose coordinates all parse. -/
  | Rt (msg playerID : String) (nodes : List (Vector2 R))
  /-- A line `D:<id>:<x>:<y>`. -/
  | D (playerID : String) (x y : R)
  /-- One tick of `updateBusesRoutine`. -/
  | busTick
  /-- One tick of `incomeRoutine`. -/
  | incomeTick

/-- The effect of one event on the state; `none` is a run-time panic. -/
def applyEvent (sqrt : R → R) (s : LobbyServer R) : Event R → Option (LobbyServer R)
  | Event.I msg playerID startX startY endX endY infraType =>
    some (addInfrastructure sqrt s msg playerID startX startY endX endY infraType).1
  | Event.B msg playerID x y buildingType =>
    some (addBuilding s msg playerID x y buildingType).1
  | Event.Rt msg playerID nodes => some (addBusRoute sqrt s msg playerID nodes).1
  | Event.D playerID x y => (deleteObject sqrt s playerID x y).map Prod.fst
  | Event.busTick => (busTick sqrt s).map Prod.fst
  | Event.incomeTick => some (incomeTick s).1

/-- The state after a finite sequence of events, each applied under the
lock, from the state `s`. -/
def run (sqrt : R → R) (s : LobbyServer R) : List (Event R) → Option (LobbyServer R)
  | [] => some s
  | e :: rest =>
    match applyEvent sqrt s e with
    | none => none
    | some s1 => run sqrt s1 rest

/-- The states the server reaches from `Start` by a finite sequence of
events. -/
def Reachable (sqrt : R → R) (s : LobbyServer R) : Prop :=
  ∃ events : List (Event R), run sqrt (Start R) events = some s

end Runs

/-! ## Protocol text (server.go 257-291, strings and strconv) -/

section ProtocolText

/-- The Go library functions that the protocol code calls on text, taken as
parameters: `strconv.ParseFloat(text, 32)` and `strconv.Atoi(text)` return
the value together with whether `err == nil`; `strings.TrimSpace`; and the
`fmt` verbs `%.0f` and `%d`. -/
structure Library (R : Type) where
  ParseFloat : String → R × Bool
  Atoi : String → Int × Bool
  TrimSpace : String → String
  Fmt0 : R → String
  FmtInt : Int → String

/-- The pieces of a byte string between the occurrences of the byte `sep`:
the function `strings.Split(text, sep)` for a one-byte separator.  The
result is never empty. -/
def splitOnChar (sep : Char) : List Char → List (List Char)
  | [] => [[]]
  | c :: rest =>
    if c = sep then [] :: splitOnChar sep rest
    else
      match splitOnChar sep rest with
      | [] => [[c]]
      | piece :: more => (c :: piece) :: more

/-- The call `strings.Split(msg, ":")`. -/
def splitColon (msg : String) : List String :=
  (splitOnChar ':' msg.data).map String.mk

/-- The fields joined by `":"`, as the `fmt.Sprintf` formats `"I:%s:..."`
of the protocol build their lines. -/
def joinChars : List (List Char) → List Char
  | [] => []
  | [piece] => piece
  | piece :: more => piece ++ ':' :: joinChars more

/-- The protocol line with the given fields. -/
def joinColon (fields : List String) : String :=
  String.mk (joinChars (fields.map String.data))

/-- The element `parts[i]` of a split line; the index is in range at every
use. -/
def field (parts : List String) (i : Nat) : String :=
  parts.getD i ""

/-- The call `strings.Index(leftover, "\n")`, and in general the index of
the first byte `c`; `none` stands for `-1`. -/
def indexByte (c : Char) : List Char → Option Nat
  | [] => none
  | b :: rest => if b = c then some 0 else (indexByte c rest).map (· + 1)

/-- The inner loop of `handleClient` (server.go 274-289) on the buffer
`leftover`: the messages handed to `handleMessage`, in order, and the new
`leftover`.  The first argument bounds the number of iterations; every
iteration removes at least one byte, so `leftover.length` is enough. -/
def extractLines {R : Type} (lib : Library R) : Nat → List Char → List String × List Char
  | 0, leftover => ([], leftover)
  | fuel + 1, leftover =>
    match indexByte '\n' leftover with
    | none => ([], leftover)
    | some idx =>
      let fullMsg := lib.TrimSpace (String.mk (leftover.take idx))
      let rest := extractLines lib fuel (leftover.drop (idx + 1))
      (fullMsg :: rest.1, rest.2)

/-- One iteration of the read loop of `handleClient` after a successful
`conn.Read` that returned the bytes `chunk` (server.go 272-289). -/
def readChunk {R : Type} (lib : Library R) (leftover chunk : List Char) :
    List String × List Char :=
  extractLines lib (leftover ++ chunk).length (leftover ++ chunk)

/-- The read loop of `handleClient` over the successive results of
`conn.Read`: all messages handed to `handleMessage`, in order, and the final
`leftover`. -/
def readAll {R : Type} (lib : Library R) : List Char → List (List Char) →
    List String × List Char
  | leftover, [] => ([], leftover)
  | leftover, chunk :: more =>
    let first := readChunk lib leftover chunk
    let rest := readAll lib first.2 more
    (first.1 ++ rest.1, rest.2)

end ProtocolText

/-! ## Message dispatch (server.go 293-353, 401-407, 432-436, 473-487, 540-543) -/

section Dispatch

variable {R : Type} [LinearOrderedField R]

/-- The struct `Player` (server.go 40-45) without `LastSeen`; connections
are numbered. -/
structure Player where
  Conn : Nat
  ID : String
  Name : String

/-- The struct `LobbyServer` with its two maps: `game` holds the fields of
`LobbyServer R`, `players` is the map `players` and `playerConns` the map
`playerConns`. -/
structure Lobby (R : Type) where
  game : LobbyServer R
  players : String → Option Player
  playerConns : Nat → Option String

/-- The head of `addInfrastructure` (server.go 401-407): the fields are
parsed and the parse errors are discarded (`startX, _ := ...`). -/
def addInfrastructureLine (lib : Library R) (sqrt : R → R) (s : LobbyServer R)
    (msg : String) (parts : List String) : LobbyServer R × List (Out R) :=
  let playerID := field parts 1
  let startX := (lib.ParseFloat (field parts 2)).1
  let startY := (lib.ParseFloat (field parts 3)).1
  let endX := (lib.ParseFloat (field parts 4)).1
  let endY := (lib.ParseFloat (field parts 5)).1
  let infraType := (lib.Atoi (field parts 6)).1
  addInfrastructure sqrt s msg playerID startX startY endX endY infraType

/-- The head of `addBuilding` (server.go 432-436): the fields are parsed and
the parse errors are discarded. -/
def addBuildingLine (lib : Library R) (s : LobbyServer R)
    (msg : String) (parts : List String) : LobbyServer R × List (Out R) :=
  let playerID := field parts 1
  let x := (lib.ParseFloat (field parts 2)).1
  let y := (lib.ParseFloat (field parts 3)).1
  let buildingTypeInt := (lib.Atoi (field parts 4)).1
  addBuilding s msg playerID x y buildingTypeInt

/-- The parse loop `for i := 2; i < len(parts); i += 2` of `addBusRoute`
(server.go 477-487) on the fields from index `i` on.  The outer `none` is
the run-time panic of `parts[i+1]` past the end, the inner `none` the
return after `STATUS:Invalid coordinates for bus route node.`. -/
def parseNodes (lib : Library R) : List String → Option (Option (List (Vector2 R)))
  | [] => some (some [])
  | [_] => none
  | sx :: sy :: rest =>
    let x := lib.ParseFloat sx
    let y := lib.ParseFloat sy
    if x.2 = true ∧ y.2 = true then
      match parseNodes lib rest with
      | none => none
      | some none => some none
      | some (some nodes) => some (some (⟨x.1, y.1⟩ :: nodes))
    else some none

/-- The method `addBusRoute` (server.go 473-538) from the fields of the
line; `none` is a run-time panic. -/
def addBusRouteLine (lib : Library R) (sqrt : R → R) (s : LobbyServer R)
    (msg : String) (parts : List String) : Option (LobbyServer R × List (Out R)) :=
  let playerID := field parts 1
  match parseNodes lib (parts.drop 2) with
  | none => none
  | some none =>
    some (s, [Out.toPlayer playerID (Msg.status "Invalid coordinates for bus route node.")])
  | some (some nodes) => some (addBusRoute sqrt s msg playerID nodes)

/-- The head of `deleteObject` (server.go 540-543): the fields are parsed
and the parse errors are discarded. -/
def deleteObjectLine (lib : Library R) (sqrt : R → R) (s : LobbyServer R)
    (parts : List String) : Option (LobbyServer R × List (Out R)) :=
  let playerID := field parts 1
  let x := (lib.ParseFloat (field parts 2)).1
  let y := (lib.ParseFloat (field parts 3)).1
  deleteObject sqrt s playerID x y

/-- The method `handleMessage` (server.go 293-353) for the line `msg` read
from the connection `conn`: the new state and the broadcast calls made, in
order; `none` is a run-time panic.  The `LastSeen` stamp is not modelled. -/
def handleMessage (lib : Library R) (sqrt : R → R) (srv : Lobby R) (msg : String)
    (conn : Nat) : Option (Lobby R × List (Out R)) :=
  let parts := splitColon msg
  let msgType := field parts 0
  if msgType = "PING" then some (srv, [])
  else if msgType = "JOIN" then
    if parts.length = 3 then
      let playerID := field parts 1
      let player : Player := { Conn := conn, ID := playerID, Name := field parts 2 }
      let srv1 : Lobby R :=
        { srv with
          players := fun k => if k = playerID then some player else srv.players k,
          playerConns := fun c => if c = conn then some playerID else srv.playerConns c }
      some (srv1, [Out.fullStateTo conn srv.game, Out.toAll (Msg.money srv.game.money)])
    else some (srv, [])
  else if msgType = "C" then
    if parts.length = 4 then
      let playerID := field parts 1
      match srv.players playerID with
      | some player =>
        some (srv, [Out.toOthers conn
          (Msg.cursor playerID player.Name (field parts 2) (field parts 3))])
      | none => some (srv, [])
    else some (srv, [])
  else if msgType = "I" then
    if parts.length = 7 then
      let r := addInfrastructureLine lib sqrt srv.game msg parts
      some ({ srv with game := r.1 }, r.2)
    else some (srv, [])
  else if msgType = "B" then
    if parts.length = 5 then
      let r := addBuildingLine lib srv.game msg parts
      some ({ srv with game := r.1 }, r.2)
    else some (srv, [])
  else if msgType = "R" then
    if 6 ≤ parts.length ∧ (parts.length - 2) % 2 = 0 then
      (addBusRouteLine lib sqrt srv.game msg parts).map
        fun r => ({ srv with game := r.1 }, r.2)
    else some (srv, [])
  else if msgType = "D" then
    if parts.length = 4 then
      (deleteObjectLine lib sqrt srv.game parts).map
        fun r => ({ srv with game := r.1 }, r.2)
    else some (srv, [])
  else some (srv, [])

/-- The deferred cleanup of `handleClient` (server.go 244-255) for the
connection `conn`: the new state and the broadcast calls made. -/
def teardown (srv : Lobby R) (conn : Nat) : Lobby R × List (Out R) :=
  match srv.playerConns conn with
  | some pID =>
    let out : List (Out R) :=
      match srv.players pID with
      | some _ => [Out.toOthers conn (Msg.disconnect pID)]
      | none => []
    ({ srv with
       players := fun k => if k = pID then none else srv.players k,
       playerConns := fun c => if c = conn then none else srv.playerConns c }, out)
  | none => (srv, [])

/-- What happens on a connection: a line handed to `handleMessage`, or the
teardown of the connection. -/
inductive LobbyEvent where
  /-- The line `msg` was read from the connection `conn`. -/
  | message (conn : Nat) (msg : String)
  /-- The read loop of the connection `conn` ended. -/
  | teardown (conn : Nat)

/-- The state after one event; `none` is a run-time panic. -/
def lobbyStep (lib : Library R) (sqrt : R → R) (srv : Lobby R) :
    LobbyEvent → Option (Lobby R)
  | LobbyEvent.message conn msg => (handleMessage lib sqrt srv msg conn).map Prod.fst
  | LobbyEvent.teardown conn => some (teardown srv conn).1

/-- The state after a list of events, in order. -/
def lobbyRun (lib : Library R) (sqrt : R → R) (srv : Lobby R) :
    List LobbyEvent → Option (Lobby R)
  | [] => some srv
  | ev :: more =>
    match lobbyStep lib sqrt srv ev with
    | none => none
    | some srv1 => lobbyRun lib sqrt srv1 more

end Dispatch

/-! ## Full-state resend (server.go 375-399) and the client mirror (client.go 16-40, 153-306) -/

section Mirror

variable {R : Type} [LinearOrderedField R]

/-- The message `lineMsg` of `sendFullState`:
`fmt.Sprintf("I:%s:%.0f:%.0f:%.0f:%.0f:%d\n", ...)`. -/
def lineMsg (lib : Library R) (line : StoredLine R) : String :=
  joinColon ["I", line.PlayerID, lib.Fmt0 line.StartX, lib.Fmt0 line.StartY,
    lib.Fmt0 line.EndX, lib.Fmt0 line.EndY, lib.FmtInt line.Typ] ++ "\n"

/-- The message `bMsg` of `sendFullState`:
`fmt.Sprintf("B:%s:%.0f:%.0f:%d\n", ...)`. -/
def bMsg (lib : Library R) (b : StoredBuilding R) : String :=
  joinColon ["B", b.PlayerID, lib.Fmt0 b.X, lib.Fmt0 b.Y, lib.FmtInt b.Typ] ++ "\n"

/-- The message `routeMsg` of `sendFullState`: `"R:%s"`, then `":%.0f"`
appended for every point, then the line break. -/
def routeMsg (lib : Library R) (r : StoredBusRoute R) : String :=
  r.Points.foldl (fun acc p => acc ++ ":" ++ lib.Fmt0 p) ("R:" ++ r.PlayerID) ++ "\n"

/-- The message `busPosMsg` of `sendFullState`:
`fmt.Sprintf("BUS:%d:%.0f:%.0f\n", i, ...)`. -/
def busPosMsg (lib : Library R) (i : Nat) (bus : Bus R) : String :=
  joinColon ["BUS", lib.FmtInt (i : Int), lib.Fmt0 bus.Position.X,
    lib.Fmt0 bus.Position.Y] ++ "\n"

/-- A loop `for _, a := range l { conn.Write(f(a)) }` after the writes
`written`. -/
def writeEach {α : Type} (f : α → String) : List α → List String → List String
  | [], written => written
  | a :: rest, written => writeEach f rest (written ++ [f a])

/-- The loop `for i, bus := range s.buses` of `sendFullState` from index `i`
on, after the writes `written`. -/
def writeBuses (lib : Library R) : Nat → List (Bus R) → List String → List String
  | _, [], written => written
  | i, bus :: rest, written => writeBuses lib (i + 1) rest (written ++ [busPosMsg lib i bus])

/-- The method `sendFullState` (server.go 375-399): the messages written to
the connection, one per `conn.Write`, in order. -/
def sendFullState (lib : Library R) (s : LobbyServer R) : List String :=
  let w1 := writeEach (lineMsg lib) s.lines []
  let w2 := writeEach (bMsg lib) s.buildings w1
  let w3 := writeEach (routeMsg lib) s.busRoutes w2
  let w4 := writeBuses lib 0 s.buses w3
  w4 ++ ["STATE_SYNCED\n"]

/-- The struct `CityLine` (client.go 16-21); the field `Type` is `Typ`. -/
structure CityLine (R : Type) where
  Start : Vector2 R
  End : Vector2 R
  Typ : Int
  PlayerID : String

/-- The struct `Building` (shared.go 33-37); the field `Type` is `Typ`. -/
structure Building (R : Type) where
  Position : Vector2 R
  Typ : Int
  PlayerID : String

/-- The struct `BusRoute` (shared.go 39-43). -/
structure BusRoute (R : Type) where
  Nodes : List (Vector2 R)
  PlayerID : String
  Length : R

/-- The struct `PlayerCursor` (client.go 23-26). -/
structure PlayerCursor (R : Type) where
  Position : Vector2 R
  Name : String

/-- The mirror part of the struct `LobbyClient` (client.go 28-40). -/
structure LobbyClient (R : Type) where
  OtherCursors : String → Option (PlayerCursor R)
  CityLines : List (CityLine R)
  Buildings : List (Building R)
  BusRoutes : List (BusRoute R)
  Buses : List (Bus R)
  Money : R

/-- The zero value `Bus{}`. -/
def zeroBus : Bus R :=
  { Position := ⟨0, 0⟩, RouteID := 0, CurrentSegment := 0, Progress := 0, Direction := 0 }

/-- The loop `for len(c.Buses) <= busID { c.Buses = append(c.Buses, Bus{}) }`
(client.go 275-277), run for at most `fuel` rounds. -/
def growBuses (busID : Int) : Nat → List (Bus R) → List (Bus R)
  | 0, buses => buses
  | fuel + 1, buses =>
    if (buses.length : Int) ≤ busID then growBuses busID fuel (buses ++ [zeroBus])
    else buses

/-- The `switch cmd` of `listen` (client.go 184-304) on the trimmed,
non-empty line `fullMsg`; `none` is a run-time panic (an index out of range
in the `BUS` case). -/
def clientHandle (lib : Library R) (c : LobbyClient R) (fullMsg : String) :
    Option (LobbyClient R) :=
  let parts := splitColon fullMsg
  let cmd := field parts 0
  if cmd = "C" then
    if parts.length = 5 then
      let playerID := field parts 1
      let playerName := field parts 2
      let x := lib.ParseFloat (field parts 3)
      let y := lib.ParseFloat (field parts 4)
      if x.2 = true ∧ y.2 = true then
        some { c with
          OtherCursors := fun k =>
            if k = playerID then some { Position := ⟨x.1, y.1⟩, Name := playerName }
            else c.OtherCursors k }
      else some c
    else some c
  else if cmd = "STATE_RESET" then
    some { c with CityLines := [], Buildings := [], BusRoutes := [], Buses := [] }
  else if cmd = "I" then
    if parts.length = 7 then
      let playerID := field parts 1
      let startX := lib.ParseFloat (field parts 2)
      let startY := lib.ParseFloat (field parts 3)
      let endX := lib.ParseFloat (field parts 4)
      let endY := lib.ParseFloat (field parts 5)
      let infraType := lib.Atoi (field parts 6)
      if ¬ (startX.2 = false ∨ startY.2 = false ∨ endX.2 = false ∨ endY.2 = false ∨
          infraType.2 = false) then
        let newLine : CityLine R :=
          { Start := ⟨startX.1, startY.1⟩, End := ⟨endX.1, endY.1⟩,
            Typ := infraType.1, PlayerID := playerID }
        some { c with CityLines := c.CityLines ++ [newLine] }
      else some c
    else some c
  else if cmd = "B" then
    if parts.length = 5 then
      let playerID := field parts 1
      let x := lib.ParseFloat (field parts 2)
      let y := lib.ParseFloat (field parts 3)
      let buildingType := lib.Atoi (field parts 4)
      if x.2 = true ∧ y.2 = true ∧ buildingType.2 = true then
        let newBuilding : Building R :=
          { Position := ⟨x.1, y.1⟩, Typ := buildingType.1, PlayerID := playerID }
        some { c with Buildings := c.Buildings ++ [newBuilding] }
      else some c
    else some c
  else if cmd = "R" then
    if 6 ≤ parts.length ∧ (parts.length - 2) % 2 = 0 then
      let playerID := field parts 1
      match parseNodes lib (parts.drop 2) with
      | none => none
      | some none => some c
      | some (some nodes) =>
        if 2 ≤ nodes.length then
          let newRoute : BusRoute R := { Nodes := nodes, PlayerID := playerID, Length := 0 }
          some { c with BusRoutes := c.BusRoutes ++ [newRoute] }
        else some c
    else some c
  else if cmd = "BUS" then
    if parts.length = 4 then
      let busID := lib.Atoi (field parts 1)
      let x := lib.ParseFloat (field parts 2)
      let y := lib.ParseFloat (field parts 3)
      if busID.2 = true ∧ x.2 = true ∧ y.2 = true then
        let buses := growBuses busID.1 (busID.1 + 1).toNat c.Buses
        if busID.1 < 0 then none
        else
          match buses[busID.1.toNat]? with
          | none => none
          | some bus =>
            some { c with
              Buses := buses.set busID.1.toNat
                { bus with Position := ⟨x.1, y.1⟩, RouteID := busID.1 } }
      else some c
    else some c
  else if cmd = "MONEY" then
    if parts.length = 2 then
      let moneyVal := lib.ParseFloat (field parts 1)
      if moneyVal.2 = true then some { c with Money := moneyVal.1 } else some c
    else some c
  else if cmd = "STATUS" then some c
  else if cmd = "DISCONNECT" then
    if parts.length = 2 then
      let playerID := field parts 1
      some { c with OtherCursors := fun k => if k = playerID then none else c.OtherCursors k }
    else some c
  else some c

/-- The loop of `listen` (client.go 162-305) over the lines that
`reader.ReadBytes('\n')` returns, line break included: each line is
trimmed, an empty one is skipped, the others go through the switch.
`none` is a run-time panic, which ends `listen`. -/
def listen (lib : Library R) : LobbyClient R → List String → Option (LobbyClient R)
  | c, [] => some c
  | c, lineBytes :: more =>
    let fullMsg := lib.TrimSpace lineBytes
    if fullMsg = "" then listen lib c more
    else
      match clientHandle lib c fullMsg with
      | none => none
      | some c1 => listen lib c1 more

end Mirror

/-! ## A library instance on whole-number text -/

section SampleLibrary

/-- The value of a decimal digit. -/
def digitValue (c : Char) : Option Nat :=
  if '0' ≤ c ∧ c ≤ '9' then some (c.toNat - 48) else none

/-- The value of a string of decimal digits, `acc` being the value read so
far; `none` when a character is not a digit. -/
def parseDigits : List Char → Nat → Option Nat
  | [], acc => some acc
  | c :: rest, acc =>
    match digitValue c with
    | none => none
    | some d => parseDigits rest (10 * acc + d)

/-- The value of a non-empty string of decimal digits with an optional
leading minus sign; `none` for every other string. -/
def parseInteger (chars : List Char) : Option Int :=
  match chars with
  | [] => none
  | '-' :: rest =>
    if rest = [] then none else (parseDigits rest 0).map fun n => -(n : Int)
  | _ => (parseDigits chars 0).map Int.ofNat

/-- Rounding to the nearest whole number, ties to the even one, as
`%.0f` prints. -/
def roundHalfEven (q : ℚ) : Int :=
  let f := ⌊q⌋
  let r := q - f
  if r < 1 / 2 then f
  else if 1 / 2 < r then f + 1
  else if f % 2 = 0 then f else f + 1

/-- The characters that `strings.TrimSpace` strips. -/
def isSpace (c : Char) : Bool :=
  c = ' ' || c = '\t' || c = '\n' || c = '\x0b' || c = '\x0c' || c = '\r' ||
    c = '\u0085' || c = ' '

/-- The function `strings.TrimSpace`. -/
def trimSpace (s : String) : String :=
  String.mk ((s.data.dropWhile isSpace).reverse.dropWhile isSpace).reverse

/-- A library over the rationals that reads and prints whole numbers.
`ParseFloat` and `Atoi` accept a string of decimal digits with an optional
minus sign and return its value; every other string is rejected with the
value 0, as `strconv` returns on a syntax error (the functions of `strconv`
accept more spellings, such as fractions and exponents).  `Fmt0` is
`%.0f`, `FmtInt` is `%d`. -/
def decimalLibrary : Library ℚ where
  ParseFloat := fun s =>
    match parseInteger s.data with
    | some n => ((n : ℚ), true)
    | none => (0, false)
  Atoi := fun s =>
    match parseInteger s.data with
    | some n => (n, true)
    | none => (0, false)
  TrimSpace := trimSpace
  Fmt0 := fun q =>
    (if q < 0 then "-" else "") ++ Nat.repr (roundHalfEven q).natAbs
  FmtInt := fun n => (if n < 0 then "-" else "") ++ Nat.repr n.natAbs

/-- A lobby without players around the game state `game`. -/
def lobbyOf {R : Type} (game : LobbyServer R) : Lobby R :=
  { game := game, players := fun _ => none, playerConns := fun _ => none }

end SampleLibrary

/-! ## Float values that are not numbers (server.go 401-430 on NaN) -/

section NotANumber

variable {R : Type} [LinearOrderedField R]

/-- A `float32` of the server with arithmetic taken as exact: a number, or
the value NaN, which `strconv.ParseFloat` returns without an error for the
text `NaN`.  Infinities and rounding are left out. -/
inductive Float32 (R : Type) where
  /-- An ordinary number. -/
  | val (v : R)
  /-- The value NaN. -/
  | NaN
  deriving DecidableEq

/-- Subtraction of floats: NaN when an operand is NaN. -/
def sub32 : Float32 R → Float32 R → Float32 R
  | Float32.val a, Float32.val b => Float32.val (a - b)
  | _, _ => Float32.NaN

/-- Addition of floats: NaN when an operand is NaN. -/
def add32 : Float32 R → Float32 R → Float32 R
  | Float32.val a, Float32.val b => Float32.val (a + b)
  | _, _ => Float32.NaN

/-- Multiplication of floats: NaN when an operand is NaN. -/
def mul32 : Float32 R → Float32 R → Float32 R
  | Float32.val a, Float32.val b => Float32.val (a * b)
  | _, _ => Float32.NaN

/-- The function `math.Sqrt`: NaN on NaN and on a negative number. -/
def sqrt32 (sqrt : R → R) : Float32 R → Float32 R
  | Float32.val a => if a < 0 then Float32.NaN else Float32.val (sqrt a)
  | Float32.NaN => Float32.NaN

/-- The comparison `a < b` of floats: false when an operand is NaN. -/
def lt32 : Float32 R → Float32 R → Bool
  | Float32.val a, Float32.val b => decide (a < b)
  | _, _ => false

/-- The raylib function `Vector2Distance` on floats. -/
def Vector2Distance32 (sqrt : R → R) (v1 v2 : Vector2 (Float32 R)) : Float32 R :=
  sqrt32 sqrt (add32 (mul32 (sub32 v1.X v2.X) (sub32 v1.X v2.X))
    (mul32 (sub32 v1.Y v2.Y) (sub32 v1.Y v2.Y)))

/-- The method `addInfrastructure` (server.go 409-429) on floats, after the
fields of the line are parsed: the same statements as `addInfrastructure`,
with the float operations. -/
def addInfrastructure32 (sqrt : R → R) (s : LobbyServer (Float32 R))
    (msg playerID : String) (startX startY endX endY : Float32 R) (infraType : Int) :
    LobbyServer (Float32 R) × List (Out (Float32 R)) :=
  let newLine : StoredLine (Float32 R) :=
    { StartX := startX, StartY := startY, EndX := endX, EndY := endY,
      Typ := infraType, PlayerID := playerID }
  if infraType = Road then
    let roadLength := Vector2Distance32 sqrt ⟨startX, startY⟩ ⟨endX, endY⟩
    let cost := mul32 roadLength (Float32.val (ROAD_COST_PER_UNIT R))
    if lt32 s.money cost = true then
      (s, [Out.toPlayer playerID (Msg.status "Not enough money to build road!")])
    else
      ({ s with money := sub32 s.money cost, lines := s.lines ++ [newLine] },
        [Out.toAll (Msg.money (sub32 s.money cost)), Out.toAll (Msg.raw msg)])
  else
    ({ s with lines := s.lines ++ [newLine] }, [Out.toAll (Msg.raw msg)])

/-- The head of `addInfrastructure` (server.go 401-407) on floats: the
fields are parsed and the parse errors are discarded.  `handleMessage`
calls it for an `I` line of seven fields. -/
def addInfrastructureLine32 (lib : Library (Float32 R)) (sqrt : R → R)
    (s : LobbyServer (Float32 R)) (msg : String) (parts : List String) :
    LobbyServer (Float32 R) × List (Out (Float32 R)) :=
  let playerID := field parts 1
  let startX := (lib.ParseFloat (field parts 2)).1
  let startY := (lib.ParseFloat (field parts 3)).1
  let endX := (lib.ParseFloat (field parts 4)).1
  let endY := (lib.ParseFloat (field parts 5)).1
  let infraType := (lib.Atoi (field parts 6)).1
  addInfrastructure32 sqrt s msg playerID startX startY endX endY infraType

/-- The state set up by `Start` (server.go 62-69), on floats. -/
def Start32 (R : Type) [LinearOrderedField R] : LobbyServer (Float32 R) :=
  { lines := [], buildings := [], busRoutes := [], buses := [],
    money := Float32.val 1000, incomeRate := Float32.val 0 }

/-- The library `decimalLibrary` on floats: `ParseFloat` reads the text
`NaN` as NaN without an error, as `strconv.ParseFloat` does, and whole
numbers as before; `Fmt0` prints NaN as `NaN`. -/
def nanLibrary : Library (Float32 ℚ) where
  ParseFloat := fun s =>
    if s = "NaN" then (Float32.NaN, true)
    else ((Float32.val (decimalLibrary.ParseFloat s).1), (decimalLibrary.ParseFloat s).2)
  Atoi := decimalLibrary.Atoi
  TrimSpace := decimalLibrary.TrimSpace
  Fmt0 := fun x =>
    match x with
    | Float32.val q => decimalLibrary.Fmt0 q
    | Float32.NaN => "NaN"
  FmtInt := decimalLibrary.FmtInt

end NotANumber

/-! ## Vocabulary of the specification -/

section Vocabulary

variable {R : Type} [LinearOrderedField R]

/-- A point is on a road: some stored line of kind Road is within the snap
distance 8 (inclusive) of it. -/
def OnRoad (sqrt : R → R) (lines : List (StoredLine R)) (p : Vector2 R) : Prop :=
  ∃ line ∈ lines, line.Typ = Road ∧
    pointSegmentDistance sqrt p ⟨line.StartX, line.StartY⟩ ⟨line.EndX, line.EndY⟩ ≤ 8

/-- The consecutive node pairs of a route. -/
def nodePairs (nodes : List (Vector2 R)) : List (Vector2 R × Vector2 R) :=
  nodes.zip nodes.tail

/-- The road validation of a route, as the specification words it: for
every consecutive node pair, each of the five sample points at
`t = 0, 1/4, 1/2, 3/4, 1` is on a road. -/
def RouteOnRoads (sqrt : R → R) (lines : List (StoredLine R))
    (nodes : List (Vector2 R)) : Prop :=
  ∀ seg ∈ nodePairs nodes, ∀ p ∈ List.range 5,
    OnRoad sqrt lines (Vector2Lerp seg.1 seg.2 ((p : R) / 4))

/-- The sum of the Euclidean distances between consecutive nodes. -/
def pathLength (sqrt : R → R) (nodes : List (Vector2 R)) : R :=
  ((nodePairs nodes).map fun seg => Vector2Distance sqrt seg.1 seg.2).sum

/-- The income rate the specification assigns to a building list: 5 per
stored Commercial building plus 25 per stored Industrial building. -/
def incomeOfBuildings (R : Type) [LinearOrderedField R]
    (buildings : List (StoredBuilding R)) : R :=
  5 * ((buildings.countP fun b => decide (b.Typ = Commercial) : Nat) : R) +
    25 * ((buildings.countP fun b => decide (b.Typ = Industrial) : Nat) : R)

/-- The income contribution of one building kind: 5 for Commercial, 25 for
Industrial, 0 for every other kind. -/
def contribution (R : Type) [LinearOrderedField R] (buildingType : Int) : R :=
  if buildingType = Commercial then 5 else if buildingType = Industrial then 25 else 0

/-- Route indices are dense: there is exactly one bus per route, in route
order, and the bus at position `i` has `RouteID = i`. -/
def DenseRoutes (s : LobbyServer R) : Prop :=
  s.buses.length = s.busRoutes.length ∧
    ∀ i : Nat, ∀ h : i < s.buses.length, (s.buses.get ⟨i, h⟩).RouteID = (i : Int)

/-- The list form of dense route indices: the RouteIDs of the buses, in
order, are `0, 1, ..., len(busRoutes) - 1`. -/
def DenseIds {R : Type} (routes : List (StoredBusRoute R)) (buses : List (Bus R)) : Prop :=
  buses.map (fun b => b.RouteID) =
    (List.range' 0 routes.length).map (fun k : Nat => (k : Int))

/-- The stored routes are well formed: every `Points` slice holds an even
number of coordinates, so the node slice can be rebuilt from it. -/
def RoutesWellFormed {R : Type} (routes : List (StoredBusRoute R)) : Prop :=
  ∀ r ∈ routes, ∃ nodes, toNodes r.Points = some nodes

/-- A stored route is kept by the re-validation against `lines`: its nodes
can be rebuilt and `routeIsValid` ends up true. -/
def routeKept {R : Type} [LinearOrderedField R] (sqrt : R → R)
    (lines : List (StoredLine R)) (r : StoredBusRoute R) : Bool :=
  match toNodes r.Points with
  | some nodes => nodesValid sqrt lines nodes
  | none => false

/-- The number of pruned routes with an index below `k`. -/
def prunedBefore {R : Type} (keep : StoredBusRoute R → Bool)
    (routes : List (StoredBusRoute R)) (k : Int) : Nat :=
  ((routes.take k.toNat).filter fun r => !keep r).length

/-- The route with index `k` exists and is pruned. -/
def routePruned {R : Type} (keep : StoredBusRoute R → Bool)
    (routes : List (StoredBusRoute R)) (k : Int) : Bool :=
  decide (0 ≤ k) && (match routes[k.toNat]? with
    | some r => !keep r
    | none => false)

/-- What pruning does to one bus, in the words of the specification: the
bus of a pruned route is removed, and every other bus has its route
reference lowered by the number of pruned routes with a smaller index. -/
def rebaseBus {R : Type} (keep : StoredBusRoute R → Bool)
    (routes : List (StoredBusRoute R)) (bus : Bus R) : Option (Bus R) :=
  if routePruned keep routes bus.RouteID then none
  else some { bus with RouteID := bus.RouteID - (prunedBefore keep routes bus.RouteID : Int) }

/-- The indices, counted from `i`, of the routes that `keep` rejects, in
ascending order. -/
def prunedIdx {R : Type} (keep : StoredBusRoute R → Bool) :
    Nat → List (StoredBusRoute R) → List Nat
  | _, [] => []
  | i, r :: rest => if keep r then prunedIdx keep (i + 1) rest
    else i :: prunedIdx keep (i + 1) rest

/-- The effect on one bus of removing the routes with the indices `pruned`,
largest index first. -/
def rebaseByIdx {R : Type} (pruned : List Nat) (bus : Bus R) : Option (Bus R) :=
  if bus.RouteID ∈ pruned.map (fun k : Nat => (k : Int)) then none
  else some { bus with RouteID :=
    bus.RouteID - ((pruned.filter fun k : Nat => decide ((k : Int) < bus.RouteID)).length : Int) }

/-- The body of the loop of `removeBusesForRoute` for one bus. -/
def keepBus {R : Type} (routeID : Int) (bus : Bus R) : Option (Bus R) :=
  if bus.RouteID ≠ routeID then
    some (if bus.RouteID > routeID then { bus with RouteID := bus.RouteID - 1 } else bus)
  else none

/-- A building is within the delete radius 24 of the target `(x, y)`. -/
def BuildingWithin {R : Type} [LinearOrderedField R] (sqrt : R → R) (x y : R)
    (b : StoredBuilding R) : Prop :=
  pointDist sqrt b.X b.Y x y ≤ 24

/-- A line is within the delete radius 24 of the target `(x, y)`: its start
point, its end point or its nearest point is. -/
def LineWithin {R : Type} [LinearOrderedField R] (sqrt : R → R) (x y : R)
    (l : StoredLine R) : Prop :=
  pointDist sqrt l.StartX l.StartY x y ≤ 24 ∨ pointDist sqrt l.EndX l.EndY x y ≤ 24 ∨
    pointSegmentDistance sqrt ⟨x, y⟩ ⟨l.StartX, l.StartY⟩ ⟨l.EndX, l.EndY⟩ ≤ 24

/-- A route has a node within the delete radius 24 of the target `(x, y)`. -/
def RouteWithin {R : Type} [LinearOrderedField R] (sqrt : R → R) (x y : R)
    (r : StoredBusRoute R) : Prop :=
  ∃ nodes, toNodes r.Points = some nodes ∧
    ∃ node ∈ nodes, pointDist sqrt node.X node.Y x y ≤ 24

/-- Every stored route is on roads: its nodes can be rebuilt, there are at
least two of them, and it passes the road validation against `lines`. -/
def StoredRoutesOnRoads {R : Type} [LinearOrderedField R] (sqrt : R → R)
    (lines : List (StoredLine R)) (routes : List (StoredBusRoute R)) : Prop :=
  ∀ r ∈ routes, ∃ nodes, toNodes r.Points = some nodes ∧ 2 ≤ nodes.length ∧
    RouteOnRoads sqrt lines nodes

/-- The piece `piece` with the byte `c` put in front of the first piece of
a split; on the empty list (which no split is) the single piece `[c]`. -/
def consHead (c : Char) : List (List Char) → List (List Char)
  | [] => [[c]]
  | piece :: more => (c :: piece) :: more

/-- The pieces of a byte string that are closed by a line break: the
pieces between consecutive `'\n'` bytes, without the part after the last
one. -/
def completePieces (bytes : List Char) : List (List Char) :=
  (splitOnChar '\n' bytes).dropLast

/-- The part of a byte string after its last line break (the whole string
when it has none). -/
def afterLastBreak (bytes : List Char) : List Char :=
  (splitOnChar '\n' bytes).getLastD []

/-- The coordinate `v` as a client reads it: printed with `%.0f`, then
parsed. -/
def wire {R : Type} (lib : Library R) (v : R) : R :=
  (lib.ParseFloat (lib.Fmt0 v)).1

/-- The client-side line with the data of the stored line `l`, its
coordinates passed through `w`. -/
def cityLineOf {R : Type} (w : R → R) (l : StoredLine R) : CityLine R :=
  { Start := ⟨w l.StartX, w l.StartY⟩, End := ⟨w l.EndX, w l.EndY⟩,
    Typ := l.Typ, PlayerID := l.PlayerID }

/-- The client-side building with the data of the stored building `b`. -/
def buildingOf {R : Type} (w : R → R) (b : StoredBuilding R) : Building R :=
  { Position := ⟨w b.X, w b.Y⟩, Typ := b.Typ, PlayerID := b.PlayerID }

/-- The nodes of a flat coordinate list, the coordinates passed through
`w`. -/
def nodesOf {R : Type} (w : R → R) : List R → List (Vector2 R)
  | x :: y :: rest => ⟨w x, w y⟩ :: nodesOf w rest
  | _ => []

/-- The client-side route with the nodes and player of the stored route `r`
and the length `len`. -/
def busRouteOf {R : Type} (w : R → R) (len : StoredBusRoute R → R)
    (r : StoredBusRoute R) : BusRoute R :=
  { Nodes := nodesOf w r.Points, PlayerID := r.PlayerID, Length := len r }

/-- What a `BUS` line leaves of the buses from index `i` on: the position
through `w`, the index as `RouteID`, and zero in the other fields. -/
def printedBuses {R : Type} [LinearOrderedField R] (w : R → R) :
    Nat → List (Bus R) → List (Bus R)
  | _, [] => []
  | i, bus :: rest =>
    { Position := ⟨w bus.Position.X, w bus.Position.Y⟩, RouteID := (i : Int),
      CurrentSegment := 0, Progress := 0, Direction := 0 } :: printedBuses w (i + 1) rest

/-- The mirror `c` holds the server's stored lines, buildings, routes and
buses field for field. -/
def FaithfulMirror {R : Type} (s : LobbyServer R) (c : LobbyClient R) : Prop :=
  c.CityLines = s.lines.map (cityLineOf id) ∧
    c.Buildings = s.buildings.map (buildingOf id) ∧
    c.BusRoutes = s.busRoutes.map (busRouteOf id fun r => r.Length) ∧
    c.Buses = s.buses

/-- The mirror `c` holds what the full-state lines carry: lines, buildings
and route nodes with every coordinate as printed by `%.0f`, routes with the
length 0, and per bus its printed position and its index. -/
def PrintedMirror {R : Type} [LinearOrderedField R] (lib : Library R)
    (s : LobbyServer R) (c : LobbyClient R) : Prop :=
  c.CityLines = s.lines.map (cityLineOf (wire lib)) ∧
    c.Buildings = s.buildings.map (buildingOf (wire lib)) ∧
    c.BusRoutes = s.busRoutes.map (busRouteOf (wire lib) fun _ => 0) ∧
    c.Buses = printedBuses (wire lib) 0 s.buses

/-- The coordinates stored in a state. -/
def coordsOf {R : Type} (s : LobbyServer R) : List R :=
  (s.lines.map fun l => [l.StartX, l.StartY, l.EndX, l.EndY]).flatten ++
    (s.buildings.map fun b => [b.X, b.Y]).flatten ++
    (s.busRoutes.map fun r => r.Points).flatten ++
    (s.buses.map fun b => [b.Position.X, b.Position.Y]).flatten

/-- The whole numbers that the full-state lines print: the kinds of the
lines and buildings and the indices of the buses. -/
def intsOf {R : Type} (s : LobbyServer R) : List Int :=
  s.lines.map (fun l => l.Typ) ++ s.buildings.map (fun b => b.Typ) ++
    (List.range s.buses.length).map fun i : Nat => (i : Int)

/-- The player ids stored in a state. -/
def idsOf {R : Type} (s : LobbyServer R) : List String :=
  s.lines.map (fun l => l.PlayerID) ++ s.buildings.map (fun b => b.PlayerID) ++
    s.busRoutes.map fun r => r.PlayerID

/-- The coordinate `v` prints to a text without colon that parses as a
number. -/
def ReadableCoord {R : Type} (lib : Library R) (v : R) : Prop :=
  (lib.ParseFloat (lib.Fmt0 v)).2 = true ∧ ':' ∉ (lib.Fmt0 v).data

/-- The whole number `n` prints to a text without colon that parses to
`n`. -/
def ReadableInt {R : Type} (lib : Library R) (n : Int) : Prop :=
  lib.Atoi (lib.FmtInt n) = (n, true) ∧ ':' ∉ (lib.FmtInt n).data

/-- Trimming the message `m` removes its last character (the line break)
and nothing else. -/
def TrimsBreak {R : Type} (lib : Library R) (m : String) : Prop :=
  lib.TrimSpace m = String.mk m.data.dropLast

/-- The library prints the numbers and ids of the state `s` so that a
client can read them: every printed coordinate parses as a number, every
printed whole number parses to itself, no printed field or player id holds a
colon, and trimming a full-state message removes its line break and nothing
else. -/
def Readable {R : Type} [LinearOrderedField R] (lib : Library R)
    (s : LobbyServer R) : Prop :=
  (∀ v ∈ coordsOf s, ReadableCoord lib v) ∧
    (∀ n ∈ intsOf s, ReadableInt lib n) ∧
    (∀ id ∈ idsOf s, ':' ∉ id.data) ∧
    (∀ m ∈ sendFullState lib s, TrimsBreak lib m)

/-- Every stored route has at least two nodes, as flat coordinate pairs. -/
def TwoNodeRoutes {R : Type} (routes : List (StoredBusRoute R)) : Prop :=
  ∀ r ∈ routes, 4 ≤ r.Points.length ∧ r.Points.length % 2 = 0

/-- The two player tables agree: every connection registered in
`playerConns` maps to an id that has an entry in `players` whose `Conn` is
that connection. -/
def TablesConsistent {R : Type} (srv : Lobby R) : Prop :=
  ∀ (conn : Nat) (pID : String), srv.playerConns conn = some pID →
    ∃ player, srv.players pID = some player ∧ player.Conn = conn

/-- The line `msg` from the connection `conn` is not a JOIN under an id
that another connection is registered with. -/
def JoinIsFresh {R : Type} (srv : Lobby R) (conn : Nat) (msg : String) : Prop :=
  field (splitColon msg) 0 = "JOIN" → (splitColon msg).length = 3 →
    ∀ other : Nat, other ≠ conn → srv.playerConns other ≠ some (field (splitColon msg) 1)

/-- Along the run of `events` from `srv`, no connection joins under an id
that another connection is registered with at that moment. -/
def FreshRun {R : Type} [LinearOrderedField R] (lib : Library R) (sqrt : R → R) :
    Lobby R → List LobbyEvent → Prop
  | _, [] => True
  | srv, ev :: more =>
    (match ev with
      | LobbyEvent.message conn msg => JoinIsFresh srv conn msg
      | LobbyEvent.teardown _ => True) ∧
    match lobbyStep lib sqrt srv ev with
    | none => True
    | some srv1 => FreshRun lib sqrt srv1 more

/-- The comparison `x >= 0` of a float: false on NaN. -/
def NonNegative32 {R : Type} [LinearOrderedField R] : Float32 R → Prop
  | Float32.val v => 0 ≤ v
  | Float32.NaN => False

end Vocabulary

/-! ## Example states -/

section Examples

variable (R : Type) [LinearOrderedField R]

/-- A state with the two Road lines `(0,0)-(100,0)` and `(100,0)-(100,100)`
bought from the start money, and nothing else. -/
def cornerRoads : LobbyServer R :=
  { lines := [⟨0, 0, 100, 0, Road, "a"⟩, ⟨100, 0, 100, 100, Road, "a"⟩],
    buildings := [], busRoutes := [], buses := [], money := 900, incomeRate := 0 }

/-- The route `(0,0) → (100,0) → (100,100)`, which follows the two roads. -/
def cornerRoute : List (Vector2 R) := [⟨0, 0⟩, ⟨100, 0⟩, ⟨100, 100⟩]

/-- The route `(0,0) → (50,50)`, which leaves the roads. -/
def diagonalRoute : List (Vector2 R) := [⟨0, 0⟩, ⟨50, 50⟩]

/-- The start state after one Road from `(0,0)` to `(3,4)` (length 5, cost
2.5) was bought. -/
def oneRoad : LobbyServer R :=
  { lines := [⟨0, 0, 3, 4, Road, "a"⟩], buildings := [], busRoutes := [], buses := [],
    money := 1000 - 5 / 2, incomeRate := 0 }

/-- The start state after one Commercial building was bought. -/
def oneShop : LobbyServer R :=
  { lines := [], buildings := [⟨10, 10, Commercial, "a"⟩], busRoutes := [], buses := [],
    money := 1000 - 250, incomeRate := 0 + 5 }

/-- The state `cornerRoads` after the route `cornerRoute` was accepted. -/
def cornerBus (sqrt : R → R) : LobbyServer R :=
  (addBusRoute sqrt (cornerRoads R) "R:a:0:0:100:0:100:100" "a" (cornerRoute R)).1

/-- A state with the single route `route`, served by the single bus `bus`,
and nothing else. -/
def shuttle {R : Type} [LinearOrderedField R] (route : StoredBusRoute R) (bus : Bus R)
    (money : R) : LobbyServer R :=
  { lines := [], buildings := [], busRoutes := [route], buses := [bus],
    money := money, incomeRate := 0 }

/-- The 2-node route `(0,0) → (200,0)` of stored length 200. -/
def longRoute : StoredBusRoute R :=
  { Points := [0, 0, 200, 0], PlayerID := "a", Length := 200 }

/-- The bus that `addBusRoute` creates for route 0 starting at `(0,0)`. -/
def freshBus : Bus R :=
  { Position := ⟨0, 0⟩, RouteID := 0, CurrentSegment := 0, Progress := 0, Direction := 1 }

/-- A state with two Residential buildings, the older one at `(0,0)` and the
newer one at `(10,0)`. -/
def twoHouses : LobbyServer R :=
  { lines := [], buildings := [⟨0, 0, Residential, "a"⟩, ⟨10, 0, Residential, "a"⟩],
    busRoutes := [], buses := [], money := 800, incomeRate := 0 }

/-- The client state that `Connect` sets up (client.go 53-58): no cursors,
empty lists, no money. -/
def emptyClient : LobbyClient R :=
  { OtherCursors := fun _ => none, CityLines := [], Buildings := [], BusRoutes := [],
    Buses := [], Money := 0 }

/-- A state over the rationals with one road that starts at x = 1/2, one
shop, the route `(0,0) → (200,0)` of stored length 200 and its bus on the
way at `(5/2, 0)`, moving forward. -/
def sampleTown : LobbyServer ℚ :=
  { lines := [⟨1 / 2, 0, 200, 0, Road, "a"⟩],
    buildings := [⟨3, 4, Commercial, "b"⟩],
    busRoutes := [⟨[0, 0, 200, 0], "a", 200⟩],
    buses := [⟨⟨5 / 2, 0⟩, 0, 0, 1 / 80, 1⟩],
    money := 650, incomeRate := 5 }

/-- Two connections join under different ids, then the first one is torn
down. -/
def twoJoins : List LobbyEvent :=
  [LobbyEvent.message 1 "JOIN:a:Ann", LobbyEvent.message 2 "JOIN:b:Bob",
    LobbyEvent.teardown 1]

/-- Two connections join under the same id `a`. -/
def sharedIdJoins : List LobbyEvent :=
  [LobbyEvent.message 1 "JOIN:a:Ann", LobbyEvent.message 2 "JOIN:a:Bob"]

/-- The lobby after connection 1 joined as `p1`, on the start state. -/
def lobbyWithP1 : Lobby ℚ :=
  { game := Start ℚ,
    players := fun k =>
      if k = "p1" then some { Conn := 1, ID := "p1", Name := "Ann" } else none,
    playerConns := fun c => if c = 1 then some "p1" else none }

end Examples

/-! ## Lemmas on the route validation -/

section RouteLemmas

variable {R : Type} [LinearOrderedField R]

theorem isPointOnRoad_iff (sqrt : R → R) (lines : List (StoredLine R)) (px py : R) :
    isPointOnRoad sqrt lines px py = true ↔ OnRoad sqrt lines ⟨px, py⟩ := by
  induction lines with
  | nil => simp [isPointOnRoad, OnRoad]
  | cons line rest ih =>
    unfold isPointOnRoad
    by_cases hk : line.Typ = Road
    · by_cases hd : pointSegmentDistance sqrt ⟨px, py⟩ ⟨line.StartX, line.StartY⟩
          ⟨line.EndX, line.EndY⟩ ≤ ROAD_SNAP_DISTANCE R
      · simp only [hk, ne_eq, not_true_eq_false, if_false, hd, if_true, true_iff]
        exact ⟨line, List.mem_cons_self _ _, hk, by simpa [ROAD_SNAP_DISTANCE] using hd⟩
      · simp only [hk, ne_eq, not_true_eq_false, if_false, hd, ih]
        constructor
        · rintro ⟨l, hl, h1, h2⟩
          exact ⟨l, List.mem_cons_of_mem _ hl, h1, h2⟩
        · rintro ⟨l, hl, h1, h2⟩
          rcases List.mem_cons.1 hl with rfl | hl
          · exact absurd (by simpa [ROAD_SNAP_DISTANCE] using h2) hd
          · exact ⟨l, hl, h1, h2⟩
    · simp only [ne_eq, hk, not_false_eq_true, if_true, ih]
      constructor
      · rintro ⟨l, hl, h1, h2⟩
        exact ⟨l, List.mem_cons_of_mem _ hl, h1, h2⟩
      · rintro ⟨l, hl, h1, h2⟩
        rcases List.mem_cons.1 hl with rfl | hl
        · exact absurd h1 hk
        · exact ⟨l, hl, h1, h2⟩

theorem segmentOnRoad_iff (sqrt : R → R) (lines : List (StoredLine R))
    (a b : Vector2 R) :
    segmentOnRoad sqrt lines a b = true ↔
      ∀ p ∈ List.range 5, OnRoad sqrt lines (Vector2Lerp a b ((p : R) / 4)) := by
  unfold segmentOnRoad
  rw [List.all_eq_true]
  constructor
  · intro h p hp
    have := h p (by simpa [intermediatePointsPerSegment] using hp)
    rw [isPointOnRoad_iff] at this
    simpa [samplePoint, intermediatePointsPerSegment] using this
  · intro h p hp
    rw [isPointOnRoad_iff]
    have := h p (by simpa [intermediatePointsPerSegment] using hp)
    simpa [samplePoint, intermediatePointsPerSegment] using this

theorem routeLoop_snd_iff (sqrt : R → R) (lines : List (StoredLine R))
    (nodes : List (Vector2 R)) (total : R) :
    (routeLoop sqrt lines nodes total).2 = true ↔ RouteOnRoads sqrt lines nodes := by
  induction nodes generalizing total with
  | nil => simp [routeLoop, RouteOnRoads, nodePairs]
  | cons a rest ih =>
    cases rest with
    | nil => simp [routeLoop, RouteOnRoads, nodePairs]
    | cons b more =>
      unfold routeLoop
      by_cases h : segmentOnRoad sqrt lines a b = true
      · simp only [h, if_true, ih]
        have h5 := (segmentOnRoad_iff sqrt lines a b).1 h
        constructor
        · intro hr seg hseg
          simp only [nodePairs, List.tail_cons, List.zip_cons_cons, List.mem_cons] at hseg
          rcases hseg with rfl | hseg
          · exact h5
          · exact hr seg (by simpa [nodePairs] using hseg)
        · intro hr seg hseg
          exact hr seg (by
            simp only [nodePairs, List.tail_cons, List.zip_cons_cons, List.mem_cons]
            exact Or.inr (by simpa [nodePairs] using hseg))
      · simp only [h, if_false, Bool.false_eq_true, false_iff]
        intro hr
        apply h
        rw [segmentOnRoad_iff]
        exact hr (a, b) (by simp [nodePairs])

theorem routeLoop_fst (sqrt : R → R) (lines : List (StoredLine R))
    (nodes : List (Vector2 R)) (total : R)
    (h : (routeLoop sqrt lines nodes total).2 = true) :
    (routeLoop sqrt lines nodes total).1 = total + pathLength sqrt nodes := by
  induction nodes generalizing total with
  | nil => simp [routeLoop, pathLength, nodePairs]
  | cons a rest ih =>
    cases rest with
    | nil => simp [routeLoop, pathLength, nodePairs]
    | cons b more =>
      unfold routeLoop at h ⊢
      by_cases hs : segmentOnRoad sqrt lines a b = true
      · simp only [hs, if_true] at h ⊢
        rw [ih _ h]
        simp [pathLength, nodePairs, add_assoc]
      · simp [hs] at h

end RouteLemmas

/-! ## Route validation -/

section RouteValidation

variable {R : Type} [LinearOrderedField R]

theorem addBusRoute_of_onRoads (sqrt : R → R) (s : LobbyServer R)
    (msg playerID : String) (p0 p1 : Vector2 R) (more : List (Vector2 R))
    (h : RouteOnRoads sqrt s.lines (p0 :: p1 :: more)) :
    (addBusRoute sqrt s msg playerID (p0 :: p1 :: more)).1 =
      { lines := s.lines, buildings := s.buildings,
        busRoutes := s.busRoutes ++
          [⟨flattenNodes (p0 :: p1 :: more), playerID, pathLength sqrt (p0 :: p1 :: more)⟩],
        buses := s.buses ++ [⟨p0, (s.busRoutes.length : Int), 0, 0, 1⟩],
        money := s.money, incomeRate := s.incomeRate } := by
  have hv := (routeLoop_snd_iff sqrt s.lines (p0 :: p1 :: more) 0).2 h
  have hlen := routeLoop_fst sqrt s.lines (p0 :: p1 :: more) 0 hv
  simp only [addBusRoute, hv, not_true_eq_false, if_false, hlen, zero_add,
    List.length_append, List.length_singleton]
  congr 3
  rw [show ((s.busRoutes.length + 1 : Nat) : Int) - 1 = (s.busRoutes.length : Int) by
    omega]

theorem addBusRoute_of_not_onRoads (sqrt : R → R) (s : LobbyServer R)
    (msg playerID : String) (nodes : List (Vector2 R))
    (h : ¬ RouteOnRoads sqrt s.lines nodes) :
    addBusRoute sqrt s msg playerID nodes =
      (s, [Out.toPlayer playerID (Msg.status "Bus route must be fully on roads!")]) := by
  have hv : ¬ (routeLoop sqrt s.lines nodes 0).2 = true :=
    fun hv => h ((routeLoop_snd_iff sqrt s.lines nodes 0).1 hv)
  match nodes, h, hv with
  | [], h, _ => exact absurd (by simp [RouteOnRoads, nodePairs]) h
  | [_], h, _ => exact absurd (by simp [RouteOnRoads, nodePairs]) h
  | p0 :: p1 :: more, _, hv => simp [addBusRoute, hv]

theorem cornerRoute_onRoads :
    RouteOnRoads Real.sqrt (cornerRoads ℝ).lines (cornerRoute ℝ) := by
  intro seg hseg p hp
  have hp5 : p < 5 := List.mem_range.1 hp
  simp only [cornerRoute, nodePairs, List.tail_cons, List.zip_cons_cons, List.zip_nil_right,
    List.mem_cons, List.mem_singleton, List.not_mem_nil, or_false] at hseg
  rcases hseg with rfl | rfl
  · refine ⟨⟨0, 0, 100, 0, Road, "a"⟩, by simp [cornerRoads], rfl, ?_⟩
    interval_cases p <;>
      norm_num [pointSegmentDistance, Vector2Lerp, Vector2DistanceSqr, Vector2Distance,
        Vector2DotProduct, Vector2Subtract, Vector2Add, Vector2Scale, max_def, min_def]
  · refine ⟨⟨100, 0, 100, 100, Road, "a"⟩, by simp [cornerRoads], rfl, ?_⟩
    interval_cases p <;>
      norm_num [pointSegmentDistance, Vector2Lerp, Vector2DistanceSqr, Vector2Distance,
        Vector2DotProduct, Vector2Subtract, Vector2Add, Vector2Scale, max_def, min_def]

theorem diagonalRoute_not_onRoads :
    ¬ RouteOnRoads Real.sqrt (cornerRoads ℝ).lines (diagonalRoute ℝ) := by
  intro h
  obtain ⟨line, hl, -, hd⟩ := h (⟨0, 0⟩, ⟨50, 50⟩) (by simp [diagonalRoute, nodePairs]) 1
    (by simp)
  simp only [cornerRoads, List.mem_cons, List.mem_singleton, List.not_mem_nil, or_false] at hl
  have h4 : Real.sqrt 4 = 2 := by
    rw [show (4 : ℝ) = 2 ^ 2 by norm_num]
    exact Real.sqrt_sq (by norm_num)
  have h625 : Real.sqrt 625 = 25 := by
    rw [show (625 : ℝ) = 25 ^ 2 by norm_num]
    exact Real.sqrt_sq (by norm_num)
  have h30625 : Real.sqrt 30625 = 175 := by
    rw [show (30625 : ℝ) = 175 ^ 2 by norm_num]
    exact Real.sqrt_sq (by norm_num)
  rcases hl with rfl | rfl
  · norm_num [pointSegmentDistance, Vector2Lerp, Vector2DistanceSqr, Vector2Distance,
      Vector2DotProduct, Vector2Subtract, Vector2Add, Vector2Scale, max_def, min_def,
      h4, h625] at hd
  · norm_num [pointSegmentDistance, Vector2Lerp, Vector2DistanceSqr, Vector2Distance,
      Vector2DotProduct, Vector2Subtract, Vector2Add, Vector2Scale, max_def, min_def,
      h4, h30625] at hd

/-- In exact arithmetic (the float32 rounding of the distance is not
modelled): `addBusRoute` accepts a route of at least 2 nodes (it appends a
route) if and only if, for every consecutive node pair, each of the five
sample points at `t = 0, 1/4, 1/2, 3/4, 1` is within distance 8 (inclusive) of
some stored line of kind Road; when the condition fails the whole state
(routes, buses, lines, buildings, money, income rate) is returned unchanged
and the only output is the STATUS to the originating player. -/
theorem addBusRoute_accepts_iff_exact (sqrt : R → R) (s : LobbyServer R)
    (msg playerID : String) (nodes : List (Vector2 R)) (hn : 2 ≤ nodes.length) :
    ((addBusRoute sqrt s msg playerID nodes).1.busRoutes.length =
        s.busRoutes.length + 1 ↔ RouteOnRoads sqrt s.lines nodes) ∧
    (¬ RouteOnRoads sqrt s.lines nodes →
      addBusRoute sqrt s msg playerID nodes =
        (s, [Out.toPlayer playerID (Msg.status "Bus route must be fully on roads!")])) := by
  refine ⟨?_, addBusRoute_of_not_onRoads sqrt s msg playerID nodes⟩
  match nodes, hn with
  | p0 :: p1 :: more, _ =>
    constructor
    · intro hlen
      by_contra hr
      rw [addBusRoute_of_not_onRoads sqrt s msg playerID _ hr] at hlen
      simp at hlen
    · intro hr
      rw [addBusRoute_of_onRoads sqrt s msg playerID p0 p1 more hr]
      simp

/-- On the roads `(0,0)-(100,0)` and `(100,0)-(100,100)`, over the reals:
the route `(0,0),(100,0),(100,100)` is accepted, and the route
`(0,0),(50,50)` is rejected with the state unchanged, so no route and no bus
is created. -/
theorem addBusRoute_accepts_iff_exact_witness :
    (addBusRoute Real.sqrt (cornerRoads ℝ) "R:a:0:0:100:0:100:100" "a"
        (cornerRoute ℝ)).1.busRoutes.length = (cornerRoads ℝ).busRoutes.length + 1 ∧
    addBusRoute Real.sqrt (cornerRoads ℝ) "R:a:0:0:50:50" "a" (diagonalRoute ℝ) =
      (cornerRoads ℝ,
        [Out.toPlayer "a" (Msg.status "Bus route must be fully on roads!")]) :=
  ⟨(addBusRoute_accepts_iff_exact Real.sqrt (cornerRoads ℝ) "R:a:0:0:100:0:100:100" "a"
      (cornerRoute ℝ) (by simp [cornerRoute])).1.2 cornerRoute_onRoads,
   (addBusRoute_accepts_iff_exact Real.sqrt (cornerRoads ℝ) "R:a:0:0:50:50" "a"
      (diagonalRoute ℝ) (by simp [diagonalRoute])).2 diagonalRoute_not_onRoads⟩

end RouteValidation

/-! ## The creation commands -/

section Creation

variable {R : Type} [LinearOrderedField R]

/-- C8: `addInfrastructure` is all-or-nothing.  For a Road segment of
length `L`: if `money < L * 0.5` the state is returned unchanged and the only
output is the STATUS to the originating player; otherwise the result is the
old state with exactly the one new line appended and money lowered by
`L * 0.5`.  For a Water segment the result is the old state with the new
line appended, whatever the money. -/
theorem C8_addInfrastructure_all_or_nothing (sqrt : R → R) (s : LobbyServer R)
    (msg playerID : String) (startX startY endX endY : R) :
    (s.money < Vector2Distance sqrt ⟨startX, startY⟩ ⟨endX, endY⟩ * (1 / 2) →
      addInfrastructure sqrt s msg playerID startX startY endX endY Road =
        (s, [Out.toPlayer playerID (Msg.status "Not enough money to build road!")])) ∧
    (¬ s.money < Vector2Distance sqrt ⟨startX, startY⟩ ⟨endX, endY⟩ * (1 / 2) →
      (addInfrastructure sqrt s msg playerID startX startY endX endY Road).1 =
        { lines := s.lines ++ [(⟨startX, startY, endX, endY, Road, playerID⟩ : StoredLine R)],
          buildings := s.buildings, busRoutes := s.busRoutes, buses := s.buses,
          money := s.money - Vector2Distance sqrt ⟨startX, startY⟩ ⟨endX, endY⟩ * (1 / 2),
          incomeRate := s.incomeRate }) ∧
    (addInfrastructure sqrt s msg playerID startX startY endX endY Water).1 =
        { lines := s.lines ++ [⟨startX, startY, endX, endY, Water, playerID⟩],
          buildings := s.buildings, busRoutes := s.busRoutes, buses := s.buses,
          money := s.money, incomeRate := s.incomeRate } := by
  refine ⟨?_, ?_, ?_⟩
  · intro h
    rw [one_div] at h
    simp [addInfrastructure, ROAD_COST_PER_UNIT, h]
  · intro h
    rw [one_div] at h
    simp [addInfrastructure, ROAD_COST_PER_UNIT, h]
  · simp [addInfrastructure, Water, Road]

/-- The statement C8 at a concrete state: with money 1000 a Road of length 5
is built for 2.5, and with money 2 it is refused. -/
theorem C8_addInfrastructure_all_or_nothing_witness :
    (addInfrastructure Real.sqrt ⟨[], [], [], [], 2, 0⟩ "I:a:0:0:3:4:0" "a" 0 0 3 4 Road =
        (⟨[], [], [], [], 2, 0⟩,
          [Out.toPlayer "a" (Msg.status "Not enough money to build road!")])) ∧
    ((addInfrastructure Real.sqrt (Start ℝ) "I:a:0:0:3:4:0" "a" 0 0 3 4 Road).1 =
        { lines := [⟨0, 0, 3, 4, Road, "a"⟩], buildings := [], busRoutes := [],
          buses := [], money := 1000 - 5 / 2, incomeRate := 0 }) := by
  have h5 : Vector2Distance Real.sqrt (⟨0, 0⟩ : Vector2 ℝ) ⟨3, 4⟩ = 5 := by
    unfold Vector2Distance
    rw [show ((0:ℝ) - 3) * (0 - 3) + (0 - 4) * (0 - 4) = 5 ^ 2 by norm_num]
    exact Real.sqrt_sq (by norm_num)
  have h := C8_addInfrastructure_all_or_nothing Real.sqrt ⟨[], [], [], [], 2, 0⟩
    "I:a:0:0:3:4:0" "a" 0 0 3 4
  have h1 := C8_addInfrastructure_all_or_nothing Real.sqrt (Start ℝ)
    "I:a:0:0:3:4:0" "a" 0 0 3 4
  refine ⟨h.1 (by rw [h5]; norm_num), ?_⟩
  have h2 := h1.2.1 (by rw [h5]; norm_num [Start])
  rw [h2, h5]
  simp [Start]
  norm_num

/-- C9: `addBuilding` follows the fixed price table.  Residential,
Commercial, Industrial cost 100, 250, 1000 and raise the income rate by 0, 5,
25.  If the kind is none of these, or money is below the cost, the state is
returned unchanged and the only output is one STATUS to the originating
player; otherwise the result is the old state with money lowered by the
cost, the income rate raised by the increment and exactly the one new
building appended. -/
theorem C9_addBuilding_price_table (s : LobbyServer R) (msg playerID : String)
    (x y : R) (buildingType : Int) :
    buildingPrice R Residential = some (100, 0) ∧
    buildingPrice R Commercial = some (250, 5) ∧
    buildingPrice R Industrial = some (1000, 25) ∧
    (buildingType ≠ Residential → buildingType ≠ Commercial →
      buildingType ≠ Industrial →
      addBuilding s msg playerID x y buildingType =
        (s, [Out.toPlayer playerID (Msg.status "Unknown building type!")])) ∧
    (∀ cost income : R, buildingPrice R buildingType = some (cost, income) →
      (s.money < cost →
        addBuilding s msg playerID x y buildingType =
          (s, [Out.toPlayer playerID
            (Msg.statusCost (getBuildingName buildingType) cost)])) ∧
      (¬ s.money < cost →
        (addBuilding s msg playerID x y buildingType).1 =
          { lines := s.lines,
            buildings := s.buildings ++ [⟨x, y, buildingType, playerID⟩],
            busRoutes := s.busRoutes, buses := s.buses,
            money := s.money - cost, incomeRate := s.incomeRate + income })) := by
  refine ⟨?_, ?_, ?_, ?_, ?_⟩
  · simp [buildingPrice, RESIDENTIAL_BUILDING_COST]
  · simp [buildingPrice, Commercial, Residential, COMMERCIAL_BUILDING_COST,
      COMMERCIAL_INCOME_INCREASE]
  · simp [buildingPrice, Industrial, Commercial, Residential, INDUSTRIAL_BUILDING_COST,
      INDUSTRIAL_INCOME_INCREASE]
  · intro h0 h1 h2
    simp [addBuilding, buildingPrice, h0, h1, h2]
  · intro cost income hp
    constructor
    · intro h
      simp [addBuilding, hp, h]
    · intro h
      simp [addBuilding, hp, h]

/-- The statement C9 at concrete inputs: from the start state a Commercial
building is bought for 250 and raises the income rate to 5, kind 7 is
refused, and with money 50 a Residential building is refused. -/
theorem C9_addBuilding_price_table_witness :
    (addBuilding (Start ℝ) "B:a:1:2:7" "a" 1 2 7 =
        (Start ℝ, [Out.toPlayer "a" (Msg.status "Unknown building type!")])) ∧
    (addBuilding (⟨[], [], [], [], 50, 0⟩ : LobbyServer ℝ) "B:a:1:2:0" "a" 1 2 Residential =
        (⟨[], [], [], [], 50, 0⟩,
          [Out.toPlayer "a" (Msg.statusCost "Residential" 100)])) ∧
    ((addBuilding (Start ℝ) "B:a:1:2:1" "a" 1 2 Commercial).1 =
        { lines := [], buildings := [⟨1, 2, Commercial, "a"⟩], busRoutes := [],
          buses := [], money := 1000 - 250, incomeRate := 0 + 5 }) := by
  have hA := C9_addBuilding_price_table (Start ℝ) "B:a:1:2:7" "a" 1 2 7
  have hB := C9_addBuilding_price_table (⟨[], [], [], [], 50, 0⟩ : LobbyServer ℝ)
    "B:a:1:2:0" "a" 1 2 Residential
  have hC := C9_addBuilding_price_table (Start ℝ) "B:a:1:2:1" "a" 1 2 Commercial
  refine ⟨hA.2.2.2.1 (by decide) (by decide) (by decide), ?_, ?_⟩
  · have := (hB.2.2.2.2 100 0 hB.1).1 (by norm_num)
    simpa [getBuildingName] using this
  · exact (hC.2.2.2.2 250 5 hC.2.1).2 (by norm_num [Start])

/-- C10: when `addBusRoute` accepts a route (that is, when it changes the
state at all), the result is the old state with exactly one route appended,
whose points are the given nodes in order and whose Length is the sum of the
distances between consecutive nodes, and exactly one bus appended, with
RouteID the index of the new route, Position the first node, CurrentSegment
0, Progress 0 and Direction +1; money, income rate, lines and buildings are
those of the old state. -/
theorem C10_addBusRoute_commit (sqrt : R → R) (s : LobbyServer R)
    (msg playerID : String) (nodes : List (Vector2 R))
    (h : (addBusRoute sqrt s msg playerID nodes).1.busRoutes ≠ s.busRoutes) :
    ∃ p0 rest, nodes = p0 :: rest ∧
      toNodes (flattenNodes nodes) = some nodes ∧
      (addBusRoute sqrt s msg playerID nodes).1 =
        { lines := s.lines, buildings := s.buildings,
          busRoutes := s.busRoutes ++
            [⟨flattenNodes nodes, playerID, pathLength sqrt nodes⟩],
          buses := s.buses ++ [⟨p0, (s.busRoutes.length : Int), 0, 0, 1⟩],
          money := s.money, incomeRate := s.incomeRate } := by
  have hflat : ∀ l : List (Vector2 R), toNodes (flattenNodes l) = some l := by
    intro l
    induction l with
    | nil => rfl
    | cons a l ih => simp [flattenNodes, toNodes, ih]
  match nodes, h with
  | [], h => exact absurd rfl h
  | [_], h => exact absurd rfl h
  | p0 :: p1 :: more, h =>
    refine ⟨p0, p1 :: more, rfl, hflat _, ?_⟩
    by_cases hv : (routeLoop sqrt s.lines (p0 :: p1 :: more) 0).2 = true
    · have hlen := routeLoop_fst sqrt s.lines (p0 :: p1 :: more) 0 hv
      simp only [addBusRoute, hv, not_true_eq_false, if_false, hlen, zero_add,
        List.length_append, List.length_singleton]
      congr 3
      rw [show ((s.busRoutes.length + 1 : Nat) : Int) - 1 = (s.busRoutes.length : Int) by
        omega]
    · exfalso
      apply h
      simp [addBusRoute, hv]

/-- The statement C10 on the roads `(0,0)-(100,0)`, `(100,0)-(100,100)` and
the route `(0,0),(100,0),(100,100)`. -/
theorem C10_addBusRoute_commit_witness :
    ∃ p0 rest, cornerRoute ℝ = p0 :: rest ∧
      toNodes (flattenNodes (cornerRoute ℝ)) = some (cornerRoute ℝ) ∧
      (addBusRoute Real.sqrt (cornerRoads ℝ) "R:a:0:0:100:0:100:100" "a"
          (cornerRoute ℝ)).1 =
        { lines := (cornerRoads ℝ).lines, buildings := (cornerRoads ℝ).buildings,
          busRoutes := (cornerRoads ℝ).busRoutes ++
            [⟨flattenNodes (cornerRoute ℝ), "a", pathLength Real.sqrt (cornerRoute ℝ)⟩],
          buses := (cornerRoads ℝ).buses ++
            [⟨p0, ((cornerRoads ℝ).busRoutes.length : Int), 0, 0, 1⟩],
          money := (cornerRoads ℝ).money, incomeRate := (cornerRoads ℝ).incomeRate } :=
  C10_addBusRoute_commit Real.sqrt (cornerRoads ℝ) "R:a:0:0:100:0:100:100" "a"
    (cornerRoute ℝ) (by
      have h := addBusRoute_of_onRoads Real.sqrt (cornerRoads ℝ) "R:a:0:0:100:0:100:100"
        "a" ⟨0, 0⟩ ⟨100, 0⟩ [⟨100, 100⟩] cornerRoute_onRoads
      rw [show cornerRoute ℝ = ⟨0, 0⟩ :: ⟨100, 0⟩ :: [⟨100, 100⟩] from rfl, h]
      simp [cornerRoads])

end Creation

/-! ## The shape of a deletion -/

section DeleteShape

variable {R : Type} [LinearOrderedField R]

theorem scanDown_some {α : Type} (hit : α → Bool) (l : List α) (n i : Nat) (a : α)
    (h : scanDown hit l n = some (i, a)) : i < n ∧ l[i]? = some a ∧ hit a = true := by
  induction n with
  | zero => simp [scanDown] at h
  | succ k ih =>
    unfold scanDown at h
    cases hk : l[k]? with
    | none =>
      rw [hk] at h
      obtain ⟨h1, h2⟩ := ih h
      exact ⟨by omega, h2⟩
    | some b =>
      rw [hk] at h
      by_cases hb : hit b = true
      · simp only [hb, if_true, Option.some.injEq, Prod.mk.injEq] at h
        obtain ⟨rfl, rfl⟩ := h
        exact ⟨by omega, hk, hb⟩
      · simp only [hb, Bool.false_eq_true, if_false] at h
        obtain ⟨h1, h2⟩ := ih h
        exact ⟨by omega, h2⟩

theorem routeScan_some (sqrt : R → R) (x y : R) (busRoutes : List (StoredBusRoute R))
    (n i : Nat) (h : routeScan sqrt x y busRoutes n = some (some i)) : i < n := by
  induction n with
  | zero => simp [routeScan] at h
  | succ k ih =>
    unfold routeScan at h
    cases hk : busRoutes[k]? with
    | none =>
      rw [hk] at h
      have := ih h
      omega
    | some r =>
      rw [hk] at h
      cases hn : nodeHit sqrt x y r.Points with
      | none => simp [hn] at h
      | some b =>
        cases b with
        | true =>
          simp only [hn, Option.some.injEq] at h
          omega
        | false =>
          simp only [hn] at h
          have := ih h
          omega

/-- The five outcomes of `deleteObject`: a building is removed, a Road line
is removed (with refund and pruning), another line is removed, a route is
removed by one of its nodes, or nothing is found. -/
theorem deleteObject_cases (sqrt : R → R) (s s1 : LobbyServer R) (playerID : String)
    (x y : R) (out : List (Out R))
    (h : deleteObject sqrt s playerID x y = some (s1, out)) :
    (∃ i b, s.buildings[i]? = some b ∧
      s1 = { s with buildings := s.buildings.eraseIdx i,
                    incomeRate := if b.Typ ≠ -1 then incomeAfterDelete s.incomeRate b.Typ
                      else s.incomeRate }) ∨
    (∃ i l toPrune, s.lines[i]? = some l ∧ l.Typ = Road ∧
      routesToPrune sqrt (s.lines.eraseIdx i) 0 s.busRoutes = some toPrune ∧
      s1 = { s with lines := s.lines.eraseIdx i,
                    money := s.money +
                      Vector2Distance sqrt ⟨l.StartX, l.StartY⟩ ⟨l.EndX, l.EndY⟩ *
                        ROAD_COST_PER_UNIT R,
                    busRoutes := (pruneLoop toPrune.reverse (s.busRoutes, s.buses)).1,
                    buses := (pruneLoop toPrune.reverse (s.busRoutes, s.buses)).2 }) ∨
    (∃ i, s1 = { s with lines := s.lines.eraseIdx i }) ∨
    (∃ i : Nat, s1 = { s with busRoutes := s.busRoutes.eraseIdx i,
                              buses := removeBusesForRoute (i : Int) s.buses }) ∨
    s1 = s := by
  unfold deleteObject at h
  cases hb : scanDown (buildingHit sqrt x y) s.buildings s.buildings.length with
  | some ib =>
    obtain ⟨i, b⟩ := ib
    left
    refine ⟨i, b, (scanDown_some _ _ _ _ _ hb).2.1, ?_⟩
    rw [hb] at h
    by_cases ht : b.Typ = -1
    · simp only [ht, ne_eq, not_true_eq_false, if_false, Option.some.injEq,
        Prod.mk.injEq] at h ⊢
      exact h.1.symm
    · simp only [ht, ne_eq, not_false_eq_true, if_true, Option.some.injEq,
        Prod.mk.injEq] at h ⊢
      exact h.1.symm
  | none =>
    right
    rw [hb] at h
    cases hl : scanDown (lineHit sqrt x y) s.lines s.lines.length with
    | some il =>
      obtain ⟨i, l⟩ := il
      rw [hl] at h
      by_cases ht : l.Typ = Road
      · left
        simp only [ht, if_true] at h
        cases hp : routesToPrune sqrt (s.lines.eraseIdx i) 0 s.busRoutes with
        | none => simp [hp] at h
        | some toPrune =>
          simp only [hp, Option.some.injEq, Prod.mk.injEq] at h
          exact ⟨i, l, toPrune, (scanDown_some _ _ _ _ _ hl).2.1, ht, hp, h.1.symm⟩
      · right; left
        simp only [ht, if_false, Option.some.injEq, Prod.mk.injEq] at h
        exact ⟨i, h.1.symm⟩
    | none =>
      right; right
      rw [hl] at h
      cases hr : routeScan sqrt x y s.busRoutes s.busRoutes.length with
      | none => simp [hr] at h
      | some oi =>
        cases oi with
        | none =>
          right
          simp only [hr, Option.some.injEq, Prod.mk.injEq] at h
          exact h.1.symm
        | some i =>
          left
          simp only [hr, Option.some.injEq, Prod.mk.injEq] at h
          exact ⟨i, h.1.symm⟩

end DeleteShape

/-! ## What a bus-motion tick leaves alone -/

section TickFrame

variable {R : Type} [LinearOrderedField R]

theorem payReward_ge (money length : R) : money ≤ payReward money length := by
  unfold payReward
  split_ifs with h
  · have : 0 ≤ length / 16 := div_nonneg h.le (by norm_num)
    linarith
  · exact le_rfl

theorem finishSegment_frame (bus : Bus R) (progress : R) (n : Nat) (money length : R) :
    (finishSegment bus progress n money length).1.RouteID = bus.RouteID ∧
      money ≤ (finishSegment bus progress n money length).2.1 := by
  unfold finishSegment
  split_ifs <;> exact ⟨rfl, by first | exact le_rfl | exact payReward_ge _ _⟩

theorem updateBus_frame (sqrt : R → R) (busRoutes : List (StoredBusRoute R)) (i : Nat)
    (bus bus1 : Bus R) (money money1 : R) (out : List (Out R))
    (h : updateBus sqrt busRoutes i bus money = some (bus1, money1, out)) :
    bus1.RouteID = bus.RouteID ∧ money ≤ money1 := by
  unfold updateBus at h
  split_ifs at h with h1 h2
  · simp only [Option.some.injEq, Prod.mk.injEq] at h
    obtain ⟨rfl, rfl, -⟩ := h
    exact ⟨rfl, le_rfl⟩
  · split at h
    · exact absurd h (by simp)
    · rename_i storedRoute _
      split at h
      · exact absurd h (by simp)
      · rename_i nodes _
        split_ifs at h with h3
        · simp only [Option.some.injEq, Prod.mk.injEq] at h
          obtain ⟨rfl, rfl, -⟩ := h
          exact ⟨rfl, le_rfl⟩
        · split at h
          · exact absurd h (by simp)
          · rename_i startNode endNode _
            dsimp only at h
            split at h
            · exact absurd h (by simp)
            · simp only [Option.some.injEq, Prod.mk.injEq] at h
              obtain ⟨rfl, rfl, -⟩ := h
              exact finishSegment_frame _ _ _ _ _

theorem updateBuses_frame (sqrt : R → R) (busRoutes : List (StoredBusRoute R))
    (buses : List (Bus R)) :
    ∀ (i : Nat) (money : R) (buses1 : List (Bus R)) (money1 : R) (out : List (Out R)),
      updateBuses sqrt busRoutes i buses money = some (buses1, money1, out) →
      buses1.map (fun b => b.RouteID) = buses.map (fun b => b.RouteID) ∧
        money ≤ money1 := by
  induction buses with
  | nil =>
    intro i money buses1 money1 out h
    simp only [updateBuses, Option.some.injEq, Prod.mk.injEq] at h
    obtain ⟨rfl, rfl, -⟩ := h
    exact ⟨rfl, le_rfl⟩
  | cons b rest ih =>
    intro i money buses1 money1 out h
    unfold updateBuses at h
    cases hb : updateBus sqrt busRoutes i b money with
    | none => simp [hb] at h
    | some r =>
      obtain ⟨b1, m1, o1⟩ := r
      simp only [hb] at h
      cases hr : updateBuses sqrt busRoutes (i + 1) rest m1 with
      | none => simp [hr] at h
      | some r2 =>
        obtain ⟨rest1, m2, o2⟩ := r2
        simp only [hr, Option.some.injEq, Prod.mk.injEq] at h
        obtain ⟨rfl, rfl, -⟩ := h
        obtain ⟨hid, hm⟩ := updateBus_frame sqrt busRoutes i b b1 money m1 o1 hb
        obtain ⟨hids, hms⟩ := ih (i + 1) m1 rest1 m2 o2 hr
        exact ⟨by simp [hid, hids], le_trans hm hms⟩

theorem busTick_frame (sqrt : R → R) (s s1 : LobbyServer R) (out : List (Out R))
    (h : busTick sqrt s = some (s1, out)) :
    s1.lines = s.lines ∧ s1.buildings = s.buildings ∧ s1.busRoutes = s.busRoutes ∧
      s1.incomeRate = s.incomeRate ∧
      s1.buses.map (fun b => b.RouteID) = s.buses.map (fun b => b.RouteID) ∧
      s.money ≤ s1.money := by
  unfold busTick at h
  cases hu : updateBuses sqrt s.busRoutes 0 s.buses s.money with
  | none => simp [hu] at h
  | some r =>
    obtain ⟨buses, money, o⟩ := r
    simp only [hu, Option.some.injEq, Prod.mk.injEq] at h
    obtain ⟨rfl, -⟩ := h
    obtain ⟨h1, h2⟩ := updateBuses_frame sqrt s.busRoutes s.buses 0 s.money buses money o hu
    exact ⟨rfl, rfl, rfl, rfl, h1, h2⟩

/-- Induction over the runs of the server: a property of the start state
that every event preserves holds in every reachable state. -/
theorem reachable_induction (sqrt : R → R) (P : LobbyServer R → Prop)
    (h0 : P (Start R))
    (hstep : ∀ s e s1, P s → applyEvent sqrt s e = some s1 → P s1) :
    ∀ s, Reachable sqrt s → P s := by
  have key : ∀ (events : List (Event R)) (s0 s : LobbyServer R), P s0 →
      run sqrt s0 events = some s → P s := by
    intro events
    induction events with
    | nil =>
      intro s0 s hP h
      simp only [run, Option.some.injEq] at h
      exact h ▸ hP
    | cons e rest ih =>
      intro s0 s hP h
      unfold run at h
      cases he : applyEvent sqrt s0 e with
      | none => simp [he] at h
      | some s1 =>
        simp only [he] at h
        exact ih s1 s (hstep s0 e s1 hP he) h
  intro s hs
  obtain ⟨events, hrun⟩ := hs
  exact key events (Start R) s h0 hrun

end TickFrame

/-! ## Economy invariants -/

section Economy

variable {R : Type} [LinearOrderedField R]

theorem distance_three_four :
    Vector2Distance Real.sqrt (⟨0, 0⟩ : Vector2 ℝ) ⟨3, 4⟩ = 5 := by
  unfold Vector2Distance
  rw [show ((0 : ℝ) - 3) * (0 - 3) + (0 - 4) * (0 - 4) = 5 ^ 2 by norm_num]
  exact Real.sqrt_sq (by norm_num)

theorem oneRoad_reachable : Reachable Real.sqrt (oneRoad ℝ) := by
  refine ⟨[Event.I "I:a:0:0:3:4:0" "a" 0 0 3 4 Road], ?_⟩
  have h5 := distance_three_four
  simp only [run, applyEvent, addInfrastructure, if_true, h5, Start, ROAD_COST_PER_UNIT]
  norm_num [oneRoad]

theorem oneShop_reachable (sqrt : R → R) : Reachable sqrt (oneShop R) := by
  refine ⟨[Event.B "B:a:10:10:1" "a" 10 10 Commercial], ?_⟩
  have hp : buildingPrice R Commercial = some (250, 5) := by
    simp [buildingPrice, Commercial, Residential, COMMERCIAL_BUILDING_COST,
      COMMERCIAL_INCOME_INCREASE]
  have hm : ¬ ((1000 : R) < 250) := by norm_num
  simp [run, applyEvent, addBuilding, hp, Start, oneShop, hm]

theorem addBusRoute_frame (sqrt : R → R) (s : LobbyServer R) (msg playerID : String)
    (nodes : List (Vector2 R)) :
    (addBusRoute sqrt s msg playerID nodes).1.money = s.money ∧
      (addBusRoute sqrt s msg playerID nodes).1.incomeRate = s.incomeRate ∧
      (addBusRoute sqrt s msg playerID nodes).1.buildings = s.buildings ∧
      (addBusRoute sqrt s msg playerID nodes).1.lines = s.lines := by
  match nodes with
  | [] => exact ⟨rfl, rfl, rfl, rfl⟩
  | [_] => exact ⟨rfl, rfl, rfl, rfl⟩
  | p0 :: p1 :: more =>
    by_cases hv : (routeLoop sqrt s.lines (p0 :: p1 :: more) 0).2 = true <;>
      simp [addBusRoute, hv]

theorem deleteObject_of_apply (sqrt : R → R) (s s1 : LobbyServer R) (playerID : String)
    (x y : R) (h : applyEvent sqrt s (Event.D playerID x y) = some s1) :
    ∃ out, deleteObject sqrt s playerID x y = some (s1, out) := by
  simp only [applyEvent, Option.map_eq_some', Prod.exists, exists_and_right,
    exists_eq_right] at h
  exact h

theorem busTick_of_apply (sqrt : R → R) (s s1 : LobbyServer R)
    (h : applyEvent sqrt s Event.busTick = some s1) :
    ∃ out, busTick sqrt s = some (s1, out) := by
  simp only [applyEvent, Option.map_eq_some', Prod.exists, exists_and_right,
    exists_eq_right] at h
  exact h

/-- While every coordinate is a number (no NaN), money is never negative in
a reachable server state.  From the state set by `Start`, after every finite
sequence of I, B, R and D commands, bus-motion ticks and income ticks that
the server survives, `money ≥ 0`; arithmetic is exact and the square root is
only assumed non-negative. -/
theorem money_never_negative_exact (sqrt : R → R) (hsqrt : ∀ x, 0 ≤ sqrt x)
    (s : LobbyServer R) (h : Reachable sqrt s) : 0 ≤ s.money := by
  refine reachable_induction sqrt (fun s => 0 ≤ s.money) (by simp [Start]) ?_ s h
  intro s e s1 hP he
  cases e with
  | I msg playerID startX startY endX endY infraType =>
    simp only [applyEvent, Option.some.injEq] at he
    subst he
    dsimp only [addInfrastructure]
    split_ifs with h1 h2
    · exact hP
    · dsimp only
      linarith [not_lt.1 h2]
    · exact hP
  | B msg playerID x y buildingType =>
    simp only [applyEvent, Option.some.injEq] at he
    subst he
    dsimp only [addBuilding]
    split
    · exact hP
    · split_ifs with h2
      · exact hP
      · dsimp only
        linarith [not_lt.1 h2]
  | Rt msg playerID nodes =>
    simp only [applyEvent, Option.some.injEq] at he
    subst he
    rw [(addBusRoute_frame sqrt s msg playerID nodes).1]
    exact hP
  | D playerID x y =>
    obtain ⟨out, hd⟩ := deleteObject_of_apply sqrt s s1 playerID x y he
    rcases deleteObject_cases sqrt s s1 playerID x y out hd with
      ⟨i, b, -, rfl⟩ | ⟨i, l, toPrune, -, -, -, rfl⟩ | ⟨i, rfl⟩ | ⟨i, rfl⟩ | rfl
    · exact hP
    · simp only [ROAD_COST_PER_UNIT, Vector2Distance]
      have := hsqrt ((l.StartX - l.EndX) * (l.StartX - l.EndX) +
        (l.StartY - l.EndY) * (l.StartY - l.EndY))
      have h2 : (0 : R) ≤ 1 / 2 := by norm_num
      have := mul_nonneg this h2
      linarith
    · exact hP
    · exact hP
    · exact hP
  | busTick =>
    obtain ⟨out, hb⟩ := busTick_of_apply sqrt s s1 he
    have := (busTick_frame sqrt s s1 out hb).2.2.2.2.2
    exact le_trans hP this
  | incomeTick =>
    simp only [applyEvent, Option.some.injEq] at he
    subst he
    dsimp only [incomeTick]
    split_ifs with h1
    · dsimp only
      linarith
    · exact hP

/-- The money is not negative, over the reals, in the state reached by
buying one road of length 5. -/
theorem money_never_negative_exact_witness : 0 ≤ (oneRoad ℝ).money :=
  money_never_negative_exact Real.sqrt Real.sqrt_nonneg (oneRoad ℝ) oneRoad_reachable

theorem countP_eraseIdx {α : Type} (p : α → Bool) (l : List α) (i : Nat) (a : α)
    (h : l[i]? = some a) :
    l.countP p = (l.eraseIdx i).countP p + (if p a = true then 1 else 0) := by
  induction l generalizing i with
  | nil => simp at h
  | cons b rest ih =>
    cases i with
    | zero =>
      simp only [List.getElem?_cons_zero, Option.some.injEq] at h
      subst h
      simp [List.countP_cons]
    | succ k =>
      simp only [List.getElem?_cons_succ] at h
      simp only [List.eraseIdx_cons_succ, List.countP_cons]
      rw [ih k h]
      omega

theorem incomeOfBuildings_nonneg (buildings : List (StoredBuilding R)) :
    0 ≤ incomeOfBuildings R buildings := by
  unfold incomeOfBuildings
  positivity

theorem incomeOfBuildings_eraseIdx (buildings : List (StoredBuilding R)) (i : Nat)
    (b : StoredBuilding R) (h : buildings[i]? = some b) :
    incomeOfBuildings R (buildings.eraseIdx i) =
      incomeOfBuildings R buildings - contribution R b.Typ := by
  have hCI : ¬ (Commercial = Industrial) := by decide
  have hIC : ¬ (Industrial = Commercial) := by decide
  unfold incomeOfBuildings contribution
  rw [countP_eraseIdx (fun b => decide (b.Typ = Commercial)) buildings i b h,
    countP_eraseIdx (fun b => decide (b.Typ = Industrial)) buildings i b h]
  by_cases h1 : b.Typ = Commercial
  · simp only [h1, hCI, decide_True, decide_False, if_true, if_false, Bool.false_eq_true]
    push_cast
    ring
  · by_cases h2 : b.Typ = Industrial
    · simp only [h2, hIC, decide_True, decide_False, if_true, if_false,
        Bool.false_eq_true]
      push_cast
      ring
    · simp only [h1, h2, decide_False, if_false, Bool.false_eq_true]
      push_cast
      ring

theorem incomeAfterDelete_of_stored (buildings : List (StoredBuilding R)) (i : Nat)
    (b : StoredBuilding R) (h : buildings[i]? = some b) :
    incomeAfterDelete (incomeOfBuildings R buildings) b.Typ =
      incomeOfBuildings R buildings - contribution R b.Typ := by
  have hIC : ¬ (Industrial = Commercial) := by decide
  have hnn := incomeOfBuildings_nonneg (buildings.eraseIdx i)
  rw [incomeOfBuildings_eraseIdx buildings i b h] at hnn
  unfold incomeAfterDelete
  unfold contribution at hnn ⊢
  by_cases h1 : b.Typ = Commercial
  · simp only [h1, if_true, COMMERCIAL_INCOME_INCREASE] at hnn ⊢
    rw [if_neg (not_lt.2 hnn)]
  · by_cases h2 : b.Typ = Industrial
    · simp only [h2, hIC, if_true, if_false, INDUSTRIAL_INCOME_INCREASE] at hnn ⊢
      rw [if_neg (not_lt.2 hnn)]
    · simp only [h1, h2, if_false, sub_zero] at hnn ⊢
      rw [if_neg (not_lt.2 hnn)]

theorem deleteObject_building (sqrt : R → R) (s : LobbyServer R) (playerID : String)
    (x y : R) (i : Nat) (b : StoredBuilding R)
    (h : scanDown (buildingHit sqrt x y) s.buildings s.buildings.length = some (i, b)) :
    ∃ out, deleteObject sqrt s playerID x y =
      some ({ s with buildings := s.buildings.eraseIdx i,
                     incomeRate := if b.Typ ≠ -1 then incomeAfterDelete s.incomeRate b.Typ
                       else s.incomeRate }, out) := by
  unfold deleteObject
  rw [h]
  by_cases ht : b.Typ = -1
  · simp [ht]
  · simp [ht]

theorem income_invariant (sqrt : R → R) (s : LobbyServer R) (h : Reachable sqrt s) :
    s.incomeRate = incomeOfBuildings R s.buildings := by
  refine reachable_induction sqrt (fun s => s.incomeRate = incomeOfBuildings R s.buildings)
    (by simp [Start, incomeOfBuildings]) ?_ s h
  intro s e s1 hP he
  cases e with
  | I msg playerID startX startY endX endY infraType =>
    simp only [applyEvent, Option.some.injEq] at he
    subst he
    dsimp only [addInfrastructure]
    split_ifs <;> exact hP
  | B msg playerID x y buildingType =>
    simp only [applyEvent, Option.some.injEq] at he
    subst he
    dsimp only [addBuilding]
    split
    · exact hP
    · rename_i cost income hprice
      split_ifs with h2
      · exact hP
      · dsimp only
        rw [hP]
        unfold buildingPrice at hprice
        unfold incomeOfBuildings
        simp only [List.countP_append, List.countP_cons, List.countP_nil]
        split_ifs at hprice with h0 h1 h3
        · simp only [Option.some.injEq, Prod.mk.injEq] at hprice
          obtain ⟨-, rfl⟩ := hprice
          simp [h0, Residential, Commercial, Industrial]
        · simp only [Option.some.injEq, Prod.mk.injEq] at hprice
          obtain ⟨-, rfl⟩ := hprice
          simp only [h1, Commercial, Industrial, COMMERCIAL_INCOME_INCREASE]
          norm_num
          ring
        · simp only [Option.some.injEq, Prod.mk.injEq] at hprice
          obtain ⟨-, rfl⟩ := hprice
          simp only [h3, Commercial, Industrial, INDUSTRIAL_INCOME_INCREASE]
          norm_num
          ring
  | Rt msg playerID nodes =>
    simp only [applyEvent, Option.some.injEq] at he
    subst he
    rw [(addBusRoute_frame sqrt s msg playerID nodes).2.1,
      (addBusRoute_frame sqrt s msg playerID nodes).2.2.1]
    exact hP
  | D playerID x y =>
    obtain ⟨out, hd⟩ := deleteObject_of_apply sqrt s s1 playerID x y he
    rcases deleteObject_cases sqrt s s1 playerID x y out hd with
      ⟨i, b, hb, rfl⟩ | ⟨i, l, toPrune, -, -, -, rfl⟩ | ⟨i, rfl⟩ | ⟨i, rfl⟩ | rfl
    · dsimp only
      rw [incomeOfBuildings_eraseIdx s.buildings i b hb, hP]
      by_cases ht : b.Typ = -1
      · simp [ht, contribution, Commercial, Industrial]
      · simp only [ne_eq, ht, not_false_eq_true, if_true]
        exact incomeAfterDelete_of_stored s.buildings i b hb
    · exact hP
    · exact hP
    · exact hP
    · exact hP
  | busTick =>
    obtain ⟨out, hb⟩ := busTick_of_apply sqrt s s1 he
    obtain ⟨-, h2, -, h4, -, -⟩ := busTick_frame sqrt s s1 out hb
    rw [h2, h4]
    exact hP
  | incomeTick =>
    simp only [applyEvent, Option.some.injEq] at he
    subst he
    dsimp only [incomeTick]
    split_ifs <;> exact hP

/-- C7: in every reachable server state the income rate equals exactly 5
times the number of stored Commercial buildings plus 25 times the number of
stored Industrial buildings.  In particular, when `deleteObject` finds the
building `b` at index `i`, it returns the state without that building and
with the income rate lowered by exactly the contribution of `b` (5, 25 or
0): the floor at zero does not change the value. -/
theorem C7_income_rate_exact (sqrt : R → R) (s : LobbyServer R)
    (h : Reachable sqrt s) :
    s.incomeRate = 5 * ((s.buildings.countP fun b => decide (b.Typ = Commercial) : Nat) : R) +
        25 * ((s.buildings.countP fun b => decide (b.Typ = Industrial) : Nat) : R) ∧
    ∀ (playerID : String) (x y : R) (i : Nat) (b : StoredBuilding R),
      scanDown (buildingHit sqrt x y) s.buildings s.buildings.length = some (i, b) →
      ∃ s1 out, deleteObject sqrt s playerID x y = some (s1, out) ∧
        s1.buildings = s.buildings.eraseIdx i ∧
        s1.incomeRate = s.incomeRate - contribution R b.Typ ∧
        s1.incomeRate = incomeOfBuildings R s1.buildings := by
  have hinv := income_invariant sqrt s h
  refine ⟨hinv, ?_⟩
  intro playerID x y i b hscan
  obtain ⟨out, hd⟩ := deleteObject_building sqrt s playerID x y i b hscan
  have hb := (scanDown_some _ _ _ _ _ hscan).2.1
  refine ⟨_, out, hd, rfl, ?_, ?_⟩
  · dsimp only
    by_cases ht : b.Typ = -1
    · simp [ht, contribution, Commercial, Industrial]
    · simp only [ne_eq, ht, not_false_eq_true, if_true]
      rw [hinv]
      exact incomeAfterDelete_of_stored s.buildings i b hb
  · dsimp only
    rw [incomeOfBuildings_eraseIdx s.buildings i b hb]
    by_cases ht : b.Typ = -1
    · simp [ht, contribution, Commercial, Industrial, hinv]
    · simp only [ne_eq, ht, not_false_eq_true, if_true]
      rw [hinv]
      exact incomeAfterDelete_of_stored s.buildings i b hb

end Economy

/-! ## Dense route indices -/

section Dense

variable {R : Type}

theorem removeBuses_cons (i : Int) (b : Bus R) (bs : List (Bus R)) :
    removeBusesForRoute i (b :: bs) =
      if b.RouteID ≠ i then
        (if b.RouteID > i then { b with RouteID := b.RouteID - 1 } else b) ::
          removeBusesForRoute i bs
      else removeBusesForRoute i bs := by
  unfold removeBusesForRoute
  by_cases h : b.RouteID = i
  · simp [List.filterMap_cons, h]
  · simp [List.filterMap_cons, h]

theorem removeBuses_ids_above (i : Nat) (buses : List (Bus R)) :
    ∀ off len : Nat,
      buses.map (fun b => b.RouteID) = (List.range' off len).map (fun k : Nat => (k : Int)) →
      i < off →
      (removeBusesForRoute (i : Int) buses).map (fun b => b.RouteID) =
        (List.range' (off - 1) len).map (fun k : Nat => (k : Int)) := by
  induction buses with
  | nil =>
    intro off len h _
    cases len with
    | zero => simp [removeBusesForRoute]
    | succ k => simp [List.range'_succ] at h
  | cons b bs ih =>
    intro off len h hi
    cases len with
    | zero => simp at h
    | succ k =>
      simp only [List.range'_succ, List.map_cons, List.cons.injEq] at h
      have hb := h.1
      have hbs := h.2
      have ih1 := ih (off + 1) k hbs (by omega)
      rw [removeBuses_cons]
      have h1 : b.RouteID ≠ (i : Int) := by rw [hb]; omega
      have h2 : b.RouteID > (i : Int) := by rw [hb]; omega
      simp only [h1, ne_eq, not_false_eq_true, if_true, h2, List.map_cons, ih1,
        List.range'_succ, Nat.add_sub_cancel]
      rw [hb, show off - 1 + 1 = off by omega]
      congr 1
      omega

theorem removeBuses_ids_inside (i : Nat) (buses : List (Bus R)) :
    ∀ off len : Nat,
      buses.map (fun b => b.RouteID) = (List.range' off len).map (fun k : Nat => (k : Int)) →
      off ≤ i → i < off + len →
      (removeBusesForRoute (i : Int) buses).map (fun b => b.RouteID) =
        (List.range' off (len - 1)).map (fun k : Nat => (k : Int)) := by
  induction buses with
  | nil =>
    intro off len h _ _
    cases len with
    | zero => simp [removeBusesForRoute]
    | succ k => simp [List.range'_succ] at h
  | cons b bs ih =>
    intro off len h h1 h2
    cases len with
    | zero => simp at h
    | succ k =>
      simp only [List.range'_succ, List.map_cons, List.cons.injEq] at h
      have hb := h.1
      have hbs := h.2
      rw [removeBuses_cons]
      by_cases hio : i = off
      · have hne : ¬ b.RouteID ≠ (i : Int) := by rw [hb, hio]; simp
        simp only [hne, if_false, Nat.add_sub_cancel]
        have := removeBuses_ids_above i bs (off + 1) k hbs (by omega)
        simpa using this
      · have hne : b.RouteID ≠ (i : Int) := by rw [hb]; omega
        have hgt : ¬ b.RouteID > (i : Int) := by rw [hb]; omega
        have ih1 := ih (off + 1) k hbs (by omega) (by omega)
        simp only [hne, ne_eq, not_false_eq_true, if_true, hgt, if_false, List.map_cons,
          ih1, Nat.add_sub_cancel]
        rw [hb]
        cases k with
        | zero => omega
        | succ m => simp [List.range'_succ]

theorem removeBuses_ids_below (i : Nat) (buses : List (Bus R)) :
    ∀ off len : Nat,
      buses.map (fun b => b.RouteID) = (List.range' off len).map (fun k : Nat => (k : Int)) →
      off + len ≤ i →
      removeBusesForRoute (i : Int) buses = buses := by
  induction buses with
  | nil =>
    intro off len _ _
    simp [removeBusesForRoute]
  | cons b bs ih =>
    intro off len h h1
    cases len with
    | zero => simp at h
    | succ k =>
      simp only [List.range'_succ, List.map_cons, List.cons.injEq] at h
      have hb := h.1
      have hbs := h.2
      rw [removeBuses_cons]
      have hne : b.RouteID ≠ (i : Int) := by rw [hb]; omega
      have hgt : ¬ b.RouteID > (i : Int) := by rw [hb]; omega
      simp only [hne, ne_eq, not_false_eq_true, if_true, hgt, if_false,
        ih (off + 1) k hbs (by omega)]

theorem denseIds_step (routes : List (StoredBusRoute R)) (buses : List (Bus R))
    (idx : Nat) (h : DenseIds routes buses) :
    DenseIds (routes.eraseIdx idx) (removeBusesForRoute (idx : Int) buses) := by
  unfold DenseIds at h ⊢
  by_cases hi : idx < routes.length
  · rw [removeBuses_ids_inside idx buses 0 routes.length h (by omega) (by omega),
      List.length_eraseIdx_of_lt hi]
  · rw [removeBuses_ids_below idx buses 0 routes.length h (by omega),
      List.eraseIdx_of_length_le (by omega)]
    exact h

theorem denseIds_pruneLoop (toPrune : List Nat) :
    ∀ st : List (StoredBusRoute R) × List (Bus R), DenseIds st.1 st.2 →
      DenseIds (pruneLoop toPrune st).1 (pruneLoop toPrune st).2 := by
  induction toPrune with
  | nil => intro st h; exact h
  | cons idx more ih =>
    intro st h
    unfold pruneLoop
    exact ih _ (denseIds_step st.1 st.2 idx h)

theorem denseRoutes_of_ids (s : LobbyServer R) (h : DenseIds s.busRoutes s.buses) :
    DenseRoutes s := by
  unfold DenseIds at h
  have hlen : s.buses.length = s.busRoutes.length := by
    have := congrArg List.length h
    simpa using this
  refine ⟨hlen, ?_⟩
  intro i hi
  have h1 : (s.buses.map (fun b => b.RouteID))[i]? =
      ((List.range' 0 s.busRoutes.length).map (fun k : Nat => (k : Int)))[i]? := by rw [h]
  rw [List.getElem?_map, List.getElem?_map, List.getElem?_eq_getElem hi,
    List.getElem?_eq_getElem (by simpa [hlen] using hi)] at h1
  simp only [Option.map_some', List.getElem_range', Option.some.injEq] at h1
  rw [List.get_eq_getElem, h1]
  simp

end Dense

/-! ## Reachable states have dense route indices -/

section DenseReachable

variable {R : Type} [LinearOrderedField R]

theorem reachable_step (sqrt : R → R) (s s1 : LobbyServer R) (e : Event R)
    (h : Reachable sqrt s) (he : applyEvent sqrt s e = some s1) : Reachable sqrt s1 := by
  have key : ∀ (events : List (Event R)) (s0 : LobbyServer R),
      run sqrt s0 events = some s → run sqrt s0 (events ++ [e]) = some s1 := by
    intro events
    induction events with
    | nil =>
      intro s0 h0
      simp only [run, Option.some.injEq] at h0
      subst h0
      simp [run, he]
    | cons e0 rest ih =>
      intro s0 h0
      simp only [run, List.cons_append] at h0 ⊢
      cases h1 : applyEvent sqrt s0 e0 with
      | none => simp [h1] at h0
      | some s2 =>
        simp only [h1] at h0 ⊢
        exact ih s2 h0
  obtain ⟨events, hrun⟩ := h
  exact ⟨events ++ [e], key events (Start R) hrun⟩

theorem denseIds_invariant (sqrt : R → R) (s : LobbyServer R) (h : Reachable sqrt s) :
    DenseIds s.busRoutes s.buses := by
  refine reachable_induction sqrt (fun s => DenseIds s.busRoutes s.buses)
    (by simp [Start, DenseIds]) ?_ s h
  intro s e s1 hP he
  cases e with
  | I msg playerID startX startY endX endY infraType =>
    simp only [applyEvent, Option.some.injEq] at he
    subst he
    dsimp only [addInfrastructure]
    split_ifs <;> exact hP
  | B msg playerID x y buildingType =>
    simp only [applyEvent, Option.some.injEq] at he
    subst he
    dsimp only [addBuilding]
    split
    · exact hP
    · split_ifs <;> exact hP
  | Rt msg playerID nodes =>
    simp only [applyEvent, Option.some.injEq] at he
    subst he
    by_cases hr : RouteOnRoads sqrt s.lines nodes
    · match nodes, hr with
      | [], _ => exact hP
      | [_], _ => exact hP
      | p0 :: p1 :: more, hr =>
        rw [addBusRoute_of_onRoads sqrt s msg playerID p0 p1 more hr]
        unfold DenseIds at hP ⊢
        simp only [List.map_append, hP, List.map_cons, List.map_nil, List.length_append,
          List.length_singleton, List.range'_concat, Nat.zero_add, Nat.one_mul]
    · rw [addBusRoute_of_not_onRoads sqrt s msg playerID nodes hr]
      exact hP
  | D playerID x y =>
    obtain ⟨out, hd⟩ := deleteObject_of_apply sqrt s s1 playerID x y he
    rcases deleteObject_cases sqrt s s1 playerID x y out hd with
      ⟨i, b, -, rfl⟩ | ⟨i, l, toPrune, -, -, -, rfl⟩ | ⟨i, rfl⟩ | ⟨i, rfl⟩ | rfl
    · exact hP
    · exact denseIds_pruneLoop toPrune.reverse (s.busRoutes, s.buses) hP
    · exact hP
    · exact denseIds_step s.busRoutes s.buses i hP
    · exact hP
  | busTick =>
    obtain ⟨out, hb⟩ := busTick_of_apply sqrt s s1 he
    obtain ⟨-, -, h3, -, h5, -⟩ := busTick_frame sqrt s s1 out hb
    unfold DenseIds at hP ⊢
    rw [h3, h5]
    exact hP
  | incomeTick =>
    simp only [applyEvent, Option.some.injEq] at he
    subst he
    dsimp only [incomeTick]
    split_ifs <;> exact hP

/-- C5: in every reachable server state every bus's RouteID indexes a live
route, `0 ≤ RouteID < len(busRoutes)`; more precisely there is exactly one
bus per route, `len(buses) = len(busRoutes)`, and `buses[i].RouteID = i` for
every `i`, so route indices stay dense after any route deletion. -/
theorem C5_route_ids_dense (sqrt : R → R) (s : LobbyServer R) (h : Reachable sqrt s) :
    (∀ b ∈ s.buses, 0 ≤ b.RouteID ∧ b.RouteID < (s.busRoutes.length : Int)) ∧
    s.buses.length = s.busRoutes.length ∧
    ∀ i : Nat, ∀ hi : i < s.buses.length, (s.buses.get ⟨i, hi⟩).RouteID = (i : Int) := by
  obtain ⟨hlen, hid⟩ := denseRoutes_of_ids s (denseIds_invariant sqrt s h)
  refine ⟨?_, hlen, hid⟩
  intro b hb
  obtain ⟨n, hn⟩ := List.get_of_mem hb
  have := hid n.1 n.2
  rw [show s.buses.get ⟨n.1, n.2⟩ = b from hn] at this
  rw [this]
  have h2 := n.2
  omega

theorem cornerRoads_reachable : Reachable Real.sqrt (cornerRoads ℝ) := by
  refine ⟨[Event.I "I:a:0:0:100:0:0" "a" 0 0 100 0 Road,
    Event.I "I:a:100:0:100:100:0" "a" 100 0 100 100 Road], ?_⟩
  have h1 : Vector2Distance Real.sqrt (⟨0, 0⟩ : Vector2 ℝ) ⟨100, 0⟩ = 100 := by
    unfold Vector2Distance
    rw [show ((0 : ℝ) - 100) * (0 - 100) + (0 - 0) * (0 - 0) = 100 ^ 2 by norm_num]
    exact Real.sqrt_sq (by norm_num)
  have h2 : Vector2Distance Real.sqrt (⟨100, 0⟩ : Vector2 ℝ) ⟨100, 100⟩ = 100 := by
    unfold Vector2Distance
    rw [show ((100 : ℝ) - 100) * (100 - 100) + (0 - 100) * (0 - 100) = 100 ^ 2 by norm_num]
    exact Real.sqrt_sq (by norm_num)
  simp only [run, applyEvent, addInfrastructure, if_true, h1, h2, Start, ROAD_COST_PER_UNIT]
  norm_num [cornerRoads]

theorem cornerBus_reachable : Reachable Real.sqrt (cornerBus ℝ Real.sqrt) :=
  reachable_step Real.sqrt (cornerRoads ℝ) (cornerBus ℝ Real.sqrt)
    (Event.Rt "R:a:0:0:100:0:100:100" "a" (cornerRoute ℝ)) cornerRoads_reachable rfl

/-- The statement C5 in the state reached by buying the two corner roads
and creating the route along them. -/
theorem C5_route_ids_dense_witness :
    (∀ b ∈ (cornerBus ℝ Real.sqrt).buses,
      0 ≤ b.RouteID ∧ b.RouteID < ((cornerBus ℝ Real.sqrt).busRoutes.length : Int)) ∧
    (cornerBus ℝ Real.sqrt).buses.length = (cornerBus ℝ Real.sqrt).busRoutes.length ∧
    ∀ i : Nat, ∀ hi : i < (cornerBus ℝ Real.sqrt).buses.length,
      ((cornerBus ℝ Real.sqrt).buses.get ⟨i, hi⟩).RouteID = (i : Int) :=
  C5_route_ids_dense Real.sqrt (cornerBus ℝ Real.sqrt) cornerBus_reachable

/-- The statement C7 in the state reached by buying one Commercial building,
and for deleting that building at its own position. -/
theorem C7_income_rate_exact_witness :
    (oneShop ℝ).incomeRate = 5 * (((oneShop ℝ).buildings.countP
        fun b => decide (b.Typ = Commercial) : Nat) : ℝ) +
      25 * (((oneShop ℝ).buildings.countP fun b => decide (b.Typ = Industrial) : Nat) : ℝ) ∧
    ∃ s1 out, deleteObject Real.sqrt (oneShop ℝ) "a" 10 10 = some (s1, out) ∧
      s1.buildings = (oneShop ℝ).buildings.eraseIdx 0 ∧
      s1.incomeRate = (oneShop ℝ).incomeRate - contribution ℝ Commercial ∧
      s1.incomeRate = incomeOfBuildings ℝ s1.buildings :=
  ⟨(C7_income_rate_exact Real.sqrt (oneShop ℝ) (oneShop_reachable Real.sqrt)).1,
   (C7_income_rate_exact Real.sqrt (oneShop ℝ) (oneShop_reachable Real.sqrt)).2
      "a" 10 10 0 ⟨10, 10, Commercial, "a"⟩ (by
        simp only [scanDown, oneShop, buildingHit, pointDist, deleteRadius, GRID_SIZE,
          List.length_singleton, List.getElem?_cons_zero]
        norm_num)⟩

end DenseReachable

/-! ## Road cost conservation -/

section RoadCost

variable {R : Type} [LinearOrderedField R]

theorem scanDown_none {α : Type} (hit : α → Bool) (l : List α)
    (h : ∀ a ∈ l, hit a = false) : ∀ n : Nat, scanDown hit l n = none := by
  intro n
  induction n with
  | zero => rfl
  | succ k ih =>
    unfold scanDown
    cases hk : l[k]? with
    | none => exact ih
    | some a =>
      have hmem : a ∈ l := List.getElem?_mem hk
      simp only [h a hmem, Bool.false_eq_true, if_false]
      exact ih

theorem scanDown_last {α : Type} (hit : α → Bool) (l : List α) (a : α)
    (h : hit a = true) : scanDown hit (l ++ [a]) (l ++ [a]).length = some (l.length, a) := by
  rw [List.length_append, List.length_singleton]
  unfold scanDown
  simp [h]

theorem routesToPrune_some (sqrt : R → R) (lines : List (StoredLine R))
    (routes : List (StoredBusRoute R)) (h : RoutesWellFormed routes) :
    ∀ i : Nat, ∃ toPrune, routesToPrune sqrt lines i routes = some toPrune := by
  induction routes with
  | nil => intro i; exact ⟨[], rfl⟩
  | cons r rest ih =>
    intro i
    obtain ⟨nodes, hn⟩ := h r (List.mem_cons_self _ _)
    obtain ⟨more, hm⟩ := ih (fun r1 h1 => h r1 (List.mem_cons_of_mem _ h1)) (i + 1)
    unfold routesToPrune routeIsValid
    simp only [hn, hm]
    exact ⟨_, rfl⟩

/-- C2: road cost is conserved.  In a state whose stored routes are well
formed, for a Road segment of length `L` with `money ≥ L * 0.5`,
`addInfrastructure` lowers money by exactly `L * 0.5` and appends the
segment; a following `deleteObject` at a point within the delete radius 24
of that segment, with no building within the radius, removes that same
segment (the last line) and raises money by exactly `L * 0.5`, so money and
the list of lines are back to their values before the road was built. -/
theorem C2_road_cost_conserved (sqrt : R → R) (s : LobbyServer R)
    (msg playerID deleter : String) (startX startY endX endY x y : R)
    (hwf : RoutesWellFormed s.busRoutes)
    (hmoney : Vector2Distance sqrt ⟨startX, startY⟩ ⟨endX, endY⟩ * (1 / 2) ≤ s.money)
    (hnear : pointSegmentDistance sqrt ⟨x, y⟩ ⟨startX, startY⟩ ⟨endX, endY⟩ ≤ 24)
    (hnob : ∀ b ∈ s.buildings, ¬ pointDist sqrt b.X b.Y x y ≤ 24) :
    (addInfrastructure sqrt s msg playerID startX startY endX endY Road).1.money =
        s.money - Vector2Distance sqrt ⟨startX, startY⟩ ⟨endX, endY⟩ * (1 / 2) ∧
    (addInfrastructure sqrt s msg playerID startX startY endX endY Road).1.lines =
        s.lines ++ [(⟨startX, startY, endX, endY, Road, playerID⟩ : StoredLine R)] ∧
    ∃ s2 out,
      deleteObject sqrt (addInfrastructure sqrt s msg playerID startX startY endX endY Road).1
        deleter x y = some (s2, out) ∧
      s2.lines = (s.lines ++ [(⟨startX, startY, endX, endY, Road, playerID⟩ : StoredLine R)]).eraseIdx
        s.lines.length ∧
      s2.money = (s.money - Vector2Distance sqrt ⟨startX, startY⟩ ⟨endX, endY⟩ * (1 / 2)) +
        Vector2Distance sqrt ⟨startX, startY⟩ ⟨endX, endY⟩ * (1 / 2) ∧
      s2.money = s.money ∧ s2.lines = s.lines := by
  have h24 : deleteRadius R = 24 := by
    unfold deleteRadius GRID_SIZE
    norm_num
  have hadd : (addInfrastructure sqrt s msg playerID startX startY endX endY Road).1 =
      { s with lines := s.lines ++ [(⟨startX, startY, endX, endY, Road, playerID⟩ : StoredLine R)],
               money := s.money -
                 Vector2Distance sqrt ⟨startX, startY⟩ ⟨endX, endY⟩ * (1 / 2) } := by
    have hm : ¬ s.money < Vector2Distance sqrt ⟨startX, startY⟩ ⟨endX, endY⟩ * 2⁻¹ := by
      rw [← one_div]
      exact not_lt.2 hmoney
    simp [addInfrastructure, ROAD_COST_PER_UNIT, hm]
  rw [hadd]
  refine ⟨rfl, rfl, ?_⟩
  have hb : scanDown (buildingHit sqrt x y) s.buildings s.buildings.length = none := by
    apply scanDown_none
    intro b hbm
    simp only [buildingHit, h24, decide_eq_false_iff_not]
    exact hnob b hbm
  have hl : scanDown (lineHit sqrt x y)
      (s.lines ++ [(⟨startX, startY, endX, endY, Road, playerID⟩ : StoredLine R)])
      (s.lines ++ [(⟨startX, startY, endX, endY, Road, playerID⟩ : StoredLine R)]).length =
      some (s.lines.length, (⟨startX, startY, endX, endY, Road, playerID⟩ : StoredLine R)) := by
    apply scanDown_last
    simp only [lineHit, h24, decide_eq_true_eq]
    exact Or.inr (Or.inr hnear)
  obtain ⟨toPrune, hp⟩ := routesToPrune_some sqrt
    ((s.lines ++ [(⟨startX, startY, endX, endY, Road, playerID⟩ : StoredLine R)]).eraseIdx s.lines.length)
    s.busRoutes hwf 0
  unfold deleteObject
  simp only [hb, hl, if_true, hp]
  refine ⟨_, _, rfl, rfl, ?_, ?_, ?_⟩
  · simp [ROAD_COST_PER_UNIT]
  · simp [ROAD_COST_PER_UNIT]
  · simp [List.eraseIdx_append_of_length_le]

/-- The statement C2 over the reals: from the start state, the road from
`(0,0)` to `(3,4)` is bought and then deleted at `(0,0)`. -/
theorem C2_road_cost_conserved_witness :
    (addInfrastructure Real.sqrt (Start ℝ) "I:a:0:0:3:4:0" "a" 0 0 3 4 Road).1.money =
        (Start ℝ).money - Vector2Distance Real.sqrt ⟨0, 0⟩ ⟨3, 4⟩ * (1 / 2) ∧
    (addInfrastructure Real.sqrt (Start ℝ) "I:a:0:0:3:4:0" "a" 0 0 3 4 Road).1.lines =
        (Start ℝ).lines ++ [(⟨0, 0, 3, 4, Road, "a"⟩ : StoredLine ℝ)] ∧
    ∃ s2 out,
      deleteObject Real.sqrt
        (addInfrastructure Real.sqrt (Start ℝ) "I:a:0:0:3:4:0" "a" 0 0 3 4 Road).1
        "b" 0 0 = some (s2, out) ∧
      s2.lines = ((Start ℝ).lines ++ [(⟨0, 0, 3, 4, Road, "a"⟩ : StoredLine ℝ)]).eraseIdx
        (Start ℝ).lines.length ∧
      s2.money = ((Start ℝ).money - Vector2Distance Real.sqrt ⟨0, 0⟩ ⟨3, 4⟩ * (1 / 2)) +
        Vector2Distance Real.sqrt ⟨0, 0⟩ ⟨3, 4⟩ * (1 / 2) ∧
      s2.money = (Start ℝ).money ∧ s2.lines = (Start ℝ).lines :=
  C2_road_cost_conserved Real.sqrt (Start ℝ) "I:a:0:0:3:4:0" "a" "b" 0 0 3 4 0 0
    (by intro r hr; simp [Start] at hr)
    (by rw [distance_three_four]; norm_num [Start])
    (by norm_num [pointSegmentDistance, Vector2DistanceSqr, Vector2Distance,
          Vector2DotProduct, Vector2Subtract, Vector2Add, Vector2Scale, max_def, min_def])
    (by intro b hb; simp [Start] at hb)

end RoadCost

/-! ## A bus on a two-node route -/

section Shuttle

variable {R : Type} [LinearOrderedField R]

theorem run_append (sqrt : R → R) (events more : List (Event R)) :
    ∀ s s1 : LobbyServer R, run sqrt s events = some s1 →
      run sqrt s (events ++ more) = run sqrt s1 more := by
  induction events with
  | nil =>
    intro s s1 h
    simp only [run, Option.some.injEq] at h
    subst h
    rfl
  | cons e rest ih =>
    intro s s1 h
    simp only [run, List.cons_append] at h ⊢
    cases he : applyEvent sqrt s e with
    | none => simp [he] at h
    | some s2 =>
      simp only [he] at h ⊢
      exact ih s2 s1 h

theorem run_ticks_succ (sqrt : R → R) (s s1 s2 : LobbyServer R) (k : Nat)
    (out : List (Out R))
    (h : run sqrt s (List.replicate k Event.busTick) = some s1)
    (ht : busTick sqrt s1 = some (s2, out)) :
    run sqrt s (List.replicate (k + 1) Event.busTick) = some s2 := by
  rw [List.replicate_succ', run_append sqrt _ _ s s1 h]
  simp [run, applyEvent, ht]

theorem busTick_shuttle (sqrt : R → R) (route : StoredBusRoute R) (bus bus1 : Bus R)
    (money money1 : R) (out : List (Out R))
    (h : updateBus sqrt [route] 0 bus money = some (bus1, money1, out)) :
    busTick sqrt (shuttle route bus money) = some (shuttle route bus1 money1, out ++ []) := by
  simp [busTick, updateBuses, shuttle, h]

theorem forward_step (sqrt : R → R) (route : StoredBusRoute R) (a b pos : Vector2 R)
    (p money : R) (hn : toNodes route.Points = some [a, b])
    (hd : Vector2Distance sqrt a b = 200) (hp : p + 1 / 20 < 1) :
    updateBus sqrt [route] 0 ⟨pos, 0, 0, p, 1⟩ money =
      some (⟨Vector2Lerp a b (p + 1 / 20), 0, 0, p + 1 / 20, 1⟩, money,
        [Out.toAll (Msg.bus 0 (Vector2Lerp a b (p + 1 / 20)).X
          (Vector2Lerp a b (p + 1 / 20)).Y)]) := by
  have hadv : advanceProgress p (200 : R) = p + 1 / 20 := by
    unfold advanceProgress BUS_SPEED frameTime
    norm_num
  have hlt : ¬ (1 ≤ p + 20⁻¹) := by
    rw [← one_div]
    exact not_le.2 hp
  simp [updateBus, hn, segmentEnds, nodeAt, hd, hadv, finishSegment, hlt]

theorem forward_finish (sqrt : R → R) (route : StoredBusRoute R) (a b pos : Vector2 R)
    (p money : R) (hn : toNodes route.Points = some [a, b])
    (hd : Vector2Distance sqrt a b = 200) (hp : p + 1 / 20 ≥ 1) :
    updateBus sqrt [route] 0 ⟨pos, 0, 0, p, 1⟩ money =
      some (⟨b, 0, 0, 0, -1⟩, payReward money route.Length,
        [Out.toAll (Msg.money (payReward money route.Length)),
         Out.toAll (Msg.bus 0 b.X b.Y)]) := by
  have hadv : advanceProgress p (200 : R) = p + 1 / 20 := by
    unfold advanceProgress BUS_SPEED frameTime
    norm_num
  have hge : 1 ≤ p + 20⁻¹ := by
    rw [← one_div]
    exact hp
  simp [updateBus, hn, segmentEnds, nodeAt, hd, hadv, finishSegment, hge, Vector2Lerp]

theorem backward_step (sqrt : R → R) (route : StoredBusRoute R) (a b pos : Vector2 R)
    (p money : R) (hn : toNodes route.Points = some [a, b])
    (hd : Vector2Distance sqrt a b = 200) (hp : p + 1 / 20 < 1) :
    updateBus sqrt [route] 0 ⟨pos, 0, 0, p, -1⟩ money =
      some (⟨Vector2Lerp b a (p + 1 / 20), 0, 0, p + 1 / 20, -1⟩, money,
        [Out.toAll (Msg.bus 0 (Vector2Lerp b a (p + 1 / 20)).X
          (Vector2Lerp b a (p + 1 / 20)).Y)]) := by
  have hd1 : Vector2Distance sqrt b a = 200 := by
    rw [← hd]
    unfold Vector2Distance
    congr 1
    ring
  have hadv : advanceProgress p (200 : R) = p + 1 / 20 := by
    unfold advanceProgress BUS_SPEED frameTime
    norm_num
  have hlt : ¬ (1 ≤ p + 20⁻¹) := by
    rw [← one_div]
    exact not_le.2 hp
  simp [updateBus, hn, segmentEnds, nodeAt, hd1, hadv, finishSegment, hlt]

theorem shuttle_forward (sqrt : R → R) (route : StoredBusRoute R) (a b pos0 : Vector2 R)
    (money : R) (hn : toNodes route.Points = some [a, b])
    (hd : Vector2Distance sqrt a b = 200) :
    ∀ k : Nat, k ≤ 19 → ∃ pos,
      run sqrt (shuttle route ⟨pos0, 0, 0, 0, 1⟩ money) (List.replicate k Event.busTick) =
        some (shuttle route ⟨pos, 0, 0, (k : R) / 20, 1⟩ money) := by
  intro k
  induction k with
  | zero =>
    intro _
    exact ⟨pos0, by simp [run]⟩
  | succ m ih =>
    intro hm
    obtain ⟨pos, hrun⟩ := ih (by omega)
    have hlt : (m : R) / 20 + 1 / 20 < 1 := by
      have : (m : R) ≤ 18 := by exact_mod_cast (by omega : m ≤ 18)
      linarith
    have hstep := busTick_shuttle sqrt route _ _ money money _
      (forward_step sqrt route a b pos ((m : R) / 20) money hn hd hlt)
    refine ⟨Vector2Lerp a b ((m : R) / 20 + 1 / 20), ?_⟩
    rw [run_ticks_succ sqrt _ _ _ m _ hrun hstep]
    congr 3
    push_cast
    ring

theorem shuttle_twenty (sqrt : R → R) (route : StoredBusRoute R) (a b pos0 : Vector2 R)
    (money : R) (hn : toNodes route.Points = some [a, b])
    (hd : Vector2Distance sqrt a b = 200) :
    run sqrt (shuttle route ⟨pos0, 0, 0, 0, 1⟩ money) (List.replicate 20 Event.busTick) =
      some (shuttle route ⟨b, 0, 0, 0, -1⟩ (payReward money route.Length)) := by
  obtain ⟨pos, hrun⟩ := shuttle_forward sqrt route a b pos0 money hn hd 19 (le_refl _)
  have hge : ((19 : Nat) : R) / 20 + 1 / 20 ≥ 1 := by norm_num
  have hstep := busTick_shuttle sqrt route _ _ money _ _
    (forward_finish sqrt route a b pos (((19 : Nat) : R) / 20) money hn hd hge)
  exact run_ticks_succ sqrt _ _ _ 19 _ hrun hstep

theorem shuttle_twenty_one (sqrt : R → R) (route : StoredBusRoute R)
    (a b pos0 : Vector2 R) (money : R) (hn : toNodes route.Points = some [a, b])
    (hd : Vector2Distance sqrt a b = 200) :
    run sqrt (shuttle route ⟨pos0, 0, 0, 0, 1⟩ money) (List.replicate 21 Event.busTick) =
      some (shuttle route ⟨Vector2Lerp b a (1 / 20), 0, 0, 1 / 20, -1⟩
        (payReward money route.Length)) := by
  have hrun := shuttle_twenty sqrt route a b pos0 money hn hd
  have hlt : (0 : R) + 1 / 20 < 1 := by norm_num
  have hstep := busTick_shuttle sqrt route _ _ (payReward money route.Length) _ _
    (backward_step sqrt route a b b 0 (payReward money route.Length) hn hd hlt)
  rw [run_ticks_succ sqrt _ _ _ 20 _ hrun hstep]
  simp

theorem longRoute_distance :
    Vector2Distance Real.sqrt (⟨0, 0⟩ : Vector2 ℝ) ⟨200, 0⟩ = 200 := by
  unfold Vector2Distance
  rw [show ((0 : ℝ) - 200) * (0 - 200) + (0 - 0) * (0 - 0) = 200 ^ 2 by norm_num]
  exact Real.sqrt_sq (by norm_num)

/-- C6, as the code has it: for a bus starting at segment 0, progress 0,
direction +1 on a 2-node route whose nodes are 200 apart, progress grows by
0.05 per bus-motion tick; after each of the first 19 ticks the bus is still
on segment 0 with direction +1 and progress `k / 20 < 1`; the 20th tick
completes the forward traversal and reverses the direction within that same
tick (the bus is at the last node with progress 0 and direction -1, and the
lap reward is paid); the 21st tick keeps direction -1 and moves the bus back
towards the first node. -/
theorem C6_twenty_ticks_then_reversed (sqrt : R → R) (route : StoredBusRoute R)
    (a b pos0 : Vector2 R) (money : R) (hn : toNodes route.Points = some [a, b])
    (hd : Vector2Distance sqrt a b = 200) :
    (∀ k : Nat, k ≤ 19 → (k : R) / 20 < 1 ∧ ∃ pos,
      run sqrt (shuttle route ⟨pos0, 0, 0, 0, 1⟩ money) (List.replicate k Event.busTick) =
        some (shuttle route ⟨pos, 0, 0, (k : R) / 20, 1⟩ money)) ∧
    run sqrt (shuttle route ⟨pos0, 0, 0, 0, 1⟩ money) (List.replicate 20 Event.busTick) =
      some (shuttle route ⟨b, 0, 0, 0, -1⟩ (payReward money route.Length)) ∧
    run sqrt (shuttle route ⟨pos0, 0, 0, 0, 1⟩ money) (List.replicate 21 Event.busTick) =
      some (shuttle route ⟨Vector2Lerp b a (1 / 20), 0, 0, 1 / 20, -1⟩
        (payReward money route.Length)) := by
  refine ⟨?_, shuttle_twenty sqrt route a b pos0 money hn hd,
    shuttle_twenty_one sqrt route a b pos0 money hn hd⟩
  intro k hk
  refine ⟨?_, shuttle_forward sqrt route a b pos0 money hn hd k hk⟩
  have : (k : R) ≤ 19 := by exact_mod_cast hk
  linarith

/-- The statement C6 over the reals on the route `(0,0) → (200,0)`, with
money 1000: after 20 ticks the bus stands at `(200,0)` with direction -1. -/
theorem C6_twenty_ticks_then_reversed_witness :
    run Real.sqrt (shuttle (longRoute ℝ) ⟨⟨0, 0⟩, 0, 0, 0, 1⟩ 1000)
        (List.replicate 20 Event.busTick) =
      some (shuttle (longRoute ℝ) ⟨⟨200, 0⟩, 0, 0, 0, -1⟩
        (payReward 1000 (longRoute ℝ).Length)) :=
  (C6_twenty_ticks_then_reversed Real.sqrt (longRoute ℝ) ⟨0, 0⟩ ⟨200, 0⟩ ⟨0, 0⟩ 1000 rfl
    longRoute_distance).2.1

/-- The reading of C6 under which the reversal waits for the 21st tick fails
on the route `(0,0) → (200,0)`: it is not the case that the direction is
still +1 after the 20th tick and becomes -1 with the 21st; the 20th tick has
already set it to -1. -/
theorem C6_reversal_not_on_next_tick :
    ¬ ∃ s20 s21 : LobbyServer ℝ,
      run Real.sqrt (shuttle (longRoute ℝ) (freshBus ℝ) 1000)
        (List.replicate 20 Event.busTick) = some s20 ∧
      run Real.sqrt (shuttle (longRoute ℝ) (freshBus ℝ) 1000)
        (List.replicate 21 Event.busTick) = some s21 ∧
      s20.buses.map (fun bus => bus.Direction) = [1] ∧
      s21.buses.map (fun bus => bus.Direction) = [-1] := by
  rintro ⟨s20, s21, h20, -, hdir, -⟩
  have h := shuttle_twenty Real.sqrt (longRoute ℝ) ⟨0, 0⟩ ⟨200, 0⟩ ⟨0, 0⟩ 1000 rfl
    longRoute_distance
  rw [show freshBus ℝ = ⟨⟨0, 0⟩, 0, 0, 0, 1⟩ from rfl, h] at h20
  simp only [Option.some.injEq] at h20
  subst h20
  simp [shuttle] at hdir

end Shuttle

/-! ## Pruning after a road is removed -/

section Pruning

variable {R : Type} [LinearOrderedField R]

theorem nodesValid_iff (sqrt : R → R) (lines : List (StoredLine R))
    (nodes : List (Vector2 R)) :
    nodesValid sqrt lines nodes = true ↔ RouteOnRoads sqrt lines nodes := by
  induction nodes with
  | nil => simp [nodesValid, RouteOnRoads, nodePairs]
  | cons a rest ih =>
    cases rest with
    | nil => simp [nodesValid, RouteOnRoads, nodePairs]
    | cons b more =>
      unfold nodesValid
      by_cases h : segmentOnRoad sqrt lines a b = true
      · simp only [h, if_true, ih]
        have h5 := (segmentOnRoad_iff sqrt lines a b).1 h
        constructor
        · intro hr seg hseg
          simp only [nodePairs, List.tail_cons, List.zip_cons_cons, List.mem_cons] at hseg
          rcases hseg with rfl | hseg
          · exact h5
          · exact hr seg (by simpa [nodePairs] using hseg)
        · intro hr seg hseg
          exact hr seg (by
            simp only [nodePairs, List.tail_cons, List.zip_cons_cons, List.mem_cons]
            exact Or.inr (by simpa [nodePairs] using hseg))
      · simp only [h, if_false, Bool.false_eq_true, false_iff]
        intro hr
        apply h
        rw [segmentOnRoad_iff]
        exact hr (a, b) (by simp [nodePairs])

theorem routeKept_iff (sqrt : R → R) (lines : List (StoredLine R))
    (r : StoredBusRoute R) (nodes : List (Vector2 R))
    (h : toNodes r.Points = some nodes) :
    routeKept sqrt lines r = true ↔ RouteOnRoads sqrt lines nodes := by
  unfold routeKept
  rw [h]
  exact nodesValid_iff sqrt lines nodes

theorem routesToPrune_eq (sqrt : R → R) (lines : List (StoredLine R))
    (routes : List (StoredBusRoute R)) (h : RoutesWellFormed routes) :
    ∀ i : Nat, routesToPrune sqrt lines i routes =
      some (prunedIdx (routeKept sqrt lines) i routes) := by
  induction routes with
  | nil => intro i; rfl
  | cons r rest ih =>
    intro i
    obtain ⟨nodes, hn⟩ := h r (List.mem_cons_self _ _)
    have hm := ih (fun r1 h1 => h r1 (List.mem_cons_of_mem _ h1)) (i + 1)
    have hk : routeKept sqrt lines r = nodesValid sqrt lines nodes := by
      unfold routeKept
      rw [hn]
    unfold routesToPrune routeIsValid prunedIdx
    simp only [hn, hm, hk]

end Pruning

section PruneLists

variable {R : Type}

theorem pruneLoop_append (first more : List Nat) :
    ∀ st : List (StoredBusRoute R) × List (Bus R),
      pruneLoop (first ++ more) st = pruneLoop more (pruneLoop first st) := by
  induction first with
  | nil => intro st; rfl
  | cons idx rest ih =>
    intro st
    simp only [List.cons_append, pruneLoop]
    exact ih _

theorem pruneLoop_reverse_cons (p : Nat) (rest : List Nat)
    (st : List (StoredBusRoute R) × List (Bus R)) :
    pruneLoop (p :: rest).reverse st =
      ((pruneLoop rest.reverse st).1.eraseIdx p,
        removeBusesForRoute (p : Int) (pruneLoop rest.reverse st).2) := by
  rw [List.reverse_cons, pruneLoop_append]
  rfl

theorem pruneLoop_routes (keep : StoredBusRoute R → Bool)
    (routes : List (StoredBusRoute R)) :
    ∀ (pre : List (StoredBusRoute R)) (buses : List (Bus R)),
      (pruneLoop (prunedIdx keep pre.length routes).reverse (pre ++ routes, buses)).1 =
        pre ++ routes.filter keep := by
  induction routes with
  | nil =>
    intro pre buses
    simp [prunedIdx, pruneLoop]
  | cons r rest ih =>
    intro pre buses
    have ih1 := ih (pre ++ [r]) buses
    simp only [List.length_append, List.length_singleton, List.append_assoc,
      List.singleton_append] at ih1
    unfold prunedIdx
    by_cases hk : keep r = true
    · simp only [hk, if_true, ih1, List.filter_cons_of_pos]
    · simp only [hk, Bool.false_eq_true, if_false, pruneLoop_reverse_cons, ih1]
      rw [List.filter_cons_of_neg hk, List.eraseIdx_append_of_length_le (le_refl _)]
      simp

theorem removeBuses_eq_filterMap (routeID : Int) (buses : List (Bus R)) :
    removeBusesForRoute routeID buses = buses.filterMap (keepBus routeID) := rfl

theorem prunedIdx_ge (keep : StoredBusRoute R → Bool) (routes : List (StoredBusRoute R)) :
    ∀ i q : Nat, q ∈ prunedIdx keep i routes → i ≤ q := by
  induction routes with
  | nil => intro i q h; simp [prunedIdx] at h
  | cons r rest ih =>
    intro i q h
    unfold prunedIdx at h
    by_cases hk : keep r = true
    · simp only [hk, if_true] at h
      have := ih (i + 1) q h
      omega
    · simp only [hk, Bool.false_eq_true, if_false, List.mem_cons] at h
      rcases h with rfl | h
      · exact le_refl _
      · have := ih (i + 1) q h
        omega

theorem prunedIdx_pairwise (keep : StoredBusRoute R → Bool)
    (routes : List (StoredBusRoute R)) :
    ∀ i : Nat, (prunedIdx keep i routes).Pairwise (fun a b => a < b) := by
  induction routes with
  | nil => intro i; simp [prunedIdx]
  | cons r rest ih =>
    intro i
    unfold prunedIdx
    by_cases hk : keep r = true
    · simp only [hk, if_true]
      exact ih (i + 1)
    · simp only [hk, Bool.false_eq_true, if_false, List.pairwise_cons]
      refine ⟨?_, ih (i + 1)⟩
      intro q hq
      have := prunedIdx_ge keep rest (i + 1) q hq
      omega

theorem count_below (pruned : List Nat) :
    ∀ (p : Nat) (r : Int), pruned.Pairwise (fun a b => a < b) →
      (∀ q ∈ pruned, p < q) → (p : Int) < r →
      ((pruned.filter fun k : Nat => decide ((k : Int) < r)).length : Int) + p + 1 ≤ r := by
  induction pruned with
  | nil =>
    intro p r _ _ hr
    simp only [List.filter_nil, List.length_nil]
    omega
  | cons q rest ih =>
    intro p r hpw hall hr
    rw [List.pairwise_cons] at hpw
    have hpq : p < q := hall q (List.mem_cons_self _ _)
    by_cases hq : (q : Int) < r
    · have := ih q r hpw.2 hpw.1 hq
      simp only [List.filter_cons, hq, decide_True, if_true, List.length_cons]
      push_cast
      omega
    · have hnil : (rest.filter fun k : Nat => decide ((k : Int) < r)) = [] := by
        rw [List.filter_eq_nil_iff]
        intro k hk
        have := hpw.1 k hk
        simp only [decide_eq_true_eq]
        omega
      simp only [List.filter_cons, hq, decide_False, Bool.false_eq_true, if_false, hnil,
        List.length_nil]
      omega

theorem count_below_zero (pruned : List Nat) (p : Nat) (r : Int)
    (hall : ∀ q ∈ pruned, p < q) (hr : r ≤ (p : Int)) :
    (pruned.filter fun k : Nat => decide ((k : Int) < r)) = [] := by
  rw [List.filter_eq_nil_iff]
  intro k hk
  have := hall k hk
  simp only [decide_eq_true_eq]
  omega

theorem rebase_step (p : Nat) (pruned : List Nat) (bus : Bus R)
    (hpw : pruned.Pairwise (fun a b => a < b)) (hall : ∀ q ∈ pruned, p < q) :
    (rebaseByIdx pruned bus).bind (keepBus (p : Int)) = rebaseByIdx (p :: pruned) bus := by
  unfold rebaseByIdx
  by_cases hmem : bus.RouteID ∈ pruned.map (fun k : Nat => (k : Int))
  · simp [hmem]
  · simp only [hmem, if_false, Option.some_bind, List.map_cons, List.mem_cons]
    rcases lt_trichotomy bus.RouteID (p : Int) with hlt | heq | hgt
    · have h0 := count_below_zero pruned p bus.RouteID hall (le_of_lt hlt)
      have h1 : ¬ ((p : Int) < bus.RouteID) := by omega
      have h2 : ¬ bus.RouteID = (p : Int) := by omega
      simp only [h2, false_or, hmem, if_false, List.filter_cons, h1, decide_False,
        Bool.false_eq_true, h0, List.length_nil]
      unfold keepBus
      simp only [Nat.cast_zero, sub_zero, ne_eq, h2, not_false_eq_true, if_true, gt_iff_lt,
        h1, if_false]
    · have h0 := count_below_zero pruned p bus.RouteID hall (le_of_eq heq)
      rw [h0, if_pos (Or.inl heq)]
      unfold keepBus
      simp [heq]
    · have hc := count_below pruned p bus.RouteID hpw hall hgt
      have h2 : ¬ bus.RouteID = (p : Int) := by omega
      simp only [h2, false_or, hmem, if_false, List.filter_cons, hgt, decide_True, if_true,
        List.length_cons]
      unfold keepBus
      have h3 : bus.RouteID -
          ((pruned.filter fun k : Nat => decide ((k : Int) < bus.RouteID)).length : Int) ≠ (p : Int) := by
        omega
      have h4 : bus.RouteID -
          ((pruned.filter fun k : Nat => decide ((k : Int) < bus.RouteID)).length : Int) > (p : Int) := by
        omega
      simp only [ne_eq, h3, not_false_eq_true, if_true, gt_iff_lt, h4, Option.some.injEq]
      congr 1
      push_cast
      omega

theorem pruneLoop_buses (pruned : List Nat) (routes : List (StoredBusRoute R))
    (buses : List (Bus R)) (hpw : pruned.Pairwise (fun a b => a < b)) :
    (pruneLoop pruned.reverse (routes, buses)).2 = buses.filterMap (rebaseByIdx pruned) := by
  induction pruned with
  | nil =>
    simp only [List.reverse_nil, pruneLoop]
    have : (rebaseByIdx ([] : List Nat) : Bus R → Option (Bus R)) = some := by
      funext bus
      simp [rebaseByIdx]
    rw [this, List.filterMap_some]
  | cons p rest ih =>
    rw [List.pairwise_cons] at hpw
    rw [pruneLoop_reverse_cons, ih hpw.2, removeBuses_eq_filterMap, List.filterMap_filterMap]
    dsimp only
    congr 1
    funext bus
    exact rebase_step p rest bus hpw.2 hpw.1

theorem mem_prunedIdx (keep : StoredBusRoute R → Bool) (routes : List (StoredBusRoute R)) :
    ∀ i q : Nat, q ∈ prunedIdx keep i routes ↔
      ∃ j r, q = i + j ∧ routes[j]? = some r ∧ keep r = false := by
  induction routes with
  | nil => intro i q; simp [prunedIdx]
  | cons r0 rest ih =>
    intro i q
    unfold prunedIdx
    constructor
    · intro h
      by_cases hk : keep r0 = true
      · simp only [hk, if_true] at h
        obtain ⟨j, r, h1, h2, h3⟩ := (ih (i + 1) q).1 h
        exact ⟨j + 1, r, by omega, by simpa using h2, h3⟩
      · simp only [hk, Bool.false_eq_true, if_false, List.mem_cons] at h
        rcases h with rfl | h
        · exact ⟨0, r0, by omega, by simp, by simpa using hk⟩
        · obtain ⟨j, r, h1, h2, h3⟩ := (ih (i + 1) q).1 h
          exact ⟨j + 1, r, by omega, by simpa using h2, h3⟩
    · rintro ⟨j, r, h1, h2, h3⟩
      cases j with
      | zero =>
        simp only [List.getElem?_cons_zero, Option.some.injEq] at h2
        subst h2
        simp only [h3, Bool.false_eq_true, if_false, List.mem_cons]
        left
        omega
      | succ m =>
        simp only [List.getElem?_cons_succ] at h2
        have hm : q ∈ prunedIdx keep (i + 1) rest :=
          (ih (i + 1) q).2 ⟨m, r, by omega, h2, h3⟩
        by_cases hk : keep r0 = true
        · simpa [hk] using hm
        · simp only [hk, Bool.false_eq_true, if_false, List.mem_cons]
          exact Or.inr hm

theorem count_prunedIdx (keep : StoredBusRoute R → Bool)
    (routes : List (StoredBusRoute R)) :
    ∀ (i : Nat) (k : Int),
      ((prunedIdx keep i routes).filter fun q : Nat => decide ((q : Int) < k)).length =
        ((routes.take (k - (i : Int)).toNat).filter fun r => !keep r).length := by
  induction routes with
  | nil => intro i k; simp [prunedIdx]
  | cons r0 rest ih =>
    intro i k
    by_cases hki : k ≤ (i : Int)
    · have h0 : (k - (i : Int)).toNat = 0 := by omega
      have hnil : ((prunedIdx keep i (r0 :: rest)).filter
          fun q : Nat => decide ((q : Int) < k)) = [] := by
        rw [List.filter_eq_nil_iff]
        intro q hq
        have := prunedIdx_ge keep (r0 :: rest) i q hq
        simp only [decide_eq_true_eq]
        omega
      rw [hnil, h0]
      simp
    · have hm : (k - (i : Int)).toNat = (k - ((i + 1 : Nat) : Int)).toNat + 1 := by omega
      have ih1 := ih (i + 1) k
      rw [hm, List.take_succ_cons]
      unfold prunedIdx
      by_cases hk : keep r0 = true
      · simp only [hk, if_true, ih1, List.filter_cons, Bool.not_true, Bool.false_eq_true,
          if_false]
      · have hik : (i : Int) < k := by omega
        simp only [hk, Bool.false_eq_true, if_false, List.filter_cons, hik, decide_True,
          if_true, List.length_cons, ih1, Bool.not_false]

theorem rebaseByIdx_eq (keep : StoredBusRoute R → Bool) (routes : List (StoredBusRoute R))
    (bus : Bus R) :
    rebaseByIdx (prunedIdx keep 0 routes) bus = rebaseBus keep routes bus := by
  unfold rebaseByIdx rebaseBus prunedBefore
  have hc := count_prunedIdx keep routes 0 bus.RouteID
  simp only [Nat.cast_zero, sub_zero] at hc
  rw [hc]
  have hmem : bus.RouteID ∈ (prunedIdx keep 0 routes).map (fun k : Nat => (k : Int)) ↔
      routePruned keep routes bus.RouteID = true := by
    unfold routePruned
    simp only [List.mem_map, mem_prunedIdx, Nat.zero_add, Bool.and_eq_true,
      decide_eq_true_eq]
    constructor
    · rintro ⟨q, ⟨j, r, rfl, h2, h3⟩, h4⟩
      rw [← h4]
      simp [h2, h3]
    · rintro ⟨h1, h2⟩
      cases hr : routes[bus.RouteID.toNat]? with
      | none => simp [hr] at h2
      | some r =>
        simp only [hr, Bool.not_eq_true'] at h2
        exact ⟨bus.RouteID.toNat, ⟨bus.RouteID.toNat, r, rfl, hr, h2⟩, by omega⟩
  by_cases hp : routePruned keep routes bus.RouteID = true
  · rw [if_pos (hmem.2 hp), if_pos hp]
  · rw [if_neg (fun h => hp (hmem.1 h)), if_neg hp]

theorem filter_length_split {α : Type} (keep : α → Bool) (l : List α) :
    (l.filter keep).length + (l.filter fun a => !keep a).length = l.length := by
  induction l with
  | nil => rfl
  | cons a rest ih =>
    cases h : keep a with
    | true =>
      simp only [List.filter_cons, h, if_true, Bool.not_true, Bool.false_eq_true, if_false,
        List.length_cons]
      omega
    | false =>
      simp only [List.filter_cons, h, Bool.false_eq_true, if_false, Bool.not_false, if_true,
        List.length_cons]
      omega

theorem kept_route_index (keep : StoredBusRoute R → Bool)
    (routes : List (StoredBusRoute R)) (k : Nat) (r : StoredBusRoute R)
    (h : routes[k]? = some r) (hk : keep r = true) :
    ∃ n : Nat, ((k : Int) - (prunedBefore keep routes (k : Int) : Int)) = (n : Int) ∧
      (routes.filter keep)[n]? = some r := by
  have hlt : k < routes.length := by
    by_contra hge
    rw [List.getElem?_eq_none (by omega)] at h
    exact absurd h (by simp)
  have hget : routes[k] = r := by
    rw [List.getElem?_eq_getElem hlt] at h
    exact Option.some.inj h
  refine ⟨((routes.take k).filter keep).length, ?_, ?_⟩
  · unfold prunedBefore
    have := filter_length_split keep (routes.take k)
    rw [List.length_take, Nat.min_eq_left (le_of_lt hlt)] at this
    simp only [Int.toNat_ofNat]
    omega
  · have hsplit : routes.filter keep =
        (routes.take k).filter keep ++ (r :: (routes.drop (k + 1)).filter keep) := by
      conv_lhs => rw [← List.take_append_drop k routes]
      rw [List.filter_append, List.drop_eq_getElem_cons hlt, hget, List.filter_cons_of_pos hk]
    rw [hsplit, List.getElem?_append_right (le_refl _)]
    simp

end PruneLists

/-! ## Removing a road prunes the routes that depended on it -/

section RoadRemoval

variable {R : Type} [LinearOrderedField R]

theorem toNodes_flattenNodes {T : Type} (nodes : List (Vector2 T)) :
    toNodes (flattenNodes nodes) = some nodes := by
  induction nodes with
  | nil => rfl
  | cons a rest ih => simp [flattenNodes, toNodes, ih]

theorem cornerBus_eq :
    cornerBus ℝ Real.sqrt =
      { lines := (cornerRoads ℝ).lines, buildings := [],
        busRoutes := [⟨flattenNodes (cornerRoute ℝ), "a", pathLength Real.sqrt (cornerRoute ℝ)⟩],
        buses := [⟨⟨0, 0⟩, 0, 0, 0, 1⟩], money := 900, incomeRate := 0 } := by
  have h := addBusRoute_of_onRoads Real.sqrt (cornerRoads ℝ) "R:a:0:0:100:0:100:100"
    "a" ⟨0, 0⟩ ⟨100, 0⟩ [⟨100, 100⟩] cornerRoute_onRoads
  unfold cornerBus
  rw [show cornerRoute ℝ = ⟨0, 0⟩ :: ⟨100, 0⟩ :: [⟨100, 100⟩] from rfl, h]
  simp [cornerRoads]

/-- C4: when `deleteObject` removes a Road segment (no building is within
the radius and the line found is of kind Road), in a state whose stored
routes are well formed, the routes that remain are exactly the previously
stored routes that still pass the road validation against the remaining
lines, in their original order; the bus of every pruned route is removed,
every other bus is kept with its route reference lowered by the number of
pruned routes with a smaller index, and so each remaining bus of a kept
route refers to the same route as before at that route's new index. -/
theorem C4_road_removal_prunes_routes (sqrt : R → R) (s : LobbyServer R)
    (playerID : String) (x y : R) (i : Nat) (l : StoredLine R)
    (hwf : RoutesWellFormed s.busRoutes)
    (hnob : ∀ b ∈ s.buildings, ¬ pointDist sqrt b.X b.Y x y ≤ 24)
    (hline : scanDown (lineHit sqrt x y) s.lines s.lines.length = some (i, l))
    (hroad : l.Typ = Road) :
    ∃ s1 out, deleteObject sqrt s playerID x y = some (s1, out) ∧
      s1.lines = s.lines.eraseIdx i ∧
      (∀ r ∈ s.busRoutes, ∀ nodes, toNodes r.Points = some nodes →
        (routeKept sqrt s1.lines r = true ↔ RouteOnRoads sqrt s1.lines nodes)) ∧
      s1.busRoutes = s.busRoutes.filter (routeKept sqrt s1.lines) ∧
      s1.buses = s.buses.filterMap (rebaseBus (routeKept sqrt s1.lines) s.busRoutes) ∧
      (∀ bus ∈ s.buses, ∀ (k : Nat) (r : StoredBusRoute R), bus.RouteID = (k : Int) →
        s.busRoutes[k]? = some r → routeKept sqrt s1.lines r = true →
        ∃ bus1 ∈ s1.buses, ∃ n : Nat,
          bus1 = { bus with RouteID := (n : Int) } ∧ s1.busRoutes[n]? = some r) := by
  have h24 : deleteRadius R = 24 := by
    unfold deleteRadius GRID_SIZE
    norm_num
  have hb : scanDown (buildingHit sqrt x y) s.buildings s.buildings.length = none := by
    apply scanDown_none
    intro b hbm
    simp only [buildingHit, h24, decide_eq_false_iff_not]
    exact hnob b hbm
  have hp := routesToPrune_eq sqrt (s.lines.eraseIdx i) s.busRoutes hwf 0
  have hroutes := pruneLoop_routes (routeKept sqrt (s.lines.eraseIdx i)) s.busRoutes []
    s.buses
  simp only [List.length_nil, List.nil_append] at hroutes
  have hbuses := pruneLoop_buses (prunedIdx (routeKept sqrt (s.lines.eraseIdx i)) 0
    s.busRoutes) s.busRoutes s.buses (prunedIdx_pairwise _ _ 0)
  have hfun : rebaseByIdx (prunedIdx (routeKept sqrt (s.lines.eraseIdx i)) 0 s.busRoutes) =
      rebaseBus (routeKept sqrt (s.lines.eraseIdx i)) s.busRoutes := by
    funext bus
    exact rebaseByIdx_eq _ _ bus
  rw [hfun] at hbuses
  unfold deleteObject
  simp only [hb, hline, hroad, if_true, hp]
  refine ⟨_, _, rfl, rfl, ?_, hroutes, hbuses, ?_⟩
  · intro r _ nodes hn
    exact routeKept_iff sqrt _ r nodes hn
  · intro bus hbus k r hk hr hkeep
    dsimp only
    obtain ⟨n, hn1, hn2⟩ := kept_route_index (routeKept sqrt (s.lines.eraseIdx i))
      s.busRoutes k r hr hkeep
    refine ⟨{ bus with RouteID := (n : Int) }, ?_, n, rfl, ?_⟩
    · rw [hbuses, List.mem_filterMap]
      refine ⟨bus, hbus, ?_⟩
      unfold rebaseBus
      have hnp : ¬ routePruned (routeKept sqrt (s.lines.eraseIdx i)) s.busRoutes
          bus.RouteID = true := by
        unfold routePruned
        rw [hk]
        simp [hr, hkeep]
      rw [if_neg hnp, hk, hn1]
    · rw [hroutes]
      exact hn2

theorem pruneLoop_subset {T : Type} (toPrune : List Nat) :
    ∀ (st : List (StoredBusRoute T) × List (Bus T)) (r : StoredBusRoute T),
      r ∈ (pruneLoop toPrune st).1 → r ∈ st.1 := by
  induction toPrune with
  | nil => intro st r h; exact h
  | cons idx more ih =>
    intro st r h
    unfold pruneLoop at h
    exact List.mem_of_mem_eraseIdx (ih _ r h)

/-- Every reachable state has well-formed stored routes, so the
re-validation after a road removal cannot panic there. -/
theorem routesWellFormed_invariant (sqrt : R → R) (s : LobbyServer R)
    (h : Reachable sqrt s) : RoutesWellFormed s.busRoutes := by
  refine reachable_induction sqrt (fun s => RoutesWellFormed s.busRoutes)
    (by intro r hr; simp [Start] at hr) ?_ s h
  intro s e s1 hP he
  cases e with
  | I msg playerID startX startY endX endY infraType =>
    simp only [applyEvent, Option.some.injEq] at he
    subst he
    dsimp only [addInfrastructure]
    split_ifs <;> exact hP
  | B msg playerID x y buildingType =>
    simp only [applyEvent, Option.some.injEq] at he
    subst he
    dsimp only [addBuilding]
    split
    · exact hP
    · split_ifs <;> exact hP
  | Rt msg playerID nodes =>
    simp only [applyEvent, Option.some.injEq] at he
    subst he
    by_cases hr : RouteOnRoads sqrt s.lines nodes
    · match nodes, hr with
      | [], _ => exact hP
      | [_], _ => exact hP
      | p0 :: p1 :: more, hr =>
        rw [addBusRoute_of_onRoads sqrt s msg playerID p0 p1 more hr]
        intro r hmem
        simp only [List.mem_append, List.mem_singleton] at hmem
        rcases hmem with hmem | rfl
        · exact hP r hmem
        · exact ⟨_, toNodes_flattenNodes _⟩
    · rw [addBusRoute_of_not_onRoads sqrt s msg playerID nodes hr]
      exact hP
  | D playerID x y =>
    obtain ⟨out, hd⟩ := deleteObject_of_apply sqrt s s1 playerID x y he
    rcases deleteObject_cases sqrt s s1 playerID x y out hd with
      ⟨i, b, -, rfl⟩ | ⟨i, l, toPrune, -, -, -, rfl⟩ | ⟨i, rfl⟩ | ⟨i, rfl⟩ | rfl
    · exact hP
    · intro r hmem
      exact hP r (pruneLoop_subset toPrune.reverse (s.busRoutes, s.buses) r hmem)
    · exact hP
    · intro r hmem
      exact hP r (List.mem_of_mem_eraseIdx hmem)
    · exact hP
  | busTick =>
    obtain ⟨out, hb⟩ := busTick_of_apply sqrt s s1 he
    obtain ⟨-, -, h3, -, -, -⟩ := busTick_frame sqrt s s1 out hb
    rw [h3]
    exact hP
  | incomeTick =>
    simp only [applyEvent, Option.some.injEq] at he
    subst he
    dsimp only [incomeTick]
    split_ifs <;> exact hP

theorem cornerBus_wellFormed : RoutesWellFormed (cornerBus ℝ Real.sqrt).busRoutes := by
  intro r hr
  rw [cornerBus_eq] at hr
  simp only [List.mem_singleton] at hr
  subst hr
  exact ⟨_, toNodes_flattenNodes _⟩

theorem cornerBus_scan :
    scanDown (lineHit Real.sqrt 100 50) (cornerBus ℝ Real.sqrt).lines
      (cornerBus ℝ Real.sqrt).lines.length = some (1, ⟨100, 0, 100, 100, Road, "a"⟩) := by
  rw [cornerBus_eq]
  have hhit : lineHit Real.sqrt 100 50 (⟨100, 0, 100, 100, Road, "a"⟩ : StoredLine ℝ) = true := by
    simp only [lineHit, decide_eq_true_eq]
    right; right
    norm_num [pointSegmentDistance, Vector2DistanceSqr, Vector2Distance, Vector2DotProduct,
      Vector2Subtract, Vector2Add, Vector2Scale, max_def, min_def, deleteRadius, GRID_SIZE]
  simp [cornerRoads, scanDown, hhit]

/-- The statement C4 in the state with the two corner roads and the route
along them, for a deletion at `(100,50)`, which hits the second road. -/
theorem C4_road_removal_prunes_routes_witness :
    ∃ s1 out, deleteObject Real.sqrt (cornerBus ℝ Real.sqrt) "a" 100 50 = some (s1, out) ∧
      s1.lines = (cornerBus ℝ Real.sqrt).lines.eraseIdx 1 ∧
      (∀ r ∈ (cornerBus ℝ Real.sqrt).busRoutes, ∀ nodes, toNodes r.Points = some nodes →
        (routeKept Real.sqrt s1.lines r = true ↔ RouteOnRoads Real.sqrt s1.lines nodes)) ∧
      s1.busRoutes = (cornerBus ℝ Real.sqrt).busRoutes.filter (routeKept Real.sqrt s1.lines) ∧
      s1.buses = (cornerBus ℝ Real.sqrt).buses.filterMap
        (rebaseBus (routeKept Real.sqrt s1.lines) (cornerBus ℝ Real.sqrt).busRoutes) ∧
      (∀ bus ∈ (cornerBus ℝ Real.sqrt).buses, ∀ (k : Nat) (r : StoredBusRoute ℝ),
        bus.RouteID = (k : Int) → (cornerBus ℝ Real.sqrt).busRoutes[k]? = some r →
        routeKept Real.sqrt s1.lines r = true →
        ∃ bus1 ∈ s1.buses, ∃ n : Nat,
          bus1 = { bus with RouteID := (n : Int) } ∧ s1.busRoutes[n]? = some r) :=
  C4_road_removal_prunes_routes Real.sqrt (cornerBus ℝ Real.sqrt) "a" 100 50 1
    ⟨100, 0, 100, 100, Road, "a"⟩ cornerBus_wellFormed
    (by intro b hb; rw [cornerBus_eq] at hb; simp at hb)
    cornerBus_scan rfl

end RoadRemoval

/-! ## The point-to-segment distance -/

section SegmentDistance

theorem sum_sq_eq_zero (u v : ℝ) (h : u * u + v * v = 0) : u = 0 ∧ v = 0 := by
  have hu : 0 ≤ u * u := mul_self_nonneg u
  have hv : 0 ≤ v * v := mul_self_nonneg v
  exact ⟨mul_self_eq_zero.1 (by linarith), mul_self_eq_zero.1 (by linarith)⟩

theorem clamp_minimises (px py ax ay bx by_ t : ℝ) (ht0 : 0 ≤ t) (ht1 : t ≤ 1)
    (hl : (ax - bx) * (ax - bx) + (ay - by_) * (ay - by_) ≠ 0) :
    (px - (ax + (bx - ax) * max 0 (min 1 (((px - ax) * (bx - ax) + (py - ay) * (by_ - ay)) /
        ((ax - bx) * (ax - bx) + (ay - by_) * (ay - by_)))))) *
      (px - (ax + (bx - ax) * max 0 (min 1 (((px - ax) * (bx - ax) + (py - ay) * (by_ - ay)) /
        ((ax - bx) * (ax - bx) + (ay - by_) * (ay - by_)))))) +
    (py - (ay + (by_ - ay) * max 0 (min 1 (((px - ax) * (bx - ax) + (py - ay) * (by_ - ay)) /
        ((ax - bx) * (ax - bx) + (ay - by_) * (ay - by_)))))) *
      (py - (ay + (by_ - ay) * max 0 (min 1 (((px - ax) * (bx - ax) + (py - ay) * (by_ - ay)) /
        ((ax - bx) * (ax - bx) + (ay - by_) * (ay - by_)))))) ≤
    (px - (ax + t * (bx - ax))) * (px - (ax + t * (bx - ax))) +
      (py - (ay + t * (by_ - ay))) * (py - (ay + t * (by_ - ay))) := by
  set l2 := (ax - bx) * (ax - bx) + (ay - by_) * (ay - by_) with hl2
  set d := (px - ax) * (bx - ax) + (py - ay) * (by_ - ay) with hd
  have hpos : 0 < l2 := by
    have h0 : 0 ≤ l2 := by
      have := mul_self_nonneg (ax - bx)
      have := mul_self_nonneg (ay - by_)
      linarith
    exact lt_of_le_of_ne h0 (Ne.symm hl)
  set t0 := max 0 (min 1 (d / l2)) with ht0def
  have hdl : d = d / l2 * l2 := by field_simp
  have key : ∀ u : ℝ,
      (px - (ax + u * (bx - ax))) * (px - (ax + u * (bx - ax))) +
        (py - (ay + u * (by_ - ay))) * (py - (ay + u * (by_ - ay))) =
      l2 * u * u - 2 * d * u + ((px - ax) * (px - ax) + (py - ay) * (py - ay)) := by
    intro u
    rw [hl2, hd]
    ring
  have hlhs : (px - (ax + (bx - ax) * t0)) * (px - (ax + (bx - ax) * t0)) +
      (py - (ay + (by_ - ay) * t0)) * (py - (ay + (by_ - ay) * t0)) =
      l2 * t0 * t0 - 2 * d * t0 + ((px - ax) * (px - ax) + (py - ay) * (py - ay)) := by
    rw [← key t0]
    ring
  rw [hlhs, key t]
  have hdiff : l2 * t * t - 2 * d * t - (l2 * t0 * t0 - 2 * d * t0) =
      l2 * ((t - t0) * (t + t0 - 2 * (d / l2))) := by
    have : 2 * d * t - 2 * d * t0 = l2 * ((t - t0) * (2 * (d / l2))) := by
      rw [show l2 * ((t - t0) * (2 * (d / l2))) = 2 * (d / l2 * l2) * (t - t0) by ring,
        ← hdl]
      ring
    linear_combination -this
  have hprod : 0 ≤ (t - t0) * (t + t0 - 2 * (d / l2)) := by
    rcases le_total (d / l2) 0 with hneg | hnn
    · have h0 : t0 = 0 := by
        rw [ht0def, min_eq_right (le_trans hneg zero_le_one), max_eq_left hneg]
      rw [h0]
      have : 0 ≤ t * (t - 2 * (d / l2)) := mul_nonneg ht0 (by linarith)
      linarith
    · rcases le_total (d / l2) 1 with hle | hge
      · have h0 : t0 = d / l2 := by
          rw [ht0def, min_eq_right hle, max_eq_right hnn]
        rw [h0]
        have : 0 ≤ (t - d / l2) * (t - d / l2) := mul_self_nonneg _
        linarith
      · have h0 : t0 = 1 := by
          rw [ht0def, min_eq_left hge, max_eq_right zero_le_one]
        rw [h0]
        have : 0 ≤ (1 - t) * (2 * (d / l2) - 1 - t) := mul_nonneg (by linarith) (by linarith)
        linarith
  have hnn := mul_nonneg hpos.le hprod
  rw [← hdiff] at hnn
  linarith

theorem distance_lerp_zero (p a b : Vector2 ℝ) :
    Vector2Distance Real.sqrt p (Vector2Lerp a b 0) = Vector2Distance Real.sqrt p a := by
  simp [Vector2Distance, Vector2Lerp]

theorem distance_lerp_one (p a b : Vector2 ℝ) :
    Vector2Distance Real.sqrt p (Vector2Lerp a b 1) = Vector2Distance Real.sqrt p b := by
  simp [Vector2Distance, Vector2Lerp]

theorem segmentDistance_le (p a b : Vector2 ℝ) (t : ℝ) (ht0 : 0 ≤ t) (ht1 : t ≤ 1) :
    pointSegmentDistance Real.sqrt p a b ≤
      Vector2Distance Real.sqrt p (Vector2Lerp a b t) := by
  unfold pointSegmentDistance
  by_cases hl : Vector2DistanceSqr a b = 0
  · simp only [hl, if_true]
    obtain ⟨hx, hy⟩ := sum_sq_eq_zero _ _ hl
    have hbx : b.X = a.X := by linarith
    have hby : b.Y = a.Y := by linarith
    simp [Vector2Distance, Vector2Lerp, hbx, hby]
  · simp only [hl, if_false]
    unfold Vector2Distance Vector2Add Vector2Scale Vector2Subtract Vector2DotProduct
      Vector2Lerp
    unfold Vector2DistanceSqr at hl ⊢
    exact Real.sqrt_le_sqrt (clamp_minimises p.X p.Y a.X a.Y b.X b.Y t ht0 ht1 hl)

theorem segmentDistance_attained (p a b : Vector2 ℝ) :
    ∃ t : ℝ, 0 ≤ t ∧ t ≤ 1 ∧
      pointSegmentDistance Real.sqrt p a b =
        Vector2Distance Real.sqrt p (Vector2Lerp a b t) := by
  unfold pointSegmentDistance
  by_cases hl : Vector2DistanceSqr a b = 0
  · refine ⟨0, le_refl _, zero_le_one, ?_⟩
    simp only [hl, if_true]
    exact (distance_lerp_zero p a b).symm
  · refine ⟨max 0 (min 1 (Vector2DotProduct (Vector2Subtract p a) (Vector2Subtract b a) /
      Vector2DistanceSqr a b)), le_max_left _ _, max_le zero_le_one (min_le_left _ _), ?_⟩
    simp only [hl, if_false]
    unfold Vector2Distance Vector2Add Vector2Scale Vector2Subtract Vector2Lerp
    congr 1
    ring

/-- C19: `pointSegmentDistance(p, a, b)` is the shortest distance from `p`
to the closed segment `ab`.  Over the reals it is a lower bound of the
distances from `p` to the points `a + t (b - a)` with `0 ≤ t ≤ 1` and it is
attained at one of them, so it is their minimum; it equals the distance from
`p` to `a` when `a = b`; and it is never larger than the distance from `p`
to either endpoint. -/
theorem C19_pointSegmentDistance_shortest (p a b : Vector2 ℝ) :
    (∀ t : ℝ, 0 ≤ t → t ≤ 1 →
      pointSegmentDistance Real.sqrt p a b ≤
        Vector2Distance Real.sqrt p (Vector2Lerp a b t)) ∧
    (∃ t : ℝ, 0 ≤ t ∧ t ≤ 1 ∧
      pointSegmentDistance Real.sqrt p a b =
        Vector2Distance Real.sqrt p (Vector2Lerp a b t)) ∧
    (a = b → pointSegmentDistance Real.sqrt p a b = Vector2Distance Real.sqrt p a) ∧
    pointSegmentDistance Real.sqrt p a b ≤ Vector2Distance Real.sqrt p a ∧
    pointSegmentDistance Real.sqrt p a b ≤ Vector2Distance Real.sqrt p b := by
  refine ⟨segmentDistance_le p a b, segmentDistance_attained p a b, ?_, ?_, ?_⟩
  · intro hab
    subst hab
    simp [pointSegmentDistance, Vector2DistanceSqr]
  · have := segmentDistance_le p a b 0 (le_refl _) zero_le_one
    rwa [distance_lerp_zero] at this
  · have := segmentDistance_le p a b 1 zero_le_one (le_refl _)
    rwa [distance_lerp_one] at this

/-- The statement C19 for the point `(5,3)` and the segment from `(0,0)` to
`(10,0)`, and for the degenerate segment at `(0,0)`. -/
theorem C19_pointSegmentDistance_shortest_witness :
    pointSegmentDistance Real.sqrt (⟨5, 3⟩ : Vector2 ℝ) ⟨0, 0⟩ ⟨10, 0⟩ ≤
        Vector2Distance Real.sqrt ⟨5, 3⟩ (Vector2Lerp ⟨0, 0⟩ ⟨10, 0⟩ (1 / 4)) ∧
    pointSegmentDistance Real.sqrt (⟨5, 3⟩ : Vector2 ℝ) ⟨0, 0⟩ ⟨0, 0⟩ =
        Vector2Distance Real.sqrt ⟨5, 3⟩ ⟨0, 0⟩ :=
  ⟨(C19_pointSegmentDistance_shortest ⟨5, 3⟩ ⟨0, 0⟩ ⟨10, 0⟩).1 (1 / 4) (by norm_num)
      (by norm_num),
   (C19_pointSegmentDistance_shortest ⟨5, 3⟩ ⟨0, 0⟩ ⟨0, 0⟩).2.2.1 rfl⟩

end SegmentDistance

/-! ## One bus in one bus-motion tick -/

section OneBus

variable {R : Type} [LinearOrderedField R]

theorem segmentEnds_some {T : Type} (nodes : List (Vector2 T)) (cs dir : Int)
    (h0 : 0 ≤ cs) (h1 : cs ≤ (nodes.length : Int) - 2) :
    ∃ lo hi, nodes[cs.toNat]? = some lo ∧ nodes[cs.toNat + 1]? = some hi ∧
      segmentEnds nodes cs dir = some (if dir = 1 then (lo, hi) else (hi, lo)) := by
  have hlo : cs.toNat < nodes.length := by omega
  have hhi : cs.toNat + 1 < nodes.length := by omega
  refine ⟨nodes[cs.toNat], nodes[cs.toNat + 1], List.getElem?_eq_getElem hlo,
    List.getElem?_eq_getElem hhi, ?_⟩
  have hn0 : ¬ cs < 0 := by omega
  have hn1 : ¬ cs + 1 < 0 := by omega
  have ht : (cs + 1).toNat = cs.toNat + 1 := by omega
  unfold segmentEnds nodeAt
  simp only [hn0, hn1, if_false, ht, List.getElem?_eq_getElem hlo,
    List.getElem?_eq_getElem hhi]
  split_ifs <;> rfl

theorem updateBus_eval (sqrt : R → R) (busRoutes : List (StoredBusRoute R)) (i : Nat)
    (bus : Bus R) (money : R) (route : StoredBusRoute R) (nodes : List (Vector2 R))
    (startNode endNode : Vector2 R)
    (hid : 0 ≤ bus.RouteID) (hroute : busRoutes[bus.RouteID.toNat]? = some route)
    (hnodes : toNodes route.Points = some nodes) (hn : 2 ≤ nodes.length)
    (hends : segmentEnds nodes bus.CurrentSegment bus.Direction = some (startNode, endNode)) :
    updateBus sqrt busRoutes i bus money =
      match segmentEnds nodes
        (finishSegment bus (advanceProgress bus.Progress
          (Vector2Distance sqrt startNode endNode)) nodes.length money route.Length).1.CurrentSegment
        (finishSegment bus (advanceProgress bus.Progress
          (Vector2Distance sqrt startNode endNode)) nodes.length money route.Length).1.Direction with
      | none => none
      | some (a, b) =>
        some ({ (finishSegment bus (advanceProgress bus.Progress
            (Vector2Distance sqrt startNode endNode)) nodes.length money route.Length).1 with
            Position := Vector2Lerp a b (finishSegment bus (advanceProgress bus.Progress
              (Vector2Distance sqrt startNode endNode)) nodes.length money route.Length).1.Progress },
          (finishSegment bus (advanceProgress bus.Progress
            (Vector2Distance sqrt startNode endNode)) nodes.length money route.Length).2.1,
          (finishSegment bus (advanceProgress bus.Progress
            (Vector2Distance sqrt startNode endNode)) nodes.length money route.Length).2.2 ++
            [Out.toAll (Msg.bus i
              (Vector2Lerp a b (finishSegment bus (advanceProgress bus.Progress
                (Vector2Distance sqrt startNode endNode)) nodes.length money
                  route.Length).1.Progress).X
              (Vector2Lerp a b (finishSegment bus (advanceProgress bus.Progress
                (Vector2Distance sqrt startNode endNode)) nodes.length money
                  route.Length).1.Progress).Y)]) := by
  have hlen : bus.RouteID.toNat < busRoutes.length := by
    by_contra hge
    rw [List.getElem?_eq_none (by omega)] at hroute
    exact absurd hroute (by simp)
  have h1 : ¬ bus.RouteID ≥ (busRoutes.length : Int) := by omega
  have h2 : ¬ bus.RouteID < 0 := by omega
  have h3 : ¬ nodes.length < 2 := by omega
  unfold updateBus
  simp only [h1, h2, if_false, hroute, hnodes, h3, hends]

theorem advanceProgress_nonneg (progress distance : R) (h : 0 ≤ progress) :
    0 ≤ advanceProgress progress distance := by
  unfold advanceProgress
  split_ifs with hd
  · have h1 : 0 < BUS_SPEED R / distance := div_pos (by unfold BUS_SPEED; norm_num) hd
    have h2 : 0 < frameTime R := by unfold frameTime; norm_num
    have := mul_pos h1 h2
    linarith
  · exact zero_le_one

theorem finishSegment_wf (bus : Bus R) (progress : R) (n : Nat) (money length : R)
    (hn : 2 ≤ n) (h0 : 0 ≤ bus.CurrentSegment) (h1 : bus.CurrentSegment ≤ (n : Int) - 2)
    (hdir : bus.Direction = 1 ∨ bus.Direction = -1) (hp : 0 ≤ progress) :
    0 ≤ (finishSegment bus progress n money length).1.CurrentSegment ∧
    (finishSegment bus progress n money length).1.CurrentSegment ≤ (n : Int) - 2 ∧
    ((finishSegment bus progress n money length).1.Direction = 1 ∨
      (finishSegment bus progress n money length).1.Direction = -1) ∧
    0 ≤ (finishSegment bus progress n money length).1.Progress ∧
    (finishSegment bus progress n money length).1.Progress < 1 := by
  unfold finishSegment
  split_ifs with hge hd hlast hfirst
  · exact ⟨by dsimp only; omega, le_refl _, Or.inr rfl, le_refl _, zero_lt_one⟩
  · exact ⟨by dsimp only; omega, by dsimp only; omega, hdir, le_refl _, zero_lt_one⟩
  · exact ⟨le_refl _, by dsimp only; omega, Or.inl rfl, le_refl _, zero_lt_one⟩
  · exact ⟨by dsimp only; omega, by dsimp only; omega, hdir, le_refl _, zero_lt_one⟩
  · exact ⟨h0, h1, hdir, hp, not_le.1 hge⟩

theorem finishSegment_lap (bus : Bus R) (progress : R) (n : Nat) (money length : R)
    (hp : 1 ≤ progress)
    (hend : (bus.Direction = 1 ∧ bus.CurrentSegment = (n : Int) - 2) ∨
      (bus.Direction = -1 ∧ bus.CurrentSegment = 0)) :
    (finishSegment bus progress n money length).1.Direction = -bus.Direction ∧
      (finishSegment bus progress n money length).2.1 =
        money + (if 0 < length then length / 16 else 0) := by
  have hpay : payReward money length = money + (if 0 < length then length / 16 else 0) := by
    unfold payReward
    split_ifs <;> simp
  unfold finishSegment
  rcases hend with ⟨hd, hc⟩ | ⟨hd, hc⟩
  · have hlast : (n : Int) - 1 ≤ bus.CurrentSegment + 1 := by omega
    simp [hp, hd, hlast, hpay]
  · have hfirst : bus.CurrentSegment - 1 < 0 := by omega
    simp [hp, hd, hfirst, hpay]

theorem finishSegment_no_lap (bus : Bus R) (progress : R) (n : Nat) (money length : R)
    (h0 : 0 ≤ bus.CurrentSegment) (h1 : bus.CurrentSegment ≤ (n : Int) - 2)
    (hdir : bus.Direction = 1 ∨ bus.Direction = -1)
    (hno : ¬ (1 ≤ progress ∧
      ((bus.Direction = 1 ∧ bus.CurrentSegment = (n : Int) - 2) ∨
        (bus.Direction = -1 ∧ bus.CurrentSegment = 0)))) :
    (finishSegment bus progress n money length).1.Direction = bus.Direction ∧
      (finishSegment bus progress n money length).2.1 = money := by
  unfold finishSegment
  split_ifs with hge hd hlast hfirst
  · exact absurd ⟨hge, Or.inl ⟨hd, by omega⟩⟩ hno
  · exact ⟨rfl, rfl⟩
  · rcases hdir with hd1 | hd1
    · exact absurd hd1 hd
    · exact absurd ⟨hge, Or.inr ⟨hd1, by omega⟩⟩ hno
  · exact ⟨rfl, rfl⟩
  · exact ⟨rfl, rfl⟩

/-- C17: the lap reward.  In one bus-motion tick of one well-placed bus on
a route of stored length `Len`: if the updated progress reaches 1 while the
bus moves forward on the last segment or backward on the first segment (it
passes the last, respectively the first node), the direction is negated and
money grows by exactly `Len / 16` (by 0 when `Len` is not positive); in
every other tick the bus leaves money and its direction unchanged. -/
theorem C17_lap_reward (sqrt : R → R) (busRoutes : List (StoredBusRoute R)) (i : Nat)
    (bus : Bus R) (money : R) (route : StoredBusRoute R) (nodes : List (Vector2 R))
    (startNode endNode : Vector2 R)
    (hid : 0 ≤ bus.RouteID) (hroute : busRoutes[bus.RouteID.toNat]? = some route)
    (hnodes : toNodes route.Points = some nodes) (hn : 2 ≤ nodes.length)
    (hcs0 : 0 ≤ bus.CurrentSegment)
    (hcs1 : bus.CurrentSegment ≤ (nodes.length : Int) - 2)
    (hdir : bus.Direction = 1 ∨ bus.Direction = -1)
    (hends : segmentEnds nodes bus.CurrentSegment bus.Direction = some (startNode, endNode)) :
    ∃ bus1 money1 out, updateBus sqrt busRoutes i bus money = some (bus1, money1, out) ∧
      ((1 ≤ advanceProgress bus.Progress (Vector2Distance sqrt startNode endNode) ∧
          ((bus.Direction = 1 ∧ bus.CurrentSegment = (nodes.length : Int) - 2) ∨
            (bus.Direction = -1 ∧ bus.CurrentSegment = 0)) →
        bus1.Direction = -bus.Direction ∧
          money1 = money + (if 0 < route.Length then route.Length / 16 else 0)) ∧
      (¬ (1 ≤ advanceProgress bus.Progress (Vector2Distance sqrt startNode endNode) ∧
          ((bus.Direction = 1 ∧ bus.CurrentSegment = (nodes.length : Int) - 2) ∨
            (bus.Direction = -1 ∧ bus.CurrentSegment = 0))) →
        bus1.Direction = bus.Direction ∧ money1 = money)) := by
  have heval := updateBus_eval sqrt busRoutes i bus money route nodes startNode endNode
    hid hroute hnodes hn hends
  have hwf : ∀ progress : R,
      0 ≤ (finishSegment bus progress nodes.length money route.Length).1.CurrentSegment ∧
      (finishSegment bus progress nodes.length money route.Length).1.CurrentSegment ≤
        (nodes.length : Int) - 2 := by
    intro progress
    unfold finishSegment
    split_ifs <;> constructor <;> dsimp only <;> omega
  obtain ⟨h0, h1⟩ := hwf (advanceProgress bus.Progress (Vector2Distance sqrt startNode endNode))
  obtain ⟨lo, hi, -, -, hseg⟩ := segmentEnds_some nodes _
    (finishSegment bus (advanceProgress bus.Progress (Vector2Distance sqrt startNode endNode))
      nodes.length money route.Length).1.Direction h0 h1
  rw [hseg] at heval
  refine ⟨_, _, _, heval, ?_, ?_⟩
  · rintro ⟨hp, hend⟩
    exact finishSegment_lap bus _ nodes.length money route.Length hp hend
  · intro hno
    exact finishSegment_no_lap bus _ nodes.length money route.Length hcs0 hcs1 hdir hno

/-- The statement C17 over the reals for the bus on the route
`(0,0) → (200,0)` that is one tick before the far end. -/
theorem C17_lap_reward_witness :
    ∃ bus1 money1 out,
      updateBus Real.sqrt [longRoute ℝ] 0 ⟨⟨190, 0⟩, 0, 0, 19 / 20, 1⟩ 1000 =
        some (bus1, money1, out) ∧
      ((1 ≤ advanceProgress (19 / 20 : ℝ)
            (Vector2Distance Real.sqrt ⟨0, 0⟩ ⟨200, 0⟩) ∧
          (((1 : Int) = 1 ∧ (0 : Int) = (([⟨0, 0⟩, ⟨200, 0⟩] : List (Vector2 ℝ)).length : Int) - 2) ∨
            ((1 : Int) = -1 ∧ (0 : Int) = 0)) →
        bus1.Direction = -1 ∧
          money1 = 1000 + (if 0 < (longRoute ℝ).Length then (longRoute ℝ).Length / 16 else 0)) ∧
      (¬ (1 ≤ advanceProgress (19 / 20 : ℝ)
            (Vector2Distance Real.sqrt ⟨0, 0⟩ ⟨200, 0⟩) ∧
          (((1 : Int) = 1 ∧ (0 : Int) = (([⟨0, 0⟩, ⟨200, 0⟩] : List (Vector2 ℝ)).length : Int) - 2) ∨
            ((1 : Int) = -1 ∧ (0 : Int) = 0))) →
        bus1.Direction = 1 ∧ money1 = 1000)) :=
  C17_lap_reward Real.sqrt [longRoute ℝ] 0 ⟨⟨190, 0⟩, 0, 0, 19 / 20, 1⟩ 1000 (longRoute ℝ)
    [⟨0, 0⟩, ⟨200, 0⟩] ⟨0, 0⟩ ⟨200, 0⟩ (le_refl _) rfl rfl (le_refl _) (le_refl _)
    (by decide) (Or.inl rfl) rfl

/-- C18: the bus-motion tick keeps a bus well formed and never indexes
outside its route.  For a route with `n ≥ 2` nodes and a bus on it with
`0 ≤ CurrentSegment ≤ n - 2`, `Direction` in `{+1, -1}` and
`0 ≤ Progress < 1`, one tick returns (no index panic) a bus with
`0 ≤ CurrentSegment ≤ n - 2`, `Direction` in `{+1, -1}` and
`0 ≤ Progress < 1`, whose `Position` is the linear interpolation at
`Progress` between the two endpoint nodes of its new current segment, taken
in the direction of travel. -/
theorem C18_tick_keeps_bus_well_formed (sqrt : R → R)
    (busRoutes : List (StoredBusRoute R)) (i : Nat) (bus : Bus R) (money : R)
    (route : StoredBusRoute R) (nodes : List (Vector2 R))
    (hid : 0 ≤ bus.RouteID) (hroute : busRoutes[bus.RouteID.toNat]? = some route)
    (hnodes : toNodes route.Points = some nodes) (hn : 2 ≤ nodes.length)
    (hcs0 : 0 ≤ bus.CurrentSegment)
    (hcs1 : bus.CurrentSegment ≤ (nodes.length : Int) - 2)
    (hdir : bus.Direction = 1 ∨ bus.Direction = -1)
    (hp0 : 0 ≤ bus.Progress) (_hp1 : bus.Progress < 1) :
    (∃ lo hi, nodes[bus.CurrentSegment.toNat]? = some lo ∧
      nodes[bus.CurrentSegment.toNat + 1]? = some hi) ∧
    ∃ bus1 money1 out, updateBus sqrt busRoutes i bus money = some (bus1, money1, out) ∧
      0 ≤ bus1.CurrentSegment ∧ bus1.CurrentSegment ≤ (nodes.length : Int) - 2 ∧
      (bus1.Direction = 1 ∨ bus1.Direction = -1) ∧
      0 ≤ bus1.Progress ∧ bus1.Progress < 1 ∧
      ∃ lo hi, nodes[bus1.CurrentSegment.toNat]? = some lo ∧
        nodes[bus1.CurrentSegment.toNat + 1]? = some hi ∧
        bus1.Position = (if bus1.Direction = 1 then Vector2Lerp lo hi bus1.Progress
          else Vector2Lerp hi lo bus1.Progress) := by
  obtain ⟨lo0, hi0, hlo0, hhi0, hends⟩ :=
    segmentEnds_some nodes bus.CurrentSegment bus.Direction hcs0 hcs1
  refine ⟨⟨lo0, hi0, hlo0, hhi0⟩, ?_⟩
  obtain ⟨a0, b0, hab⟩ : ∃ a0 b0,
      segmentEnds nodes bus.CurrentSegment bus.Direction = some (a0, b0) :=
    ⟨_, _, hends⟩
  have heval := updateBus_eval sqrt busRoutes i bus money route nodes a0 b0
    hid hroute hnodes hn hab
  obtain ⟨h0, h1, hd, hq0, hq1⟩ := finishSegment_wf bus
    (advanceProgress bus.Progress (Vector2Distance sqrt a0 b0))
    nodes.length money route.Length hn hcs0 hcs1 hdir (advanceProgress_nonneg _ _ hp0)
  obtain ⟨lo, hi, hlo, hhi, hseg⟩ := segmentEnds_some nodes _
    (finishSegment bus (advanceProgress bus.Progress (Vector2Distance sqrt a0 b0))
      nodes.length money route.Length).1.Direction h0 h1
  by_cases hdd : (finishSegment bus (advanceProgress bus.Progress
      (Vector2Distance sqrt a0 b0)) nodes.length money route.Length).1.Direction = 1
  · rw [if_pos hdd] at hseg
    rw [hseg] at heval
    refine ⟨_, _, _, heval, h0, h1, hd, hq0, hq1, lo, hi, hlo, hhi, ?_⟩
    dsimp only
    rw [if_pos hdd]
  · rw [if_neg hdd] at hseg
    rw [hseg] at heval
    refine ⟨_, _, _, heval, h0, h1, hd, hq0, hq1, lo, hi, hlo, hhi, ?_⟩
    dsimp only
    rw [if_neg hdd]

/-- The statement C18 over the reals for the fresh bus on the route
`(0,0) → (200,0)`. -/
theorem C18_tick_keeps_bus_well_formed_witness :
    (∃ lo hi, ([⟨0, 0⟩, ⟨200, 0⟩] : List (Vector2 ℝ))[(freshBus ℝ).CurrentSegment.toNat]? =
        some lo ∧
      ([⟨0, 0⟩, ⟨200, 0⟩] : List (Vector2 ℝ))[(freshBus ℝ).CurrentSegment.toNat + 1]? =
        some hi) ∧
    ∃ bus1 money1 out,
      updateBus Real.sqrt [longRoute ℝ] 0 (freshBus ℝ) 1000 = some (bus1, money1, out) ∧
      0 ≤ bus1.CurrentSegment ∧
      bus1.CurrentSegment ≤ (([⟨0, 0⟩, ⟨200, 0⟩] : List (Vector2 ℝ)).length : Int) - 2 ∧
      (bus1.Direction = 1 ∨ bus1.Direction = -1) ∧
      0 ≤ bus1.Progress ∧ bus1.Progress < 1 ∧
      ∃ lo hi, ([⟨0, 0⟩, ⟨200, 0⟩] : List (Vector2 ℝ))[bus1.CurrentSegment.toNat]? = some lo ∧
        ([⟨0, 0⟩, ⟨200, 0⟩] : List (Vector2 ℝ))[bus1.CurrentSegment.toNat + 1]? = some hi ∧
        bus1.Position = (if bus1.Direction = 1 then Vector2Lerp lo hi bus1.Progress
          else Vector2Lerp hi lo bus1.Progress) :=
  C18_tick_keeps_bus_well_formed Real.sqrt [longRoute ℝ] 0 (freshBus ℝ) 1000 (longRoute ℝ)
    [⟨0, 0⟩, ⟨200, 0⟩] (le_refl _) rfl rfl (le_refl _) (le_refl _) (by decide) (Or.inl rfl)
    (by simp [freshBus]) (by simp [freshBus])

end OneBus

/-! ## The search order of a deletion -/

section DeleteOrder

variable {R : Type} [LinearOrderedField R]

theorem deleteRadius_eq : deleteRadius R = 24 := by
  unfold deleteRadius GRID_SIZE
  norm_num

theorem buildingHit_iff (sqrt : R → R) (x y : R) (b : StoredBuilding R) :
    buildingHit sqrt x y b = true ↔ BuildingWithin sqrt x y b := by
  simp [buildingHit, BuildingWithin, deleteRadius_eq]

theorem lineHit_iff (sqrt : R → R) (x y : R) (l : StoredLine R) :
    lineHit sqrt x y l = true ↔ LineWithin sqrt x y l := by
  simp [lineHit, LineWithin, deleteRadius_eq]

theorem scanDown_none_imp {α : Type} (hit : α → Bool) (l : List α) (n : Nat)
    (h : scanDown hit l n = none) :
    ∀ j a, j < n → l[j]? = some a → hit a = false := by
  induction n with
  | zero => intro j a hj; omega
  | succ k ih =>
    intro j a hj ha
    unfold scanDown at h
    cases hk : l[k]? with
    | none =>
      rw [hk] at h
      by_cases hjk : j = k
      · subst hjk
        rw [hk] at ha
        exact absurd ha (by simp)
      · exact ih h j a (by omega) ha
    | some b =>
      rw [hk] at h
      by_cases hb : hit b = true
      · simp [hb] at h
      · simp only [hb, Bool.false_eq_true, if_false] at h
        by_cases hjk : j = k
        · subst hjk
          rw [hk] at ha
          simp only [Option.some.injEq] at ha
          subst ha
          simpa using hb
        · exact ih h j a (by omega) ha

theorem scanDown_greatest {α : Type} (hit : α → Bool) (l : List α) (n i : Nat) (a : α)
    (h : scanDown hit l n = some (i, a)) :
    ∀ j b, i < j → j < n → l[j]? = some b → hit b = false := by
  induction n with
  | zero => simp [scanDown] at h
  | succ k ih =>
    intro j b hij hj hb
    unfold scanDown at h
    cases hk : l[k]? with
    | none =>
      rw [hk] at h
      by_cases hjk : j = k
      · subst hjk
        rw [hk] at hb
        exact absurd hb (by simp)
      · exact ih h j b hij (by omega) hb
    | some c =>
      rw [hk] at h
      by_cases hc : hit c = true
      · simp only [hc, if_true, Option.some.injEq, Prod.mk.injEq] at h
        omega
      · simp only [hc, Bool.false_eq_true, if_false] at h
        by_cases hjk : j = k
        · subst hjk
          rw [hk] at hb
          simp only [Option.some.injEq] at hb
          subst hb
          simpa using hc
        · exact ih h j b hij (by omega) hb

theorem scanDown_of_exists {α : Type} (hit : α → Bool) (l : List α)
    (h : ∃ a ∈ l, hit a = true) : ∃ i a, scanDown hit l l.length = some (i, a) := by
  cases hs : scanDown hit l l.length with
  | some r => exact ⟨r.1, r.2, rfl⟩
  | none =>
    exfalso
    obtain ⟨a, ha, hhit⟩ := h
    obtain ⟨j, hj, hget⟩ := List.getElem_of_mem ha
    have := scanDown_none_imp hit l l.length hs j a hj (by
      rw [List.getElem?_eq_getElem hj, hget])
    rw [this] at hhit
    exact absurd hhit (by simp)

theorem nodeHit_spec (sqrt : R → R) (x y : R) :
    ∀ (points : List R) (nodes : List (Vector2 R)), toNodes points = some nodes →
      ∃ b, nodeHit sqrt x y points = some b ∧
        (b = true ↔ ∃ node ∈ nodes, pointDist sqrt node.X node.Y x y ≤ 24)
  | [], nodes, h => by
    simp only [toNodes, Option.some.injEq] at h
    subst h
    exact ⟨false, rfl, by simp⟩
  | [_], nodes, h => by simp [toNodes] at h
  | px :: py :: rest, nodes, h => by
    unfold toNodes at h
    cases hr : toNodes rest with
    | none => simp [hr] at h
    | some more =>
      simp only [hr, Option.some.injEq] at h
      subst h
      obtain ⟨b, hb, hiff⟩ := nodeHit_spec sqrt x y rest more hr
      unfold nodeHit
      by_cases hd : pointDist sqrt px py x y ≤ deleteRadius R
      · refine ⟨true, by simp [hd], ?_⟩
        simp only [true_iff]
        exact ⟨⟨px, py⟩, List.mem_cons_self _ _, by rwa [deleteRadius_eq] at hd⟩
      · refine ⟨b, by simp [hd, hb], ?_⟩
        rw [hiff]
        constructor
        · rintro ⟨node, hn, hdn⟩
          exact ⟨node, List.mem_cons_of_mem _ hn, hdn⟩
        · rintro ⟨node, hn, hdn⟩
          rcases List.mem_cons.1 hn with rfl | hn
          · rw [deleteRadius_eq] at hd
            exact absurd hdn hd
          · exact ⟨node, hn, hdn⟩

theorem nodeHit_of_wellFormed (sqrt : R → R) (x y : R) (r : StoredBusRoute R)
    (h : ∃ nodes, toNodes r.Points = some nodes) :
    ∃ b, nodeHit sqrt x y r.Points = some b ∧ (b = true ↔ RouteWithin sqrt x y r) := by
  obtain ⟨nodes, hn⟩ := h
  obtain ⟨b, hb, hiff⟩ := nodeHit_spec sqrt x y r.Points nodes hn
  refine ⟨b, hb, ?_⟩
  rw [hiff]
  unfold RouteWithin
  constructor
  · intro hex
    exact ⟨nodes, hn, hex⟩
  · rintro ⟨nodes1, hn1, hex⟩
    rw [hn] at hn1
    simp only [Option.some.injEq] at hn1
    subst hn1
    exact hex

theorem routeScan_spec (sqrt : R → R) (x y : R) (routes : List (StoredBusRoute R))
    (hwf : RoutesWellFormed routes) (n : Nat) :
    (∃ i, routeScan sqrt x y routes n = some (some i) ∧ i < n ∧
      (∃ r, routes[i]? = some r ∧ RouteWithin sqrt x y r) ∧
      ∀ j r, i < j → j < n → routes[j]? = some r → ¬ RouteWithin sqrt x y r) ∨
    (routeScan sqrt x y routes n = some none ∧
      ∀ j r, j < n → routes[j]? = some r → ¬ RouteWithin sqrt x y r) := by
  induction n with
  | zero =>
    right
    exact ⟨rfl, fun j r hj => by omega⟩
  | succ k ih =>
    unfold routeScan
    cases hk : routes[k]? with
    | none =>
      simp only []
      rcases ih with ⟨i, h1, h2, h3, h4⟩ | ⟨h1, h2⟩
      · left
        refine ⟨i, h1, by omega, h3, ?_⟩
        intro j r hij hj hr
        by_cases hjk : j = k
        · subst hjk
          rw [hk] at hr
          exact absurd hr (by simp)
        · exact h4 j r hij (by omega) hr
      · right
        refine ⟨h1, ?_⟩
        intro j r hj hr
        by_cases hjk : j = k
        · subst hjk
          rw [hk] at hr
          exact absurd hr (by simp)
        · exact h2 j r (by omega) hr
    | some rk =>
      simp only []
      obtain ⟨b, hb, hiff⟩ := nodeHit_of_wellFormed sqrt x y rk
        (hwf rk (List.getElem?_mem hk))
      cases b with
      | true =>
        left
        simp only [hb]
        refine ⟨k, rfl, by omega, ⟨rk, hk, hiff.1 rfl⟩, ?_⟩
        intro j r hij hj
        omega
      | false =>
        simp only [hb]
        have hnot : ¬ RouteWithin sqrt x y rk := fun hw => by
          have := hiff.2 hw
          exact absurd this (by simp)
        rcases ih with ⟨i, h1, h2, h3, h4⟩ | ⟨h1, h2⟩
        · left
          refine ⟨i, h1, by omega, h3, ?_⟩
          intro j r hij hj hr
          by_cases hjk : j = k
          · subst hjk
            rw [hk] at hr
            simp only [Option.some.injEq] at hr
            subst hr
            exact hnot
          · exact h4 j r hij (by omega) hr
        · right
          refine ⟨h1, ?_⟩
          intro j r hj hr
          by_cases hjk : j = k
          · subst hjk
            rw [hk] at hr
            simp only [Option.some.injEq] at hr
            subst hr
            exact hnot
          · exact h2 j r (by omega) hr

theorem deleteObject_line (sqrt : R → R) (s : LobbyServer R) (playerID : String)
    (x y : R) (i : Nat) (l : StoredLine R) (hwf : RoutesWellFormed s.busRoutes)
    (hb : scanDown (buildingHit sqrt x y) s.buildings s.buildings.length = none)
    (hl : scanDown (lineHit sqrt x y) s.lines s.lines.length = some (i, l)) :
    ∃ s1 out, deleteObject sqrt s playerID x y = some (s1, out) ∧
      s1.lines = s.lines.eraseIdx i ∧ s1.buildings = s.buildings ∧
      s1.incomeRate = s.incomeRate ∧
      (l.Typ ≠ Road → s1.busRoutes = s.busRoutes ∧ s1.buses = s.buses ∧
        s1.money = s.money) ∧
      (l.Typ = Road →
        s1.busRoutes = s.busRoutes.filter (routeKept sqrt (s.lines.eraseIdx i)) ∧
        s1.buses = s.buses.filterMap
          (rebaseBus (routeKept sqrt (s.lines.eraseIdx i)) s.busRoutes)) := by
  by_cases hroad : l.Typ = Road
  · have hp := routesToPrune_eq sqrt (s.lines.eraseIdx i) s.busRoutes hwf 0
    have hroutes := pruneLoop_routes (routeKept sqrt (s.lines.eraseIdx i)) s.busRoutes []
      s.buses
    simp only [List.length_nil, List.nil_append] at hroutes
    have hbuses := pruneLoop_buses (prunedIdx (routeKept sqrt (s.lines.eraseIdx i)) 0
      s.busRoutes) s.busRoutes s.buses (prunedIdx_pairwise _ _ 0)
    have hfun : rebaseByIdx (prunedIdx (routeKept sqrt (s.lines.eraseIdx i)) 0
        s.busRoutes) = rebaseBus (routeKept sqrt (s.lines.eraseIdx i)) s.busRoutes := by
      funext bus
      exact rebaseByIdx_eq _ _ bus
    rw [hfun] at hbuses
    unfold deleteObject
    simp only [hb, hl, hroad, if_true, hp]
    exact ⟨_, _, rfl, rfl, rfl, rfl, fun h => absurd rfl h, fun _ => ⟨hroutes, hbuses⟩⟩
  · have hd : deleteObject sqrt s playerID x y =
        some ({ s with lines := s.lines.eraseIdx i },
          resync { s with lines := s.lines.eraseIdx i }) := by
      unfold deleteObject
      simp only [hb, hl, hroad, if_false]
    exact ⟨_, _, hd, rfl, rfl, rfl, fun _ => ⟨rfl, rfl, rfl⟩, fun h => absurd h hroad⟩

theorem deleteObject_route (sqrt : R → R) (s : LobbyServer R) (playerID : String)
    (x y : R) (i : Nat)
    (hb : scanDown (buildingHit sqrt x y) s.buildings s.buildings.length = none)
    (hl : scanDown (lineHit sqrt x y) s.lines s.lines.length = none)
    (hr : routeScan sqrt x y s.busRoutes s.busRoutes.length = some (some i)) :
    deleteObject sqrt s playerID x y =
      some ({ s with busRoutes := s.busRoutes.eraseIdx i,
                     buses := removeBusesForRoute (i : Int) s.buses },
        resync { s with busRoutes := s.busRoutes.eraseIdx i,
                        buses := removeBusesForRoute (i : Int) s.buses }) := by
  unfold deleteObject
  simp only [hb, hl, hr]

theorem deleteObject_nothing (sqrt : R → R) (s : LobbyServer R) (playerID : String)
    (x y : R)
    (hb : scanDown (buildingHit sqrt x y) s.buildings s.buildings.length = none)
    (hl : scanDown (lineHit sqrt x y) s.lines s.lines.length = none)
    (hr : routeScan sqrt x y s.busRoutes s.busRoutes.length = some none) :
    deleteObject sqrt s playerID x y =
      some (s, [Out.toPlayer playerID (Msg.status "No deletable object found here.")]) := by
  unfold deleteObject
  simp only [hb, hl, hr]

theorem scanDown_none_of_not {α : Type} (hit : α → Bool) (l : List α) (P : α → Prop)
    (hiff : ∀ a, hit a = true ↔ P a) (h : ¬ ∃ a ∈ l, P a) :
    scanDown hit l l.length = none := by
  apply scanDown_none
  intro a ha
  by_contra hne
  exact h ⟨a, ha, (hiff a).1 (by simpa using hne)⟩

/-- The four outcomes of `deleteObject` in the words of the specification:
which category is hit, that the object removed is the stored one with the
greatest index among those within the radius, and what the new state is. -/
theorem deleteObject_spec (sqrt : R → R) (s : LobbyServer R) (playerID : String)
    (x y : R) (hwf : RoutesWellFormed s.busRoutes) :
    (∃ i b out, i < s.buildings.length ∧ s.buildings[i]? = some b ∧
      BuildingWithin sqrt x y b ∧
      (∀ j b1, i < j → s.buildings[j]? = some b1 → ¬ BuildingWithin sqrt x y b1) ∧
      deleteObject sqrt s playerID x y =
        some ({ s with buildings := s.buildings.eraseIdx i,
                       incomeRate := if b.Typ ≠ -1 then incomeAfterDelete s.incomeRate b.Typ
                         else s.incomeRate }, out)) ∨
    ((¬ ∃ b ∈ s.buildings, BuildingWithin sqrt x y b) ∧
      ∃ i l s1 out, i < s.lines.length ∧ s.lines[i]? = some l ∧ LineWithin sqrt x y l ∧
        (∀ j l1, i < j → s.lines[j]? = some l1 → ¬ LineWithin sqrt x y l1) ∧
        deleteObject sqrt s playerID x y = some (s1, out) ∧
        s1.lines = s.lines.eraseIdx i ∧ s1.buildings = s.buildings ∧
        s1.incomeRate = s.incomeRate ∧
        (l.Typ ≠ Road → s1.busRoutes = s.busRoutes ∧ s1.buses = s.buses ∧
          s1.money = s.money) ∧
        (l.Typ = Road →
          s1.busRoutes = s.busRoutes.filter (routeKept sqrt (s.lines.eraseIdx i)) ∧
          s1.buses = s.buses.filterMap
            (rebaseBus (routeKept sqrt (s.lines.eraseIdx i)) s.busRoutes))) ∨
    ((¬ ∃ b ∈ s.buildings, BuildingWithin sqrt x y b) ∧
      (¬ ∃ l ∈ s.lines, LineWithin sqrt x y l) ∧
      ∃ i r, i < s.busRoutes.length ∧ s.busRoutes[i]? = some r ∧ RouteWithin sqrt x y r ∧
        (∀ j r1, i < j → s.busRoutes[j]? = some r1 → ¬ RouteWithin sqrt x y r1) ∧
        deleteObject sqrt s playerID x y =
          some ({ s with busRoutes := s.busRoutes.eraseIdx i,
                         buses := removeBusesForRoute (i : Int) s.buses },
            resync { s with busRoutes := s.busRoutes.eraseIdx i,
                            buses := removeBusesForRoute (i : Int) s.buses })) ∨
    ((¬ ∃ b ∈ s.buildings, BuildingWithin sqrt x y b) ∧
      (¬ ∃ l ∈ s.lines, LineWithin sqrt x y l) ∧
      (¬ ∃ r ∈ s.busRoutes, RouteWithin sqrt x y r) ∧
      deleteObject sqrt s playerID x y =
        some (s, [Out.toPlayer playerID (Msg.status "No deletable object found here.")])) := by
  have inRange : ∀ {α : Type} (l : List α) (j : Nat) (a : α), l[j]? = some a →
      j < l.length := by
    intro α l j a h
    by_contra hge
    rw [List.getElem?_eq_none (by omega)] at h
    exact absurd h (by simp)
  cases hb : scanDown (buildingHit sqrt x y) s.buildings s.buildings.length with
  | some ib =>
    obtain ⟨i, b⟩ := ib
    left
    obtain ⟨h1, h2, h3⟩ := scanDown_some _ _ _ _ _ hb
    obtain ⟨out, hd⟩ := deleteObject_building sqrt s playerID x y i b hb
    refine ⟨i, b, out, h1, h2, (buildingHit_iff sqrt x y b).1 h3, ?_, hd⟩
    intro j b1 hij hj hw
    have := scanDown_greatest _ _ _ _ _ hb j b1 hij (inRange _ _ _ hj) hj
    rw [(buildingHit_iff sqrt x y b1).2 hw] at this
    exact absurd this (by simp)
  | none =>
    right
    have hnb : ¬ ∃ b ∈ s.buildings, BuildingWithin sqrt x y b := by
      rintro ⟨b, hbm, hw⟩
      obtain ⟨j, hj, hget⟩ := List.getElem_of_mem hbm
      have := scanDown_none_imp _ _ _ hb j b hj (by rw [List.getElem?_eq_getElem hj, hget])
      rw [(buildingHit_iff sqrt x y b).2 hw] at this
      exact absurd this (by simp)
    cases hl : scanDown (lineHit sqrt x y) s.lines s.lines.length with
    | some il =>
      obtain ⟨i, l⟩ := il
      left
      obtain ⟨h1, h2, h3⟩ := scanDown_some _ _ _ _ _ hl
      obtain ⟨s1, out, hd, e1, e2, e3, e4, e5⟩ :=
        deleteObject_line sqrt s playerID x y i l hwf hb hl
      refine ⟨hnb, i, l, s1, out, h1, h2, (lineHit_iff sqrt x y l).1 h3, ?_, hd, e1, e2,
        e3, e4, e5⟩
      intro j l1 hij hj hw
      have := scanDown_greatest _ _ _ _ _ hl j l1 hij (inRange _ _ _ hj) hj
      rw [(lineHit_iff sqrt x y l1).2 hw] at this
      exact absurd this (by simp)
    | none =>
      right
      have hnl : ¬ ∃ l ∈ s.lines, LineWithin sqrt x y l := by
        rintro ⟨l, hlm, hw⟩
        obtain ⟨j, hj, hget⟩ := List.getElem_of_mem hlm
        have := scanDown_none_imp _ _ _ hl j l hj (by rw [List.getElem?_eq_getElem hj, hget])
        rw [(lineHit_iff sqrt x y l).2 hw] at this
        exact absurd this (by simp)
      rcases routeScan_spec sqrt x y s.busRoutes hwf s.busRoutes.length with
        ⟨i, h1, h2, ⟨r, h3, h4⟩, h5⟩ | ⟨h1, h2⟩
      · left
        refine ⟨hnb, hnl, i, r, h2, h3, h4, ?_, deleteObject_route sqrt s playerID x y i hb hl h1⟩
        intro j r1 hij hj
        exact h5 j r1 hij (inRange _ _ _ hj) hj
      · right
        refine ⟨hnb, hnl, ?_, deleteObject_nothing sqrt s playerID x y hb hl h1⟩
        rintro ⟨r, hrm, hw⟩
        obtain ⟨j, hj, hget⟩ := List.getElem_of_mem hrm
        exact h2 j r hj (by rw [List.getElem?_eq_getElem hj, hget]) hw

/-- C11: `deleteObject` applies only the first category that yields a hit,
in the order building, line, route node (in a state whose stored routes are
well formed).  If some building is within the radius 24 of the target,
exactly one building is removed and lines, routes and buses are untouched,
whatever else is within the radius.  If no building but some line is within
the radius, exactly one line is removed and no building; routes then
change only through the re-validation that follows the removal of a Road
line.  A route is removed by one of its nodes only when neither a building
nor a line is within the radius.  If nothing is within the radius the state
is unchanged and the only output is the STATUS to the requester. -/
theorem C11_delete_first_category (sqrt : R → R) (s : LobbyServer R)
    (playerID : String) (x y : R) (hwf : RoutesWellFormed s.busRoutes) :
    ∃ s1 out, deleteObject sqrt s playerID x y = some (s1, out) ∧
      ((∃ b ∈ s.buildings, BuildingWithin sqrt x y b) →
        (∃ i, i < s.buildings.length ∧ s1.buildings = s.buildings.eraseIdx i) ∧
        s1.buildings.length + 1 = s.buildings.length ∧
        s1.lines = s.lines ∧ s1.busRoutes = s.busRoutes ∧ s1.buses = s.buses) ∧
      ((¬ ∃ b ∈ s.buildings, BuildingWithin sqrt x y b) →
        (∃ l ∈ s.lines, LineWithin sqrt x y l) →
        (∃ i l, i < s.lines.length ∧ s.lines[i]? = some l ∧
          s1.lines = s.lines.eraseIdx i ∧
          (l.Typ ≠ Road → s1.busRoutes = s.busRoutes ∧ s1.buses = s.buses) ∧
          (l.Typ = Road → s1.busRoutes = s.busRoutes.filter (routeKept sqrt s1.lines))) ∧
        s1.lines.length + 1 = s.lines.length ∧ s1.buildings = s.buildings) ∧
      ((¬ ∃ b ∈ s.buildings, BuildingWithin sqrt x y b) →
        (¬ ∃ l ∈ s.lines, LineWithin sqrt x y l) →
        (∃ r ∈ s.busRoutes, RouteWithin sqrt x y r) →
        (∃ i, i < s.busRoutes.length ∧ s1.busRoutes = s.busRoutes.eraseIdx i ∧
          s1.buses = removeBusesForRoute (i : Int) s.buses) ∧
        s1.busRoutes.length + 1 = s.busRoutes.length ∧
        s1.buildings = s.buildings ∧ s1.lines = s.lines) ∧
      ((¬ ∃ b ∈ s.buildings, BuildingWithin sqrt x y b) →
        (¬ ∃ l ∈ s.lines, LineWithin sqrt x y l) →
        (¬ ∃ r ∈ s.busRoutes, RouteWithin sqrt x y r) →
        s1 = s ∧
          out = [Out.toPlayer playerID (Msg.status "No deletable object found here.")]) := by
  rcases deleteObject_spec sqrt s playerID x y hwf with
    ⟨i, b, out, h1, h2, h3, -, hd⟩ |
    ⟨hnb, i, l, s1, out, h1, h2, h3, -, hd, e1, e2, -, e4, e5⟩ |
    ⟨hnb, hnl, i, r, h1, h2, h3, -, hd⟩ | ⟨hnb, hnl, hnr, hd⟩
  · have hB : ∃ b ∈ s.buildings, BuildingWithin sqrt x y b := ⟨b, List.getElem?_mem h2, h3⟩
    refine ⟨_, out, hd, ?_, fun h => absurd hB h, fun h => absurd hB h,
      fun h => absurd hB h⟩
    intro _
    refine ⟨⟨i, h1, rfl⟩, ?_, rfl, rfl, rfl⟩
    dsimp only
    rw [List.length_eraseIdx_of_lt h1]
    omega
  · have hL : ∃ l ∈ s.lines, LineWithin sqrt x y l := ⟨l, List.getElem?_mem h2, h3⟩
    refine ⟨s1, out, hd, fun h => absurd h hnb, ?_, fun _ h => absurd hL h,
      fun _ h => absurd hL h⟩
    intro _ _
    refine ⟨⟨i, l, h1, h2, e1, fun h => ⟨(e4 h).1, (e4 h).2.1⟩, ?_⟩, ?_, e2⟩
    · intro h
      rw [e1]
      exact (e5 h).1
    · rw [e1, List.length_eraseIdx_of_lt h1]
      omega
  · have hR : ∃ r ∈ s.busRoutes, RouteWithin sqrt x y r := ⟨r, List.getElem?_mem h2, h3⟩
    refine ⟨_, _, hd, fun h => absurd h hnb, fun _ h => absurd h hnl, ?_,
      fun _ _ h => absurd hR h⟩
    intro _ _ _
    refine ⟨⟨i, h1, rfl, rfl⟩, ?_, rfl, rfl⟩
    dsimp only
    rw [List.length_eraseIdx_of_lt h1]
    omega
  · exact ⟨_, _, hd, fun h => absurd h hnb, fun _ h => absurd h hnl,
      fun _ _ h => absurd h hnr, fun _ _ _ => ⟨rfl, rfl⟩⟩

/-- C12, as the code has it: a D command deletes the most recently stored
qualifying object, not the nearest one.  In a state whose stored routes are
well formed: if some building is within the radius, the building removed is
the stored one with the greatest index among the buildings within the
radius; otherwise, if some line is within the radius, the line removed is
the one with the greatest index among those; otherwise, if some route has a
node within the radius, the route removed is the one with the greatest index
among those. -/
theorem C12_delete_most_recent (sqrt : R → R) (s : LobbyServer R)
    (playerID : String) (x y : R) (hwf : RoutesWellFormed s.busRoutes) :
    ∃ s1 out, deleteObject sqrt s playerID x y = some (s1, out) ∧
      ((∃ b ∈ s.buildings, BuildingWithin sqrt x y b) →
        ∃ i b, s.buildings[i]? = some b ∧ BuildingWithin sqrt x y b ∧
          (∀ j b1, i < j → s.buildings[j]? = some b1 → ¬ BuildingWithin sqrt x y b1) ∧
          s1.buildings = s.buildings.eraseIdx i) ∧
      ((¬ ∃ b ∈ s.buildings, BuildingWithin sqrt x y b) →
        (∃ l ∈ s.lines, LineWithin sqrt x y l) →
        ∃ i l, s.lines[i]? = some l ∧ LineWithin sqrt x y l ∧
          (∀ j l1, i < j → s.lines[j]? = some l1 → ¬ LineWithin sqrt x y l1) ∧
          s1.lines = s.lines.eraseIdx i) ∧
      ((¬ ∃ b ∈ s.buildings, BuildingWithin sqrt x y b) →
        (¬ ∃ l ∈ s.lines, LineWithin sqrt x y l) →
        (∃ r ∈ s.busRoutes, RouteWithin sqrt x y r) →
        ∃ i r, s.busRoutes[i]? = some r ∧ RouteWithin sqrt x y r ∧
          (∀ j r1, i < j → s.busRoutes[j]? = some r1 → ¬ RouteWithin sqrt x y r1) ∧
          s1.busRoutes = s.busRoutes.eraseIdx i) := by
  rcases deleteObject_spec sqrt s playerID x y hwf with
    ⟨i, b, out, -, h2, h3, h4, hd⟩ |
    ⟨hnb, i, l, s1, out, -, h2, h3, h4, hd, e1, -, -, -, -⟩ |
    ⟨hnb, hnl, i, r, -, h2, h3, h4, hd⟩ | ⟨hnb, hnl, hnr, hd⟩
  · have hB : ∃ b ∈ s.buildings, BuildingWithin sqrt x y b := ⟨b, List.getElem?_mem h2, h3⟩
    exact ⟨_, out, hd, fun _ => ⟨i, b, h2, h3, h4, rfl⟩, fun h => absurd hB h,
      fun h => absurd hB h⟩
  · have hL : ∃ l ∈ s.lines, LineWithin sqrt x y l := ⟨l, List.getElem?_mem h2, h3⟩
    exact ⟨s1, out, hd, fun h => absurd h hnb, fun _ _ => ⟨i, l, h2, h3, h4, e1⟩,
      fun _ h => absurd hL h⟩
  · exact ⟨_, _, hd, fun h => absurd h hnb, fun _ h => absurd h hnl,
      fun _ _ _ => ⟨i, r, h2, h3, h4, rfl⟩⟩
  · exact ⟨_, _, hd, fun h => absurd h hnb, fun _ h => absurd h hnl,
      fun _ _ h => absurd h hnr⟩

theorem pointDist_ten : pointDist Real.sqrt (10 : ℝ) 0 0 0 = 10 := by
  unfold pointDist
  rw [show ((10 : ℝ) - 0) ^ 2 + (0 - 0) ^ 2 = 10 ^ 2 by norm_num]
  exact Real.sqrt_sq (by norm_num)

theorem pointDist_self (x y : ℝ) : pointDist Real.sqrt x y x y = 0 := by
  unfold pointDist
  simp

theorem twoHouses_scan :
    scanDown (buildingHit Real.sqrt 0 0) (twoHouses ℝ).buildings
      (twoHouses ℝ).buildings.length = some (1, ⟨10, 0, Residential, "a"⟩) := by
  have hhit : buildingHit Real.sqrt 0 0 (⟨10, 0, Residential, "a"⟩ : StoredBuilding ℝ) = true := by
    rw [buildingHit_iff]
    unfold BuildingWithin
    rw [pointDist_ten]
    norm_num
  simp [twoHouses, scanDown, hhit]

/-- The statement C11 over the reals for deleting at `(10,10)` in the state
with one Commercial building there: the building goes, nothing else. -/
theorem C11_delete_first_category_witness :
    ∃ s1 out, deleteObject Real.sqrt (oneShop ℝ) "a" 10 10 = some (s1, out) ∧
      s1.buildings.length + 1 = (oneShop ℝ).buildings.length ∧
      s1.lines = (oneShop ℝ).lines ∧ s1.busRoutes = (oneShop ℝ).busRoutes ∧
      s1.buses = (oneShop ℝ).buses := by
  obtain ⟨s1, out, hd, h1, -⟩ := C11_delete_first_category Real.sqrt (oneShop ℝ) "a" 10 10
    (by intro r hr; simp [oneShop] at hr)
  exact ⟨s1, out, hd, (h1 ⟨⟨10, 10, Commercial, "a"⟩, by simp [oneShop], by
    unfold BuildingWithin
    rw [pointDist_self]
    norm_num⟩).2⟩

/-- The statement C12 over the reals for deleting at `(0,0)` in the state
with houses at `(0,0)` and `(10,0)`: a house within the radius with no later
house within the radius is removed. -/
theorem C12_delete_most_recent_witness :
    ∃ s1 out, deleteObject Real.sqrt (twoHouses ℝ) "a" 0 0 = some (s1, out) ∧
      ∃ i b, (twoHouses ℝ).buildings[i]? = some b ∧ BuildingWithin Real.sqrt 0 0 b ∧
        (∀ j b1, i < j → (twoHouses ℝ).buildings[j]? = some b1 →
          ¬ BuildingWithin Real.sqrt 0 0 b1) ∧
        s1.buildings = (twoHouses ℝ).buildings.eraseIdx i := by
  obtain ⟨s1, out, hd, h1, -⟩ := C12_delete_most_recent Real.sqrt (twoHouses ℝ) "a" 0 0
    (by intro r hr; simp [twoHouses] at hr)
  exact ⟨s1, out, hd, h1 ⟨⟨0, 0, Residential, "a"⟩, by simp [twoHouses], by
    unfold BuildingWithin
    rw [pointDist_self]
    norm_num⟩⟩

/-- The claim C12 fails in the state with houses at `(0,0)` and `(10,0)` for
the target `(0,0)`: both houses are within the radius 24, the house at
distance 0 is kept and the house at distance 10 is the one removed. -/
theorem C12_nearest_not_deleted :
    ∃ s1 out, deleteObject Real.sqrt (twoHouses ℝ) "a" 0 0 = some (s1, out) ∧
      s1.buildings = [⟨0, 0, Residential, "a"⟩] ∧
      BuildingWithin Real.sqrt 0 0 (⟨0, 0, Residential, "a"⟩ : StoredBuilding ℝ) ∧
      BuildingWithin Real.sqrt 0 0 (⟨10, 0, Residential, "a"⟩ : StoredBuilding ℝ) ∧
      pointDist Real.sqrt (0 : ℝ) 0 0 0 < pointDist Real.sqrt (10 : ℝ) 0 0 0 := by
  obtain ⟨out, hd⟩ := deleteObject_building Real.sqrt (twoHouses ℝ) "a" 0 0 1
    ⟨10, 0, Residential, "a"⟩ twoHouses_scan
  refine ⟨_, out, hd, ?_, ?_, ?_, ?_⟩
  · simp [twoHouses]
  · unfold BuildingWithin
    rw [pointDist_self]
    norm_num
  · unfold BuildingWithin
    rw [pointDist_ten]
    norm_num
  · rw [pointDist_self, pointDist_ten]
    norm_num

end DeleteOrder

/-! ## Stored routes stay on roads -/

section OnRoads

variable {R : Type} [LinearOrderedField R]

theorem mem_eraseIdx_of_ne {α : Type} (l : List α) (i : Nat) (a b : α)
    (ha : a ∈ l) (hb : l[i]? = some b) (hne : a ≠ b) : a ∈ l.eraseIdx i := by
  induction l generalizing i with
  | nil => simp at ha
  | cons c rest ih =>
    cases i with
    | zero =>
      simp only [List.getElem?_cons_zero, Option.some.injEq] at hb
      subst hb
      rcases List.mem_cons.1 ha with h | h
      · exact absurd h hne
      · simpa using h
    | succ k =>
      simp only [List.getElem?_cons_succ] at hb
      simp only [List.eraseIdx_cons_succ, List.mem_cons]
      rcases List.mem_cons.1 ha with h | h
      · exact Or.inl h
      · exact Or.inr (ih k h hb)

theorem routeOnRoads_mono (sqrt : R → R) (lines lines1 : List (StoredLine R))
    (nodes : List (Vector2 R))
    (hsub : ∀ l ∈ lines, l.Typ = Road → l ∈ lines1)
    (h : RouteOnRoads sqrt lines nodes) : RouteOnRoads sqrt lines1 nodes := by
  intro seg hseg p hp
  obtain ⟨l, hl, hroad, hd⟩ := h seg hseg p hp
  exact ⟨l, hsub l hl hroad, hroad, hd⟩

theorem routeOnRoads_append (sqrt : R → R) (lines : List (StoredLine R))
    (newLine : StoredLine R) (nodes : List (Vector2 R))
    (h : RouteOnRoads sqrt lines nodes) : RouteOnRoads sqrt (lines ++ [newLine]) nodes :=
  routeOnRoads_mono sqrt lines _ nodes
    (fun _ hl _ => List.mem_append.2 (Or.inl hl)) h

theorem routeOnRoads_erase_other (sqrt : R → R) (lines : List (StoredLine R)) (i : Nat)
    (l : StoredLine R) (nodes : List (Vector2 R)) (hl : lines[i]? = some l)
    (hkind : l.Typ ≠ Road) (h : RouteOnRoads sqrt lines nodes) :
    RouteOnRoads sqrt (lines.eraseIdx i) nodes :=
  routeOnRoads_mono sqrt lines _ nodes
    (fun l1 hl1 hroad => mem_eraseIdx_of_ne lines i l1 l hl1 hl
      (fun heq => hkind (heq ▸ hroad))) h

theorem storedRoutes_wellFormed (sqrt : R → R) (lines : List (StoredLine R))
    (routes : List (StoredBusRoute R)) (h : StoredRoutesOnRoads sqrt lines routes) :
    RoutesWellFormed routes := by
  intro r hr
  obtain ⟨nodes, hn, -, -⟩ := h r hr
  exact ⟨nodes, hn⟩

theorem storedRoutes_invariant (sqrt : R → R) (s : LobbyServer R)
    (h : Reachable sqrt s) : StoredRoutesOnRoads sqrt s.lines s.busRoutes := by
  refine reachable_induction sqrt (fun s => StoredRoutesOnRoads sqrt s.lines s.busRoutes)
    (by intro r hr; simp [Start] at hr) ?_ s h
  intro s e s1 hP he
  cases e with
  | I msg playerID startX startY endX endY infraType =>
    simp only [applyEvent, Option.some.injEq] at he
    subst he
    have happ : StoredRoutesOnRoads sqrt
        (s.lines ++ [⟨startX, startY, endX, endY, infraType, playerID⟩]) s.busRoutes := by
      intro r hr
      obtain ⟨nodes, h1, h2, h3⟩ := hP r hr
      exact ⟨nodes, h1, h2, routeOnRoads_append sqrt s.lines _ nodes h3⟩
    dsimp only [addInfrastructure]
    split_ifs
    · exact hP
    · exact happ
    · exact happ
  | B msg playerID x y buildingType =>
    simp only [applyEvent, Option.some.injEq] at he
    subst he
    dsimp only [addBuilding]
    split
    · exact hP
    · split_ifs <;> exact hP
  | Rt msg playerID nodes =>
    simp only [applyEvent, Option.some.injEq] at he
    subst he
    by_cases hr : RouteOnRoads sqrt s.lines nodes
    · match nodes, hr with
      | [], _ => exact hP
      | [_], _ => exact hP
      | p0 :: p1 :: more, hr =>
        rw [addBusRoute_of_onRoads sqrt s msg playerID p0 p1 more hr]
        intro r hmem
        simp only [List.mem_append, List.mem_singleton] at hmem
        rcases hmem with hmem | rfl
        · exact hP r hmem
        · exact ⟨p0 :: p1 :: more, toNodes_flattenNodes _, by simp, hr⟩
    · rw [addBusRoute_of_not_onRoads sqrt s msg playerID nodes hr]
      exact hP
  | D playerID x y =>
    obtain ⟨out, hd⟩ := deleteObject_of_apply sqrt s s1 playerID x y he
    rcases deleteObject_spec sqrt s playerID x y
        (storedRoutes_wellFormed sqrt s.lines s.busRoutes hP) with
      ⟨i, b, out1, -, -, -, -, hd1⟩ |
      ⟨-, i, l, s2, out1, -, h2, -, -, hd1, e1, -, -, e4, e5⟩ |
      ⟨-, -, i, r, -, -, -, -, hd1⟩ | ⟨-, -, -, hd1⟩
    · rw [hd1] at hd
      simp only [Option.some.injEq, Prod.mk.injEq] at hd
      rw [← hd.1]
      exact hP
    · rw [hd1] at hd
      simp only [Option.some.injEq, Prod.mk.injEq] at hd
      rw [← hd.1, e1]
      by_cases hroad : l.Typ = Road
      · rw [(e5 hroad).1]
        intro r hr
        obtain ⟨hmem, hkept⟩ := List.mem_filter.1 hr
        obtain ⟨nodes, h1, h3, -⟩ := hP r hmem
        exact ⟨nodes, h1, h3, (routeKept_iff sqrt _ r nodes h1).1 hkept⟩
      · rw [(e4 hroad).1]
        intro r hr
        obtain ⟨nodes, h1, h3, h4⟩ := hP r hr
        exact ⟨nodes, h1, h3, routeOnRoads_erase_other sqrt s.lines i l nodes h2 hroad h4⟩
    · rw [hd1] at hd
      simp only [Option.some.injEq, Prod.mk.injEq] at hd
      rw [← hd.1]
      intro r1 hr1
      exact hP r1 (List.mem_of_mem_eraseIdx hr1)
    · rw [hd1] at hd
      simp only [Option.some.injEq, Prod.mk.injEq] at hd
      rw [← hd.1]
      exact hP
  | busTick =>
    obtain ⟨out, hb⟩ := busTick_of_apply sqrt s s1 he
    obtain ⟨h1, -, h3, -, -, -⟩ := busTick_frame sqrt s s1 out hb
    rw [h1, h3]
    exact hP
  | incomeTick =>
    simp only [applyEvent, Option.some.injEq] at he
    subst he
    dsimp only [incomeTick]
    split_ifs <;> exact hP

/-- C20: stored routes are always on roads.  In every reachable server
state every stored bus route has at least 2 nodes and passes the
creation-time road validation (all five sample points of every consecutive
node pair within 8 of some Road line) against the lines stored in that same
state.  In particular a route that is on roads stays so when a line is
added and when a line that is not a Road (a Water line) is deleted;
deleting a building or a route does not touch the lines. -/
theorem C20_stored_routes_on_roads (sqrt : R → R) (s : LobbyServer R)
    (h : Reachable sqrt s) :
    (∀ r ∈ s.busRoutes, ∃ nodes, toNodes r.Points = some nodes ∧ 2 ≤ nodes.length ∧
      RouteOnRoads sqrt s.lines nodes) ∧
    (∀ (newLine : StoredLine R) (nodes : List (Vector2 R)),
      RouteOnRoads sqrt s.lines nodes → RouteOnRoads sqrt (s.lines ++ [newLine]) nodes) ∧
    (∀ (i : Nat) (l : StoredLine R) (nodes : List (Vector2 R)),
      s.lines[i]? = some l → l.Typ ≠ Road → RouteOnRoads sqrt s.lines nodes →
      RouteOnRoads sqrt (s.lines.eraseIdx i) nodes) :=
  ⟨storedRoutes_invariant sqrt s h,
   fun newLine nodes hr => routeOnRoads_append sqrt s.lines newLine nodes hr,
   fun i l nodes hl hk hr => routeOnRoads_erase_other sqrt s.lines i l nodes hl hk hr⟩

/-- The statement C20 over the reals in the state reached by buying the two
corner roads and creating the route along them. -/
theorem C20_stored_routes_on_roads_witness :
    ∃ nodes, toNodes (flattenNodes (cornerRoute ℝ)) = some nodes ∧ 2 ≤ nodes.length ∧
      RouteOnRoads Real.sqrt (cornerBus ℝ Real.sqrt).lines nodes :=
  (C20_stored_routes_on_roads Real.sqrt (cornerBus ℝ Real.sqrt) cornerBus_reachable).1
    ⟨flattenNodes (cornerRoute ℝ), "a", pathLength Real.sqrt (cornerRoute ℝ)⟩
    (by rw [cornerBus_eq]; simp)

end OnRoads

/-! ## Line reassembly in the read loop -/

section Reassembly

theorem splitOnChar_ne_nil (sep : Char) (l : List Char) : splitOnChar sep l ≠ [] := by
  cases l with
  | nil => simp [splitOnChar]
  | cons c rest =>
    unfold splitOnChar
    split_ifs
    · simp
    · split <;> simp

theorem splitOnChar_cons_sep (sep : Char) (l : List Char) :
    splitOnChar sep (sep :: l) = [] :: splitOnChar sep l := by
  simp [splitOnChar]

theorem splitOnChar_cons_other (sep c : Char) (l : List Char) (h : c ≠ sep) :
    splitOnChar sep (c :: l) = consHead c (splitOnChar sep l) := by
  rw [splitOnChar]
  simp only [h, if_false]
  cases splitOnChar sep l <;> rfl

theorem getLastD_irrelevant {α : Type} (l : List α) (h : l ≠ []) (a b : α) :
    l.getLastD a = l.getLastD b := by
  cases l with
  | nil => exact absurd rfl h
  | cons c rest => rw [List.getLastD_cons, List.getLastD_cons]

theorem splitOnChar_append (sep : Char) (a b : List Char) :
    splitOnChar sep (a ++ b) =
      (splitOnChar sep a).dropLast ++
        splitOnChar sep ((splitOnChar sep a).getLastD [] ++ b) := by
  induction a with
  | nil => simp [splitOnChar]
  | cons c rest ih =>
    rw [List.cons_append]
    by_cases hc : c = sep
    · subst hc
      rw [splitOnChar_cons_sep, splitOnChar_cons_sep, ih,
        List.dropLast_cons_of_ne_nil (splitOnChar_ne_nil _ _), List.getLastD_cons,
        getLastD_irrelevant _ (splitOnChar_ne_nil _ _) [] []]
      rfl
    · rw [splitOnChar_cons_other sep c _ hc, splitOnChar_cons_other sep c _ hc, ih]
      cases hs : splitOnChar sep rest with
      | nil => exact absurd hs (splitOnChar_ne_nil _ _)
      | cons piece more =>
        cases more with
        | nil =>
          show consHead c (splitOnChar sep (piece ++ b)) = splitOnChar sep (c :: (piece ++ b))
          rw [splitOnChar_cons_other sep c _ hc]
        | cons q m =>
          simp only [consHead, List.dropLast_cons₂, List.cons_append, List.getLastD_cons]

theorem indexByte_none (c : Char) (l : List Char) (h : indexByte c l = none) :
    splitOnChar c l = [l] := by
  induction l with
  | nil => rfl
  | cons b rest ih =>
    unfold indexByte at h
    by_cases hb : b = c
    · simp [hb] at h
    · simp only [hb, if_false, Option.map_eq_none'] at h
      rw [splitOnChar_cons_other c b _ hb, ih h]
      rfl

theorem indexByte_some (c : Char) (l : List Char) :
    ∀ idx : Nat, indexByte c l = some idx →
      idx < l.length ∧ splitOnChar c l = l.take idx :: splitOnChar c (l.drop (idx + 1)) := by
  induction l with
  | nil => intro idx h; simp [indexByte] at h
  | cons b rest ih =>
    intro idx h
    unfold indexByte at h
    by_cases hb : b = c
    · simp only [hb, if_true, Option.some.injEq] at h
      subst h
      subst hb
      exact ⟨by simp, by simp [splitOnChar_cons_sep]⟩
    · simp only [hb, if_false, Option.map_eq_some'] at h
      obtain ⟨k, hk, rfl⟩ := h
      obtain ⟨h1, h2⟩ := ih k hk
      refine ⟨by simp; omega, ?_⟩
      rw [splitOnChar_cons_other c b _ hb, h2]
      rfl

theorem extractLines_eq {R : Type} (lib : Library R) :
    ∀ (fuel : Nat) (l : List Char), l.length ≤ fuel →
      extractLines lib fuel l =
        ((completePieces l).map (fun piece => lib.TrimSpace (String.mk piece)),
          afterLastBreak l) := by
  intro fuel
  induction fuel with
  | zero =>
    intro l hl
    have : l = [] := List.length_eq_zero.1 (by omega)
    subst this
    simp [extractLines, completePieces, afterLastBreak, splitOnChar]
  | succ n ih =>
    intro l hl
    unfold extractLines
    cases hi : indexByte '\n' l with
    | none =>
      simp [completePieces, afterLastBreak, indexByte_none _ _ hi]
    | some idx =>
      obtain ⟨h1, h2⟩ := indexByte_some '\n' l idx hi
      have hlen : (l.drop (idx + 1)).length ≤ n := by
        rw [List.length_drop]
        omega
      simp only [ih _ hlen, completePieces, afterLastBreak, h2]
      rw [List.dropLast_cons_of_ne_nil (splitOnChar_ne_nil _ _), List.getLastD_cons,
        getLastD_irrelevant _ (splitOnChar_ne_nil _ _) (List.take idx l) [], List.map_cons]

theorem getLastD_append_right {α : Type} (a b : List α) (d : α) (h : b ≠ []) :
    (a ++ b).getLastD d = b.getLastD d := by
  induction a generalizing d with
  | nil => rfl
  | cons x rest ih =>
    rw [List.cons_append, List.getLastD_cons, ih,
      getLastD_irrelevant _ h x d]

theorem getLastD_mem {α : Type} (l : List α) (d : α) (h : l ≠ []) : l.getLastD d ∈ l := by
  induction l generalizing d with
  | nil => exact absurd rfl h
  | cons x rest ih =>
    rw [List.getLastD_cons]
    cases rest with
    | nil => simp
    | cons y more => exact List.mem_cons_of_mem _ (ih x (by simp))

theorem splitOnChar_piece_free (c : Char) (l : List Char) :
    ∀ piece ∈ splitOnChar c l, indexByte c piece = none := by
  induction l with
  | nil =>
    intro piece hp
    simp only [splitOnChar, List.mem_singleton] at hp
    subst hp
    rfl
  | cons b rest ih =>
    intro piece hp
    by_cases hb : b = c
    · subst hb
      rw [splitOnChar_cons_sep, List.mem_cons] at hp
      rcases hp with rfl | hp
      · rfl
      · exact ih piece hp
    · rw [splitOnChar_cons_other c b _ hb] at hp
      cases hs : splitOnChar c rest with
      | nil => exact absurd hs (splitOnChar_ne_nil _ _)
      | cons q m =>
        rw [hs] at hp ih
        simp only [consHead, List.mem_cons] at hp
        rcases hp with rfl | hp
        · have := ih q (List.mem_cons_self _ _)
          simp [indexByte, hb, this]
        · exact ih piece (List.mem_cons_of_mem _ hp)

theorem afterLastBreak_free (l : List Char) : indexByte '\n' (afterLastBreak l) = none :=
  splitOnChar_piece_free _ _ _ (getLastD_mem _ _ (splitOnChar_ne_nil _ _))

theorem readAll_eq {R : Type} (lib : Library R) (chunks : List (List Char)) :
    ∀ leftover : List Char, indexByte '\n' leftover = none →
      readAll lib leftover chunks =
        ((completePieces (leftover ++ chunks.flatten)).map
            (fun piece => lib.TrimSpace (String.mk piece)),
          afterLastBreak (leftover ++ chunks.flatten)) := by
  induction chunks with
  | nil =>
    intro leftover hfree
    rw [readAll, List.flatten_nil, List.append_nil]
    simp [completePieces, afterLastBreak, indexByte_none _ _ hfree]
  | cons chunk more ih =>
    intro leftover _
    rw [readAll]
    simp only [readChunk, extractLines_eq lib _ _ (le_refl _), ih _ (afterLastBreak_free _)]
    rw [List.flatten_cons, ← List.append_assoc]
    simp only [completePieces, afterLastBreak]
    rw [splitOnChar_append '\n' (leftover ++ chunk) more.flatten,
      List.dropLast_append_of_ne_nil _ (splitOnChar_ne_nil _ _),
      getLastD_append_right _ _ _ (splitOnChar_ne_nil _ _), List.map_append]

/-- C15: the read loop reassembles messages across chunk boundaries. For
every way of cutting the byte stream into chunks, the messages handed to
`handleMessage` are the trimmed pieces of the whole stream that end in a
line break, in order, each exactly once; what is kept as `leftover` is the
part after the last line break. In particular several messages in one
chunk are all handled, a message split over chunks is handled once when its
line break arrives, and the result is the one of reading the whole stream
as a single chunk. -/
theorem C15_messages_reassembled {R : Type} (lib : Library R) (chunks : List (List Char)) :
    readAll lib [] chunks =
        ((completePieces chunks.flatten).map (fun piece => lib.TrimSpace (String.mk piece)),
          afterLastBreak chunks.flatten) ∧
      readAll lib [] chunks = readAll lib [] [chunks.flatten] := by
  have h := readAll_eq lib chunks [] rfl
  have h1 := readAll_eq lib [chunks.flatten] [] rfl
  simp only [List.nil_append, List.flatten_cons, List.flatten_nil, List.append_nil] at h h1
  exact ⟨h, h.trans h1.symm⟩

end Reassembly

/-! ## Dispatch of malformed lines -/

section Malformed

variable {R : Type} [LinearOrderedField R]

theorem handleMessage_wrong_count (lib : Library R) (sqrt : R → R) (srv : Lobby R)
    (msg : String) (conn : Nat)
    (h : (field (splitColon msg) 0 = "I" ∧ (splitColon msg).length ≠ 7) ∨
      (field (splitColon msg) 0 = "B" ∧ (splitColon msg).length ≠ 5) ∨
      (field (splitColon msg) 0 = "D" ∧ (splitColon msg).length ≠ 4)) :
    handleMessage lib sqrt srv msg conn = some (srv, []) := by
  unfold handleMessage
  rcases h with ⟨h1, h2⟩ | ⟨h1, h2⟩ | ⟨h1, h2⟩ <;> simp [h1, h2]

theorem handleMessage_short_route (lib : Library R) (sqrt : R → R) (srv : Lobby R)
    (msg : String) (conn : Nat) (h1 : field (splitColon msg) 0 = "R")
    (h2 : (splitColon msg).length < 6) :
    handleMessage lib sqrt srv msg conn = some (srv, []) := by
  unfold handleMessage
  have h3 : ¬ 6 ≤ (splitColon msg).length := by omega
  simp [h1, h3]

theorem parseNodes_length {T : Type} (lib : Library T) :
    ∀ (n : Nat) (l : List String) (nodes : List (Vector2 T)), l.length ≤ n →
      parseNodes lib l = some (some nodes) → l.length = 2 * nodes.length := by
  intro n
  induction n with
  | zero =>
    intro l nodes hl h
    have : l = [] := List.length_eq_zero.1 (by omega)
    subst this
    simp only [parseNodes, Option.some.injEq] at h
    subst h
    rfl
  | succ n ih =>
    intro l nodes hl h
    match l, h, hl with
    | [], h, _ =>
      simp only [parseNodes, Option.some.injEq] at h
      subst h
      rfl
    | [_], h, _ => simp [parseNodes] at h
    | sx :: sy :: rest, h, hl =>
      rw [parseNodes] at h
      split_ifs at h with hok
      · cases hr : parseNodes lib rest with
        | none => rw [hr] at h; simp at h
        | some inner =>
          cases inner with
          | none => rw [hr] at h; simp at h
          | some more =>
            rw [hr] at h
            simp only [Option.some.injEq] at h
            subst h
            have := ih rest more (by simp at hl; omega) hr
            simp only [List.length_cons, this]
            omega
      · simp at h

/-- Behind the guard of `handleMessage` the check `len(nodes) < 2` of
`addBusRoute` never fires: a line of at least six fields whose coordinates
all parse has at least two nodes. -/
theorem guard_gives_two_nodes {T : Type} (lib : Library T) (parts : List String)
    (nodes : List (Vector2 T)) (hguard : 6 ≤ parts.length)
    (h : parseNodes lib (parts.drop 2) = some (some nodes)) : 2 ≤ nodes.length := by
  have := parseNodes_length lib _ _ nodes (le_refl _) h
  rw [List.length_drop] at this
  omega

/-- C13 (evaluation at the failing input): the inbound line
`B:p1:abc:7:1`, whose x field is not a number, is not dropped.  On the start
state `handleMessage` stores a Commercial building at (0, 7) for `p1`,
takes 250 from the money, raises the income rate to 5 and broadcasts the
money line and the echo of the inbound line. -/
theorem C13_unparsable_field_not_dropped (sqrt : ℚ → ℚ) (conn : Nat) :
    handleMessage decimalLibrary sqrt (lobbyOf (Start ℚ)) "B:p1:abc:7:1" conn =
      some ({ lobbyOf (Start ℚ) with
              game := { Start ℚ with
                        buildings := [{ X := 0, Y := 7, Typ := 1, PlayerID := "p1" }],
                        money := 750, incomeRate := 5 } },
        [Out.toAll (Msg.money 750), Out.toAll (Msg.raw "B:p1:abc:7:1")]) := by
  have hparts : splitColon "B:p1:abc:7:1" = ["B", "p1", "abc", "7", "1"] := by decide
  have h2 : decimalLibrary.ParseFloat "abc" = (0, false) := by decide
  have h3 : decimalLibrary.ParseFloat "7" = (7, true) := by with_unfolding_all decide
  have h4 : decimalLibrary.Atoi "1" = (1, true) := by decide
  simp only [handleMessage, hparts, field, List.getD_cons_zero, List.getD_cons_succ,
    addBuildingLine, h2, h3, h4, addBuilding, buildingPrice]
  norm_num [Start, lobbyOf, Residential, Commercial, COMMERCIAL_BUILDING_COST,
    COMMERCIAL_INCOME_INCREASE]
  rw [if_neg (by decide), if_neg (by decide), if_neg (by decide), if_neg (by decide)]

/-- The inbound line `R:p1:10:20`, a route of one node, makes
`handleMessage` change no state and make no broadcast call at all, whatever
the state and the library. -/
theorem one_node_route_line_dropped (lib : Library R) (sqrt : R → R) (srv : Lobby R)
    (conn : Nat) : handleMessage lib sqrt srv "R:p1:10:20" conn = some (srv, []) := by
  have hparts : splitColon "R:p1:10:20" = ["R", "p1", "10", "20"] := by decide
  simp [handleMessage, hparts, field]

theorem lobbyWithP1_joined (sqrt : ℚ → ℚ) :
    lobbyRun decimalLibrary sqrt (lobbyOf (Start ℚ)) [LobbyEvent.message 1 "JOIN:p1:Ann"] =
      some lobbyWithP1 := by
  have hparts : splitColon "JOIN:p1:Ann" = ["JOIN", "p1", "Ann"] := by decide
  simp [lobbyRun, lobbyStep, handleMessage, hparts, field, lobbyOf, lobbyWithP1]

/-- C14 (counterexample): no STATUS goes to the sender of a one-node route.
Player `p1` is registered on connection 1; on the line `R:p1:10:20` read
from that connection `handleMessage` makes no broadcast call at all (and
changes no state). -/
theorem C14_no_status_for_one_node :
    (lobbyWithP1.players "p1").map (fun p => p.Conn) = some 1 ∧
      handleMessage decimalLibrary (fun x => x) lobbyWithP1 "R:p1:10:20" 1 =
        some (lobbyWithP1, []) := by
  refine ⟨rfl, ?_⟩
  have hparts : splitColon "R:p1:10:20" = ["R", "p1", "10", "20"] := by decide
  simp [handleMessage, hparts, field]

/-- C14 (amended): a route line with too few nodes is malformed input,
dropped silently.  For every inbound `R` line of fewer than six fields,
that is with fewer than two nodes, `handleMessage` changes no state and
makes no broadcast call: no STATUS and nothing else is sent. -/
theorem C14_short_route_dropped (lib : Library R) (sqrt : R → R) (srv : Lobby R)
    (msg : String) (conn : Nat) (hR : field (splitColon msg) 0 = "R")
    (hshort : (splitColon msg).length < 6) :
    handleMessage lib sqrt srv msg conn = some (srv, []) := by
  unfold handleMessage
  have hguard : ¬ 6 ≤ (splitColon msg).length := by omega
  simp [hR, hguard]

theorem C14_short_route_dropped_witness :
    field (splitColon "R:p1:10:20") 0 = "R" ∧ (splitColon "R:p1:10:20").length < 6 ∧
      handleMessage decimalLibrary (fun x => x) lobbyWithP1 "R:p1:10:20" 1 =
        some (lobbyWithP1, []) :=
  ⟨by decide, by decide,
    C14_short_route_dropped decimalLibrary (fun x => x) lobbyWithP1 "R:p1:10:20" 1
      (by decide) (by decide)⟩

end Malformed

/-! ## The full-state resend and the client mirror -/

section Resend

theorem splitOnChar_free (sep : Char) (p : List Char) (h : sep ∉ p) :
    splitOnChar sep p = [p] := by
  induction p with
  | nil => rfl
  | cons c rest ih =>
    have hc : c ≠ sep := fun e => h (by simp [e])
    rw [splitOnChar_cons_other sep c _ hc, ih (fun hm => h (List.mem_cons_of_mem _ hm))]
    rfl

theorem splitOnChar_piece (sep : Char) (p rest : List Char) (h : sep ∉ p) :
    splitOnChar sep (p ++ sep :: rest) = p :: splitOnChar sep rest := by
  induction p with
  | nil => exact splitOnChar_cons_sep sep rest
  | cons c more ih =>
    have hc : c ≠ sep := fun e => h (by simp [e])
    rw [List.cons_append, splitOnChar_cons_other sep c _ hc,
      ih (fun hm => h (List.mem_cons_of_mem _ hm))]
    rfl

theorem splitOnChar_joinChars (pieces : List (List Char)) (hne : pieces ≠ [])
    (h : ∀ p ∈ pieces, ':' ∉ p) : splitOnChar ':' (joinChars pieces) = pieces := by
  induction pieces with
  | nil => exact absurd rfl hne
  | cons p more ih =>
    cases more with
    | nil => exact splitOnChar_free _ _ (h p (List.mem_cons_self _ _))
    | cons q rest =>
      show splitOnChar ':' (p ++ ':' :: joinChars (q :: rest)) = _
      rw [splitOnChar_piece _ _ _ (h p (List.mem_cons_self _ _)),
        ih (by simp) (fun x hx => h x (List.mem_cons_of_mem _ hx))]

theorem splitColon_joinColon (fields : List String) (hne : fields ≠ [])
    (h : ∀ f ∈ fields, ':' ∉ f.data) : splitColon (joinColon fields) = fields := by
  unfold splitColon joinColon
  rw [splitOnChar_joinChars _ (by simpa using hne)
    (by
      intro p hp
      obtain ⟨f, hf, rfl⟩ := List.mem_map.1 hp
      exact h f hf)]
  rw [List.map_map]
  exact List.map_id _

theorem writeEach_eq {α : Type} (f : α → String) (l : List α) :
    ∀ written, writeEach f l written = written ++ l.map f := by
  induction l with
  | nil => intro written; simp [writeEach]
  | cons a rest ih => intro written; simp [writeEach, ih]

theorem writeBuses_eq {R : Type} [LinearOrderedField R] (lib : Library R)
    (buses : List (Bus R)) :
    ∀ (i : Nat) (written : List String),
      writeBuses lib i buses written =
        written ++ (buses.enumFrom i).map fun ib => busPosMsg lib ib.1 ib.2 := by
  induction buses with
  | nil => intro i written; simp [writeBuses]
  | cons b rest ih => intro i written; simp [writeBuses, ih, List.enumFrom]

theorem sendFullState_eq {R : Type} [LinearOrderedField R] (lib : Library R)
    (s : LobbyServer R) :
    sendFullState lib s =
      s.lines.map (lineMsg lib) ++ s.buildings.map (bMsg lib) ++
        s.busRoutes.map (routeMsg lib) ++
        ((s.buses.enumFrom 0).map fun ib => busPosMsg lib ib.1 ib.2) ++
        ["STATE_SYNCED\n"] := by
  simp [sendFullState, writeEach_eq, writeBuses_eq]

theorem joinChars_tail (b : List Char) (rest : List (List Char)) :
    joinChars (b :: rest) = b ++ (rest.map fun p => ':' :: p).flatten := by
  induction rest generalizing b with
  | nil => simp [joinChars]
  | cons q more ih =>
    show b ++ ':' :: joinChars (q :: more) = _
    rw [ih]
    simp

theorem routeFold_data {R : Type} (lib : Library R) (pts : List R) :
    ∀ acc : String,
      (pts.foldl (fun acc p => acc ++ ":" ++ lib.Fmt0 p) acc).data =
        acc.data ++ (pts.map fun p => ':' :: (lib.Fmt0 p).data).flatten := by
  induction pts with
  | nil => intro acc; simp
  | cons p rest ih =>
    intro acc
    rw [List.foldl_cons, ih]
    simp [String.data_append]

theorem routeMsg_eq {R : Type} [LinearOrderedField R] (lib : Library R)
    (r : StoredBusRoute R) :
    routeMsg lib r = joinColon ("R" :: r.PlayerID :: r.Points.map lib.Fmt0) ++ "\n" := by
  unfold routeMsg
  congr 1
  apply String.ext
  rw [routeFold_data]
  simp [joinColon, joinChars_tail, String.data_append, List.map_map, Function.comp_def]

theorem trimsBreak_body {R : Type} (lib : Library R) (body : String)
    (h : TrimsBreak lib (body ++ "\n")) : lib.TrimSpace (body ++ "\n") = body := by
  rw [h]
  apply String.ext
  simp [String.data_append]

theorem joinColon_ne_empty (a b : String) (rest : List String) :
    joinColon (a :: b :: rest) ≠ "" := by
  intro h
  have := congrArg String.data h
  simp [joinColon, joinChars_tail] at this

theorem listen_step {R : Type} [LinearOrderedField R] (lib : Library R)
    (c c1 : LobbyClient R) (body : String) (more : List String)
    (htrim : TrimsBreak lib (body ++ "\n")) (hne : body ≠ "")
    (hh : clientHandle lib c body = some c1) :
    listen lib c ((body ++ "\n") :: more) = listen lib c1 more := by
  rw [listen]
  simp only [trimsBreak_body lib body htrim, hne, if_false, hh]

theorem clientHandle_line {R : Type} [LinearOrderedField R] (lib : Library R)
    (c : LobbyClient R) (l : StoredLine R) (hid : ':' ∉ l.PlayerID.data)
    (h1 : ReadableCoord lib l.StartX) (h2 : ReadableCoord lib l.StartY)
    (h3 : ReadableCoord lib l.EndX) (h4 : ReadableCoord lib l.EndY)
    (h5 : ReadableInt lib l.Typ) :
    clientHandle lib c (joinColon ["I", l.PlayerID, lib.Fmt0 l.StartX, lib.Fmt0 l.StartY,
        lib.Fmt0 l.EndX, lib.Fmt0 l.EndY, lib.FmtInt l.Typ]) =
      some { c with CityLines := c.CityLines ++ [cityLineOf (wire lib) l] } := by
  have hsplit := splitColon_joinColon ["I", l.PlayerID, lib.Fmt0 l.StartX,
    lib.Fmt0 l.StartY, lib.Fmt0 l.EndX, lib.Fmt0 l.EndY, lib.FmtInt l.Typ] (by simp)
    (by
      intro f hf
      simp only [List.mem_cons, List.mem_singleton, List.not_mem_nil, or_false] at hf
      rcases hf with rfl | rfl | rfl | rfl | rfl | rfl | rfl
      · decide
      · exact hid
      · exact h1.2
      · exact h2.2
      · exact h3.2
      · exact h4.2
      · exact h5.2)
  unfold clientHandle
  simp [hsplit, field, h1.1, h2.1, h3.1, h4.1, h5.1, cityLineOf, wire]

theorem clientHandle_building {R : Type} [LinearOrderedField R] (lib : Library R)
    (c : LobbyClient R) (b : StoredBuilding R) (hid : ':' ∉ b.PlayerID.data)
    (h1 : ReadableCoord lib b.X) (h2 : ReadableCoord lib b.Y)
    (h3 : ReadableInt lib b.Typ) :
    clientHandle lib c (joinColon ["B", b.PlayerID, lib.Fmt0 b.X, lib.Fmt0 b.Y,
        lib.FmtInt b.Typ]) =
      some { c with Buildings := c.Buildings ++ [buildingOf (wire lib) b] } := by
  have hsplit := splitColon_joinColon ["B", b.PlayerID, lib.Fmt0 b.X, lib.Fmt0 b.Y,
    lib.FmtInt b.Typ] (by simp)
    (by
      intro f hf
      simp only [List.mem_cons, List.mem_singleton, List.not_mem_nil, or_false] at hf
      rcases hf with rfl | rfl | rfl | rfl | rfl
      · decide
      · exact hid
      · exact h1.2
      · exact h2.2
      · exact h3.2)
  unfold clientHandle
  simp [hsplit, field, h1.1, h2.1, h3.1, buildingOf, wire]

theorem parseNodes_printed {R : Type} (lib : Library R) :
    ∀ (k : Nat) (pts : List R), pts.length = 2 * k →
      (∀ v ∈ pts, ReadableCoord lib v) →
      parseNodes lib (pts.map lib.Fmt0) = some (some (nodesOf (wire lib) pts)) := by
  intro k
  induction k with
  | zero =>
    intro pts hlen _
    have : pts = [] := List.length_eq_zero.1 (by omega)
    subst this
    rfl
  | succ k ih =>
    intro pts hlen hr
    match pts, hlen, hr with
    | [], hlen, _ => simp at hlen
    | [_], hlen, _ => simp at hlen; omega
    | x :: y :: rest, hlen, hr =>
      have hx := hr x (by simp)
      have hy := hr y (by simp)
      have hrest := ih rest (by simp at hlen; omega)
        (fun v hv => hr v (List.mem_cons_of_mem _ (List.mem_cons_of_mem _ hv)))
      simp only [List.map_cons, parseNodes, hx.1, hy.1, and_self, if_true, hrest, nodesOf,
        wire]

theorem nodesOf_length {R : Type} (w : R → R) :
    ∀ (k : Nat) (pts : List R), pts.length = 2 * k → (nodesOf w pts).length = k := by
  intro k
  induction k with
  | zero =>
    intro pts hlen
    have : pts = [] := List.length_eq_zero.1 (by omega)
    subst this
    rfl
  | succ k ih =>
    intro pts hlen
    match pts, hlen with
    | [], hlen => simp at hlen
    | [_], hlen => simp at hlen; omega
    | x :: y :: rest, hlen =>
      simp only [nodesOf, List.length_cons, ih rest (by simp at hlen; omega)]

theorem clientHandle_route {R : Type} [LinearOrderedField R] (lib : Library R)
    (c : LobbyClient R) (r : StoredBusRoute R) (hid : ':' ∉ r.PlayerID.data)
    (hpts : ∀ v ∈ r.Points, ReadableCoord lib v)
    (hlen : 4 ≤ r.Points.length ∧ r.Points.length % 2 = 0) :
    clientHandle lib c (joinColon ("R" :: r.PlayerID :: r.Points.map lib.Fmt0)) =
      some { c with
        BusRoutes := c.BusRoutes ++ [busRouteOf (wire lib) (fun _ => 0) r] } := by
  have hsplit := splitColon_joinColon ("R" :: r.PlayerID :: r.Points.map lib.Fmt0)
    (by simp)
    (by
      intro f hf
      simp only [List.mem_cons, List.mem_map] at hf
      rcases hf with rfl | rfl | ⟨v, hv, rfl⟩
      · decide
      · exact hid
      · exact (hpts v hv).2)
  obtain ⟨k, hk⟩ : ∃ k, r.Points.length = 2 * k := ⟨r.Points.length / 2, by omega⟩
  have hparse := parseNodes_printed lib k r.Points hk hpts
  have hnodes := nodesOf_length (wire lib) k r.Points hk
  have h2 : 2 ≤ (nodesOf (wire lib) r.Points).length := by omega
  have hguard : 6 ≤ r.Points.length + 1 + 1 ∧ (r.Points.length + 1 + 1 - 2) % 2 = 0 :=
    ⟨by omega, by omega⟩
  unfold clientHandle
  simp [hsplit, field, hparse, h2, hguard, busRouteOf, hlen.2]

theorem growBuses_stop {R : Type} [LinearOrderedField R] (busID : Int) (fuel : Nat)
    (buses : List (Bus R)) (h : ¬ (buses.length : Int) ≤ busID) :
    growBuses busID fuel buses = buses := by
  cases fuel with
  | zero => rfl
  | succ n => simp [growBuses, h]

theorem clientHandle_bus {R : Type} [LinearOrderedField R] (lib : Library R)
    (c : LobbyClient R) (i : Nat) (bus : Bus R) (hlen : c.Buses.length = i)
    (hi : ReadableInt lib (i : Int)) (hx : ReadableCoord lib bus.Position.X)
    (hy : ReadableCoord lib bus.Position.Y) :
    clientHandle lib c (joinColon ["BUS", lib.FmtInt (i : Int), lib.Fmt0 bus.Position.X,
        lib.Fmt0 bus.Position.Y]) =
      some { c with Buses := c.Buses ++ printedBuses (wire lib) i [bus] } := by
  have hsplit := splitColon_joinColon ["BUS", lib.FmtInt (i : Int),
    lib.Fmt0 bus.Position.X, lib.Fmt0 bus.Position.Y] (by simp)
    (by
      intro f hf
      simp only [List.mem_cons, List.mem_singleton, List.not_mem_nil, or_false] at hf
      rcases hf with rfl | rfl | rfl | rfl
      · decide
      · exact hi.2
      · exact hx.2
      · exact hy.2)
  have hfuel : ((i : Int) + 1).toNat = i + 1 := by omega
  have hgrow : growBuses (i : Int) (i + 1) c.Buses = c.Buses ++ [zeroBus] := by
    rw [growBuses, if_pos (by rw [hlen]), growBuses_stop]
    rw [List.length_append, hlen]
    simp
  have hget : (c.Buses ++ [zeroBus])[i]? = some zeroBus := by
    rw [← hlen]
    simp
  unfold clientHandle
  simp only [hsplit, field, List.getD_cons_zero, List.getD_cons_succ, hi.1, hx.1, hy.1,
    hfuel, hgrow, hget]
  subst hlen
  simp [printedBuses, zeroBus, wire]

theorem listen_lines {R : Type} [LinearOrderedField R] (lib : Library R)
    (more : List String) (ls : List (StoredLine R)) :
    ∀ c : LobbyClient R,
      (∀ l ∈ ls, ':' ∉ l.PlayerID.data ∧ ReadableCoord lib l.StartX ∧
        ReadableCoord lib l.StartY ∧ ReadableCoord lib l.EndX ∧ ReadableCoord lib l.EndY ∧
        ReadableInt lib l.Typ ∧ TrimsBreak lib (lineMsg lib l)) →
      listen lib c (ls.map (lineMsg lib) ++ more) =
        listen lib { c with CityLines := c.CityLines ++ ls.map (cityLineOf (wire lib)) }
          more := by
  induction ls with
  | nil => intro c _; simp
  | cons l rest ih =>
    intro c h
    obtain ⟨hid, h1, h2, h3, h4, h5, ht⟩ := h l (List.mem_cons_self _ _)
    rw [List.map_cons, List.cons_append,
      show lineMsg lib l = joinColon ["I", l.PlayerID, lib.Fmt0 l.StartX, lib.Fmt0 l.StartY,
        lib.Fmt0 l.EndX, lib.Fmt0 l.EndY, lib.FmtInt l.Typ] ++ "\n" from rfl,
      listen_step lib c _ _ _ ht (joinColon_ne_empty _ _ _)
      (clientHandle_line lib c l hid h1 h2 h3 h4 h5),
      ih _ (fun x hx => h x (List.mem_cons_of_mem _ hx))]
    simp

theorem listen_buildings {R : Type} [LinearOrderedField R] (lib : Library R)
    (more : List String) (bs : List (StoredBuilding R)) :
    ∀ c : LobbyClient R,
      (∀ b ∈ bs, ':' ∉ b.PlayerID.data ∧ ReadableCoord lib b.X ∧ ReadableCoord lib b.Y ∧
        ReadableInt lib b.Typ ∧ TrimsBreak lib (bMsg lib b)) →
      listen lib c (bs.map (bMsg lib) ++ more) =
        listen lib { c with Buildings := c.Buildings ++ bs.map (buildingOf (wire lib)) }
          more := by
  induction bs with
  | nil => intro c _; simp
  | cons b rest ih =>
    intro c h
    obtain ⟨hid, h1, h2, h3, ht⟩ := h b (List.mem_cons_self _ _)
    rw [List.map_cons, List.cons_append,
      show bMsg lib b = joinColon ["B", b.PlayerID, lib.Fmt0 b.X, lib.Fmt0 b.Y,
        lib.FmtInt b.Typ] ++ "\n" from rfl,
      listen_step lib c _ _ _ ht (joinColon_ne_empty _ _ _)
      (clientHandle_building lib c b hid h1 h2 h3),
      ih _ (fun x hx => h x (List.mem_cons_of_mem _ hx))]
    simp

theorem listen_routes {R : Type} [LinearOrderedField R] (lib : Library R)
    (more : List String) (rs : List (StoredBusRoute R)) :
    ∀ c : LobbyClient R,
      (∀ r ∈ rs, ':' ∉ r.PlayerID.data ∧ (∀ v ∈ r.Points, ReadableCoord lib v) ∧
        (4 ≤ r.Points.length ∧ r.Points.length % 2 = 0) ∧
        TrimsBreak lib (routeMsg lib r)) →
      listen lib c (rs.map (routeMsg lib) ++ more) =
        listen lib
          { c with
            BusRoutes := c.BusRoutes ++ rs.map (busRouteOf (wire lib) fun _ => 0) }
          more := by
  induction rs with
  | nil => intro c _; simp
  | cons r rest ih =>
    intro c h
    obtain ⟨hid, hpts, hlen, ht⟩ := h r (List.mem_cons_self _ _)
    rw [routeMsg_eq] at ht
    rw [List.map_cons, List.cons_append, routeMsg_eq lib r,
      listen_step lib c _ _ _ ht (joinColon_ne_empty _ _ _)
      (clientHandle_route lib c r hid hpts hlen),
      ih _ (fun x hx => h x (List.mem_cons_of_mem _ hx))]
    simp

theorem listen_buses {R : Type} [LinearOrderedField R] (lib : Library R)
    (more : List String) (bs : List (Bus R)) :
    ∀ (i : Nat) (c : LobbyClient R), c.Buses.length = i →
      (∀ j : Nat, i ≤ j → j < i + bs.length → ReadableInt lib (j : Int)) →
      (∀ b ∈ bs, ReadableCoord lib b.Position.X ∧ ReadableCoord lib b.Position.Y) →
      (∀ m ∈ (bs.enumFrom i).map (fun ib => busPosMsg lib ib.1 ib.2), TrimsBreak lib m) →
      listen lib c ((bs.enumFrom i).map (fun ib => busPosMsg lib ib.1 ib.2) ++ more) =
        listen lib { c with Buses := c.Buses ++ printedBuses (wire lib) i bs } more := by
  induction bs with
  | nil => intro i c _ _ _ _; simp [printedBuses]
  | cons b rest ih =>
    intro i c hlen hint hpos htrim
    have ht : TrimsBreak lib (busPosMsg lib i b) := htrim _ (by simp [List.enumFrom])
    obtain ⟨hx, hy⟩ := hpos b (List.mem_cons_self _ _)
    have hi := hint i (le_refl _) (by simp)
    rw [List.enumFrom, List.map_cons, List.cons_append]
    unfold busPosMsg at ht
    rw [show busPosMsg lib (i, b).1 (i, b).2 = joinColon ["BUS", lib.FmtInt (i : Int),
        lib.Fmt0 b.Position.X, lib.Fmt0 b.Position.Y] ++ "\n" from rfl,
      listen_step lib c _ _ _ ht (joinColon_ne_empty _ _ _)
        (clientHandle_bus lib c i b hlen hi hx hy),
      ih (i + 1) _ (by simp [printedBuses, hlen])
        (fun j h1 h2 => hint j (by omega) (by simp at h2 ⊢; omega))
        (fun x hx => hpos x (List.mem_cons_of_mem _ hx))
        (fun m hm => htrim m (by
          rw [List.enumFrom, List.map_cons]
          exact List.mem_cons_of_mem _ hm))]
    simp [printedBuses]

theorem listen_synced {R : Type} [LinearOrderedField R] (lib : Library R)
    (c : LobbyClient R) (ht : TrimsBreak lib "STATE_SYNCED\n") :
    listen lib c ["STATE_SYNCED\n"] = some c := by
  have hsplit : splitColon "STATE_SYNCED" = ["STATE_SYNCED"] := by decide
  have hh : clientHandle lib c "STATE_SYNCED" = some c := by
    unfold clientHandle
    simp [hsplit, field]
  have := listen_step lib c c "STATE_SYNCED" [] ht (by decide) hh
  rw [listen] at this
  exact this

theorem listen_sendFullState {R : Type} [LinearOrderedField R] (lib : Library R)
    (s : LobbyServer R) (c : LobbyClient R) (hR : Readable lib s)
    (hT : TwoNodeRoutes s.busRoutes) (hb : c.Buses = []) :
    listen lib c (sendFullState lib s) =
      some { c with
        CityLines := c.CityLines ++ s.lines.map (cityLineOf (wire lib)),
        Buildings := c.Buildings ++ s.buildings.map (buildingOf (wire lib)),
        BusRoutes := c.BusRoutes ++ s.busRoutes.map (busRouteOf (wire lib) fun _ => 0),
        Buses := printedBuses (wire lib) 0 s.buses } := by
  obtain ⟨hc, hi, hid, ht⟩ := hR
  rw [sendFullState_eq] at ht ⊢
  simp only [List.append_assoc]
  rw [listen_lines lib _ s.lines c, listen_buildings lib _ s.buildings,
    listen_routes lib _ s.busRoutes, listen_buses lib _ s.buses 0, listen_synced]
  · simp [hb]
  · exact ht _ (by simp)
  · simp [hb]
  · intro j _ hj
    exact hi _ (by
      simp only [intsOf, List.mem_append, List.mem_map, List.mem_range]
      exact Or.inr ⟨j, by omega, rfl⟩)
  · intro b hb1
    exact ⟨hc _ (by
        simp only [coordsOf, List.mem_append, List.mem_flatten, List.mem_map]
        exact Or.inr ⟨_, ⟨b, hb1, rfl⟩, by simp⟩),
      hc _ (by
        simp only [coordsOf, List.mem_append, List.mem_flatten, List.mem_map]
        exact Or.inr ⟨_, ⟨b, hb1, rfl⟩, by simp⟩)⟩
  · intro m hm
    exact ht m (by simp only [List.mem_append]; tauto)
  · intro r hr
    refine ⟨hid _ (by simp only [idsOf, List.mem_append, List.mem_map]; exact Or.inr ⟨r, hr, rfl⟩),
      fun v hv => hc v (by
        simp only [coordsOf, List.mem_append, List.mem_flatten, List.mem_map]
        exact Or.inl (Or.inr ⟨_, ⟨r, hr, rfl⟩, hv⟩)),
      hT r hr, ht _ (by
        simp only [List.mem_append, List.mem_map]
        exact Or.inl (Or.inl (Or.inr ⟨r, hr, rfl⟩)))⟩
  · intro b hb1
    have hmem : ∀ v ∈ [b.X, b.Y], v ∈ coordsOf s := by
      intro v hv
      simp only [coordsOf, List.mem_append, List.mem_flatten, List.mem_map]
      exact Or.inl (Or.inl (Or.inr ⟨_, ⟨b, hb1, rfl⟩, hv⟩))
    refine ⟨hid _ (by
        simp only [idsOf, List.mem_append, List.mem_map]
        exact Or.inl (Or.inr ⟨b, hb1, rfl⟩)),
      hc _ (hmem _ (by simp)), hc _ (hmem _ (by simp)),
      hi _ (by
        simp only [intsOf, List.mem_append, List.mem_map]
        exact Or.inl (Or.inr ⟨b, hb1, rfl⟩)),
      ht _ (by
        simp only [List.mem_append, List.mem_map]
        exact Or.inl (Or.inl (Or.inl (Or.inr ⟨b, hb1, rfl⟩))))⟩
  · intro l hl
    have hmem : ∀ v ∈ [l.StartX, l.StartY, l.EndX, l.EndY], v ∈ coordsOf s := by
      intro v hv
      simp only [coordsOf, List.mem_append, List.mem_flatten, List.mem_map]
      exact Or.inl (Or.inl (Or.inl ⟨_, ⟨l, hl, rfl⟩, hv⟩))
    refine ⟨hid _ (by
        simp only [idsOf, List.mem_append, List.mem_map]
        exact Or.inl (Or.inl ⟨l, hl, rfl⟩)),
      hc _ (hmem _ (by simp)), hc _ (hmem _ (by simp)), hc _ (hmem _ (by simp)),
      hc _ (hmem _ (by simp)),
      hi _ (by
        simp only [intsOf, List.mem_append, List.mem_map]
        exact Or.inl (Or.inl ⟨l, hl, rfl⟩)),
      ht _ (by
        simp only [List.mem_append, List.mem_map]
        exact Or.inl (Or.inl (Or.inl (Or.inl ⟨l, hl, rfl⟩))))⟩

theorem sampleTown_readable : Readable decimalLibrary sampleTown := by
  unfold Readable ReadableCoord ReadableInt TrimsBreak
  with_unfolding_all decide

theorem sampleTown_twoNodeRoutes : TwoNodeRoutes sampleTown.busRoutes := by
  intro r hr
  simp only [sampleTown, List.mem_singleton] at hr
  subst hr
  exact ⟨by simp, by simp⟩

/-- C16 (counterexample): the mirror built from the full-state resend of
`sampleTown` is not the server's state field for field.  The road that the
server stores from x = 1/2 starts at x = 0 in the mirror, the route of
stored length 200 has length 0, and the bus stored at (5/2, 0) with
progress 1/80 and direction 1 is at (2, 0) with progress 0 and direction 0. -/
theorem C16_mirror_not_field_for_field :
    ∃ m, listen decimalLibrary (emptyClient ℚ) (sendFullState decimalLibrary sampleTown) =
        some m ∧
      ¬ FaithfulMirror sampleTown m ∧
      m.CityLines = [⟨⟨0, 0⟩, ⟨200, 0⟩, Road, "a"⟩] ∧
      m.BusRoutes = [⟨[⟨0, 0⟩, ⟨200, 0⟩], "a", 0⟩] ∧
      m.Buses = [⟨⟨2, 0⟩, 0, 0, 0, 0⟩] := by
  have hw0 : wire decimalLibrary (0 : ℚ) = 0 := by with_unfolding_all decide
  have hw1 : wire decimalLibrary (2⁻¹ : ℚ) = 0 := by with_unfolding_all decide
  have hw2 : wire decimalLibrary (200 : ℚ) = 200 := by with_unfolding_all decide
  have hw3 : wire decimalLibrary (5 / 2 : ℚ) = 2 := by with_unfolding_all decide
  have hbuses : printedBuses (wire decimalLibrary) 0 sampleTown.buses =
      [⟨⟨2, 0⟩, 0, 0, 0, 0⟩] := by
    simp [printedBuses, sampleTown, hw0, hw3]
  refine ⟨_, listen_sendFullState decimalLibrary sampleTown (emptyClient ℚ)
    sampleTown_readable sampleTown_twoNodeRoutes rfl, ?_, ?_, ?_, hbuses⟩
  · intro hF
    have h := hF.2.2.2
    rw [show (_ : LobbyClient ℚ).Buses = printedBuses (wire decimalLibrary) 0
      sampleTown.buses from rfl, hbuses] at h
    simp [sampleTown] at h
  · simp [emptyClient, sampleTown, cityLineOf, hw0, hw1, hw2]
  · simp [emptyClient, sampleTown, busRouteOf, nodesOf, hw0, hw2]

/-- C16 (amended): the messages written by `sendFullState` are one `I`
line per stored line, then one `B` line per building, one `R` line per
route and one `BUS` line per bus, each in stored order, then
`STATE_SYNCED`.  When the library prints the stored numbers and ids
readably and every route has at least two nodes, a client whose four lists
are empty handles that sequence without a panic and ends with the mirror
that the lines carry: lines, buildings and route nodes with every
coordinate as `%.0f` prints it, every route with length 0, and per bus its
printed position, its index as `RouteID` and zero in the other fields;
cursors and money are untouched. -/
theorem C16_full_state_snapshot {R : Type} [LinearOrderedField R] (lib : Library R)
    (s : LobbyServer R) (c : LobbyClient R) (hR : Readable lib s)
    (hT : TwoNodeRoutes s.busRoutes)
    (hempty : c.CityLines = [] ∧ c.Buildings = [] ∧ c.BusRoutes = [] ∧ c.Buses = []) :
    sendFullState lib s =
        s.lines.map (lineMsg lib) ++ s.buildings.map (bMsg lib) ++
          s.busRoutes.map (routeMsg lib) ++
          ((s.buses.enumFrom 0).map fun ib => busPosMsg lib ib.1 ib.2) ++
          ["STATE_SYNCED\n"] ∧
      ∃ m, listen lib c (sendFullState lib s) = some m ∧ PrintedMirror lib s m ∧
        m.OtherCursors = c.OtherCursors ∧ m.Money = c.Money := by
  refine ⟨sendFullState_eq lib s, _, listen_sendFullState lib s c hR hT hempty.2.2.2, ?_,
    rfl, rfl⟩
  simp [PrintedMirror, hempty.1, hempty.2.1, hempty.2.2.1]

theorem C16_full_state_snapshot_witness :
    Readable decimalLibrary sampleTown ∧ TwoNodeRoutes sampleTown.busRoutes ∧
      (sendFullState decimalLibrary sampleTown =
          sampleTown.lines.map (lineMsg decimalLibrary) ++
            sampleTown.buildings.map (bMsg decimalLibrary) ++
            sampleTown.busRoutes.map (routeMsg decimalLibrary) ++
            ((sampleTown.buses.enumFrom 0).map fun ib =>
              busPosMsg decimalLibrary ib.1 ib.2) ++
            ["STATE_SYNCED\n"] ∧
        ∃ m, listen decimalLibrary (emptyClient ℚ)
            (sendFullState decimalLibrary sampleTown) = some m ∧
          PrintedMirror decimalLibrary sampleTown m ∧
          m.OtherCursors = (emptyClient ℚ).OtherCursors ∧ m.Money = (emptyClient ℚ).Money) :=
  ⟨sampleTown_readable, sampleTown_twoNodeRoutes,
    C16_full_state_snapshot decimalLibrary sampleTown (emptyClient ℚ) sampleTown_readable
      sampleTown_twoNodeRoutes ⟨rfl, rfl, rfl, rfl⟩⟩

theorem flattenNodes_length {T : Type} (nodes : List (Vector2 T)) :
    (flattenNodes nodes).length = 2 * nodes.length := by
  induction nodes with
  | nil => rfl
  | cons a rest ih => simp only [flattenNodes, List.length_cons, ih]; omega

/-- Every route that the server stores has at least two nodes: the routes
hypothesis of the resend theorem holds in every reachable state. -/
theorem twoNodeRoutes_invariant {R : Type} [LinearOrderedField R] (sqrt : R → R)
    (s : LobbyServer R) (h : Reachable sqrt s) : TwoNodeRoutes s.busRoutes := by
  refine reachable_induction sqrt (fun s => TwoNodeRoutes s.busRoutes)
    (by intro r hr; simp [Start] at hr) ?_ s h
  intro s e s1 hP he
  cases e with
  | I msg playerID startX startY endX endY infraType =>
    simp only [applyEvent, Option.some.injEq] at he
    subst he
    dsimp only [addInfrastructure]
    split_ifs <;> exact hP
  | B msg playerID x y buildingType =>
    simp only [applyEvent, Option.some.injEq] at he
    subst he
    dsimp only [addBuilding]
    split
    · exact hP
    · split_ifs <;> exact hP
  | Rt msg playerID nodes =>
    simp only [applyEvent, Option.some.injEq] at he
    subst he
    by_cases hr : RouteOnRoads sqrt s.lines nodes
    · match nodes, hr with
      | [], _ => exact hP
      | [_], _ => exact hP
      | p0 :: p1 :: more, hr =>
        rw [addBusRoute_of_onRoads sqrt s msg playerID p0 p1 more hr]
        intro r hmem
        simp only [List.mem_append, List.mem_singleton] at hmem
        rcases hmem with hmem | rfl
        · exact hP r hmem
        · simp only [flattenNodes_length, List.length_cons]
          exact ⟨by omega, by omega⟩
    · rw [addBusRoute_of_not_onRoads sqrt s msg playerID nodes hr]
      exact hP
  | D playerID x y =>
    obtain ⟨out, hd⟩ := deleteObject_of_apply sqrt s s1 playerID x y he
    rcases deleteObject_cases sqrt s s1 playerID x y out hd with
      ⟨i, b, -, rfl⟩ | ⟨i, l, toPrune, -, -, -, rfl⟩ | ⟨i, rfl⟩ | ⟨i, rfl⟩ | rfl
    · exact hP
    · intro r hmem
      exact hP r (pruneLoop_subset toPrune.reverse (s.busRoutes, s.buses) r hmem)
    · exact hP
    · intro r hmem
      exact hP r (List.mem_of_mem_eraseIdx hmem)
    · exact hP
  | busTick =>
    obtain ⟨out, hb⟩ := busTick_of_apply sqrt s s1 he
    obtain ⟨-, -, h3, -, -, -⟩ := busTick_frame sqrt s s1 out hb
    rw [h3]
    exact hP
  | incomeTick =>
    simp only [applyEvent, Option.some.injEq] at he
    subst he
    dsimp only [incomeTick]
    split_ifs <;> exact hP

end Resend

/-! ## The two player tables -/

section PlayerTables

variable {R : Type} [LinearOrderedField R]

theorem handleMessage_tables (lib : Library R) (sqrt : R → R) (srv srv1 : Lobby R)
    (msg : String) (conn : Nat) (out : List (Out R))
    (h : handleMessage lib sqrt srv msg conn = some (srv1, out)) :
    (srv1.players = srv.players ∧ srv1.playerConns = srv.playerConns) ∨
      (field (splitColon msg) 0 = "JOIN" ∧ (splitColon msg).length = 3 ∧
        srv1.players = (fun k => if k = field (splitColon msg) 1 then
          some { Conn := conn, ID := field (splitColon msg) 1,
                 Name := field (splitColon msg) 2 } else srv.players k) ∧
        srv1.playerConns = fun c => if c = conn then some (field (splitColon msg) 1)
          else srv.playerConns c) := by
  unfold handleMessage at h
  dsimp only at h
  split_ifs at h with h1 h2 h3 h4 h5 h6 h7 h8 h9 h10 h11 h12 h13
  all_goals first
    | (simp only [Option.some.injEq, Prod.mk.injEq] at h
       obtain ⟨rfl, -⟩ := h
       first
         | exact Or.inl ⟨rfl, rfl⟩
         | exact Or.inr ⟨h2, h3, rfl, rfl⟩)
    | (simp only [Option.map_eq_some'] at h
       obtain ⟨r, -, hr⟩ := h
       simp only [Prod.mk.injEq] at hr
       obtain ⟨rfl, -⟩ := hr
       exact Or.inl ⟨rfl, rfl⟩)
    | (split at h <;>
        (simp only [Option.some.injEq, Prod.mk.injEq] at h
         obtain ⟨rfl, -⟩ := h
         exact Or.inl ⟨rfl, rfl⟩))

theorem tables_teardown {T : Type} (srv : Lobby T) (conn : Nat) (h : TablesConsistent srv) :
    TablesConsistent (teardown srv conn).1 := by
  unfold teardown
  cases hc : srv.playerConns conn with
  | none => exact h
  | some pID =>
    intro other oID ho
    dsimp only at ho ⊢
    by_cases hoc : other = conn
    · simp [hoc] at ho
    · simp only [hoc, if_false] at ho
      obtain ⟨p, hp, hpc⟩ := h other oID ho
      obtain ⟨q, hq, hqc⟩ := h conn pID hc
      have hne : oID ≠ pID := by
        rintro rfl
        rw [hp] at hq
        simp only [Option.some.injEq] at hq
        subst hq
        exact hoc (hpc.symm.trans hqc)
      exact ⟨p, by simp [hne, hp], hpc⟩

theorem tables_message (lib : Library R) (sqrt : R → R) (srv srv1 : Lobby R)
    (msg : String) (conn : Nat) (out : List (Out R)) (h : TablesConsistent srv)
    (hfresh : JoinIsFresh srv conn msg)
    (hm : handleMessage lib sqrt srv msg conn = some (srv1, out)) :
    TablesConsistent srv1 := by
  rcases handleMessage_tables lib sqrt srv srv1 msg conn out hm with
    ⟨hp, hc⟩ | ⟨hj, hlen, hp, hc⟩
  · intro c pID hreg
    rw [hc] at hreg
    rw [hp]
    exact h c pID hreg
  · intro c pID hreg
    rw [hc] at hreg
    rw [hp]
    by_cases hcc : c = conn
    · simp only [hcc, if_true, Option.some.injEq] at hreg
      subst hreg
      exact ⟨{ Conn := conn, ID := field (splitColon msg) 1,
               Name := field (splitColon msg) 2 }, by simp, hcc.symm⟩
    · simp only [hcc, if_false] at hreg
      have hne : pID ≠ field (splitColon msg) 1 := by
        rintro rfl
        exact hfresh hj hlen c hcc hreg
      obtain ⟨p, hpp, hpc⟩ := h c pID hreg
      exact ⟨p, by simp [hne, hpp], hpc⟩

theorem tables_run (lib : Library R) (sqrt : R → R) (events : List LobbyEvent) :
    ∀ srv srv1 : Lobby R, TablesConsistent srv → FreshRun lib sqrt srv events →
      lobbyRun lib sqrt srv events = some srv1 → TablesConsistent srv1 := by
  induction events with
  | nil =>
    intro srv srv1 h _ hrun
    simp only [lobbyRun, Option.some.injEq] at hrun
    exact hrun ▸ h
  | cons ev more ih =>
    intro srv srv1 h hfresh hrun
    rw [lobbyRun] at hrun
    simp only [FreshRun] at hfresh
    cases hs : lobbyStep lib sqrt srv ev with
    | none => simp [hs] at hrun
    | some mid =>
      simp only [hs] at hrun hfresh
      refine ih mid srv1 ?_ hfresh.2 hrun
      cases ev with
      | message conn msg =>
        simp only [lobbyStep, Option.map_eq_some'] at hs
        obtain ⟨r, hr, rfl⟩ := hs
        exact tables_message lib sqrt srv r.1 msg conn r.2 h hfresh.1 hr
      | teardown conn =>
        simp only [lobbyStep, Option.some.injEq] at hs
        exact hs ▸ tables_teardown srv conn h

theorem teardown_keeps_others {T : Type} (srv : Lobby T) (conn other : Nat) (pID : String)
    (h : TablesConsistent srv) (hne : other ≠ conn)
    (hreg : srv.playerConns other = some pID) :
    (teardown srv conn).1.players pID = srv.players pID ∧
      (teardown srv conn).1.playerConns other = some pID := by
  unfold teardown
  cases hc : srv.playerConns conn with
  | none => exact ⟨rfl, hreg⟩
  | some cID =>
    obtain ⟨p, hp, hpc⟩ := h other pID hreg
    obtain ⟨q, hq, hqc⟩ := h conn cID hc
    have hid : pID ≠ cID := by
      rintro rfl
      rw [hp] at hq
      simp only [Option.some.injEq] at hq
      subst hq
      exact hne (hpc.symm.trans hqc)
    exact ⟨by simp [hid], by simp [hne, hreg]⟩

theorem tables_start : TablesConsistent (lobbyOf (Start R)) := by
  intro conn pID h
  simp [lobbyOf] at h

/-- C21 (amended): the two player tables stay consistent as long as no
connection joins under an id that another connection is registered with.
In every state reached from the start by lines handed to `handleMessage`
and connection teardowns, on any connections and in any order, with that
proviso, every connection registered in `playerConns` maps to an id that
has an entry in `players` whose `Conn` is that connection; so tearing down
one connection leaves the player entry and the registration of every other
registered connection as they are. -/
theorem C21_tables_consistent (lib : Library R) (sqrt : R → R)
    (events : List LobbyEvent) (srv : Lobby R)
    (hrun : lobbyRun lib sqrt (lobbyOf (Start R)) events = some srv)
    (hfresh : FreshRun lib sqrt (lobbyOf (Start R)) events) :
    TablesConsistent srv ∧
      ∀ (conn other : Nat) (pID : String), other ≠ conn →
        srv.playerConns other = some pID →
        (teardown srv conn).1.players pID = srv.players pID ∧
          (teardown srv conn).1.playerConns other = some pID := by
  have h := tables_run lib sqrt events _ srv tables_start hfresh hrun
  exact ⟨h, fun conn other pID hne hreg => teardown_keeps_others srv conn other pID h hne hreg⟩

theorem handleMessage_join (lib : Library R) (sqrt : R → R) (srv : Lobby R) (msg : String)
    (conn : Nat) (pID name : String) (hparts : splitColon msg = ["JOIN", pID, name]) :
    handleMessage lib sqrt srv msg conn =
      some ({ srv with
              players := fun k =>
                if k = pID then some { Conn := conn, ID := pID, Name := name }
                else srv.players k,
              playerConns := fun c => if c = conn then some pID else srv.playerConns c },
        [Out.fullStateTo conn srv.game, Out.toAll (Msg.money srv.game.money)]) := by
  unfold handleMessage
  simp [hparts, field]

theorem twoJoins_fresh :
    FreshRun decimalLibrary (fun x => x) (lobbyOf (Start ℚ)) twoJoins := by
  have h1 : splitColon "JOIN:a:Ann" = ["JOIN", "a", "Ann"] := by decide
  have h2 : splitColon "JOIN:b:Bob" = ["JOIN", "b", "Bob"] := by decide
  simp only [twoJoins, FreshRun, lobbyStep, handleMessage_join _ _ _ _ _ _ _ h1,
    handleMessage_join _ _ _ _ _ _ _ h2, Option.map_some', JoinIsFresh, h1, h2, field,
    List.getD_cons_zero, List.getD_cons_succ, lobbyOf, and_true]
  refine ⟨fun _ _ other _ => by simp, fun _ _ other _ => ?_⟩
  by_cases ho : other = 1 <;> simp [ho]

theorem C21_tables_consistent_witness :
    ∃ srv, lobbyRun decimalLibrary (fun x => x) (lobbyOf (Start ℚ)) twoJoins = some srv ∧
      FreshRun decimalLibrary (fun x => x) (lobbyOf (Start ℚ)) twoJoins ∧
      (TablesConsistent srv ∧
        ∀ (conn other : Nat) (pID : String), other ≠ conn →
          srv.playerConns other = some pID →
          (teardown srv conn).1.players pID = srv.players pID ∧
            (teardown srv conn).1.playerConns other = some pID) :=
  ⟨_, rfl, twoJoins_fresh,
    C21_tables_consistent decimalLibrary (fun x => x) twoJoins _ rfl twoJoins_fresh⟩

/-- C21 (counterexample): two connections that join under the same id
break the tables.  After connection 1 and then connection 2 joined as `a`,
connection 1 is still registered as `a` while the entry of `a` belongs to
connection 2; tearing down connection 1 then removes that entry although
connection 2 stays registered as `a`. -/
theorem C21_shared_id_breaks_tables :
    ∃ srv, lobbyRun decimalLibrary (fun x => x) (lobbyOf (Start ℚ)) sharedIdJoins =
        some srv ∧
      ¬ TablesConsistent srv ∧
      srv.playerConns 1 = some "a" ∧
      (srv.players "a").map (fun p => p.Conn) = some 2 ∧
      srv.playerConns 2 = some "a" ∧
      (teardown srv 1).1.playerConns 2 = some "a" ∧
      (teardown srv 1).1.players "a" = none := by
  refine ⟨_, rfl, ?_, rfl, rfl, rfl, rfl, rfl⟩
  intro h
  obtain ⟨p, hp, hc⟩ := h 1 "a" rfl
  have h2 : (some p).map (fun p => p.Conn) = some 2 := hp ▸ rfl
  simp only [Option.map_some', Option.some.injEq] at h2
  omega

end PlayerTables

/-! ## The bus lines on the client -/

section ClientBuses

variable {R : Type} [LinearOrderedField R]

theorem growBuses_eq (busID : Int) :
    ∀ (fuel : Nat) (buses : List (Bus R)),
      growBuses busID fuel buses =
        buses ++ List.replicate (min fuel (busID + 1 - (buses.length : Int)).toNat)
          zeroBus := by
  intro fuel
  induction fuel with
  | zero => intro buses; simp [growBuses]
  | succ n ih =>
    intro buses
    rw [growBuses]
    split_ifs with h
    · rw [ih, List.append_assoc]
      congr 1
      have e : min (n + 1) (busID + 1 - (buses.length : Int)).toNat =
          min n (busID + 1 - ((buses ++ [zeroBus]).length : Int)).toNat + 1 := by
        rw [List.length_append, List.length_singleton]
        push_cast
        omega
      rw [e, List.replicate_succ]
      rfl
    · have e : (busID + 1 - (buses.length : Int)).toNat = 0 := by omega
      simp [e]

/-- A `BUS` line whose three fields parse and whose id is not negative is
handled without a panic: the list grows to hold the index, the bus at the
index gets the position, and the buses that were there at other indices are
as before. -/
theorem clientHandle_bus_in_range (lib : Library R) (c : LobbyClient R) (msg : String)
    (sid sx sy : String) (n : Int) (hparts : splitColon msg = ["BUS", sid, sx, sy])
    (hid : lib.Atoi sid = (n, true)) (hx : (lib.ParseFloat sx).2 = true)
    (hy : (lib.ParseFloat sy).2 = true) (hn : 0 ≤ n) :
    ∃ c1, clientHandle lib c msg = some c1 ∧
      c1.Buses.length = max c.Buses.length (n.toNat + 1) ∧
      (c1.Buses[n.toNat]?).map (fun b => b.Position) =
        some ⟨(lib.ParseFloat sx).1, (lib.ParseFloat sy).1⟩ ∧
      ∀ j : Nat, j < c.Buses.length → j ≠ n.toNat → c1.Buses[j]? = c.Buses[j]? := by
  have hfuel : (n + 1).toNat = n.toNat + 1 := by omega
  have hk : min (n.toNat + 1) (n + 1 - (c.Buses.length : Int)).toNat =
      n.toNat + 1 - c.Buses.length := by omega
  have hgrow : growBuses n (n + 1).toNat c.Buses =
      c.Buses ++ List.replicate (n.toNat + 1 - c.Buses.length) zeroBus := by
    rw [growBuses_eq, hfuel, hk]
  have hlen : n.toNat <
      (c.Buses ++ List.replicate (n.toNat + 1 - c.Buses.length) (zeroBus : Bus R)).length := by
    rw [List.length_append, List.length_replicate]
    omega
  obtain ⟨bus, hbus⟩ : ∃ bus,
      (c.Buses ++ List.replicate (n.toNat + 1 - c.Buses.length) (zeroBus : Bus R))[n.toNat]? =
        some bus := ⟨_, List.getElem?_eq_getElem hlen⟩
  have hnot : ¬ n < 0 := by omega
  have hh : clientHandle lib c msg =
      some { c with
        Buses := (c.Buses ++ List.replicate (n.toNat + 1 - c.Buses.length) zeroBus).set
          n.toNat { bus with Position := ⟨(lib.ParseFloat sx).1, (lib.ParseFloat sy).1⟩,
                             RouteID := n } } := by
    unfold clientHandle
    simp [hparts, field, hid, hx, hy, hgrow, hbus, hnot]
  refine ⟨_, hh, ?_, ?_, ?_⟩
  · simp only [List.length_set, List.length_append, List.length_replicate]
    omega
  · simp [List.getElem?_set]
    omega
  · intro j hj hne
    rw [List.getElem?_set_ne (Ne.symm hne), List.getElem?_append_left hj]

/-- C22 (evaluation at the failing input): on the line `BUS:-1:0:0`, whose
three fields parse, the handler indexes `Buses[-1]`: whatever the bus list,
the switch ends in the run-time panic. -/
theorem C22_negative_bus_id_panics (c : LobbyClient ℚ) :
    clientHandle decimalLibrary c "BUS:-1:0:0" = none := by
  have hparts : splitColon "BUS:-1:0:0" = ["BUS", "-1", "0", "0"] := by decide
  have hid : decimalLibrary.Atoi "-1" = (-1, true) := by decide
  have hx : decimalLibrary.ParseFloat "0" = (0, true) := by with_unfolding_all decide
  unfold clientHandle
  simp [hparts, field, hid, hx]

end ClientBuses

/-! ## Money and a NaN coordinate -/

section NaNMoney

/-- On numbers the float model of `addInfrastructure` leaves the money that
the exact model leaves. -/
theorem addInfrastructure32_money_of_numbers {R : Type} [LinearOrderedField R]
    (sqrt : R → R) (s32 : LobbyServer (Float32 R)) (s : LobbyServer R)
    (hm : s32.money = Float32.val s.money) (msg playerID : String)
    (startX startY endX endY : R) (infraType : Int) :
    (addInfrastructure32 sqrt s32 msg playerID (Float32.val startX) (Float32.val startY)
        (Float32.val endX) (Float32.val endY) infraType).1.money =
      Float32.val (addInfrastructure sqrt s msg playerID startX startY endX endY
        infraType).1.money := by
  have hsq : ¬ (startX - endX) * (startX - endX) + (startY - endY) * (startY - endY) < 0 :=
    not_lt.2 (add_nonneg (mul_self_nonneg _) (mul_self_nonneg _))
  unfold addInfrastructure32 addInfrastructure
  by_cases ht : infraType = Road
  · simp only [ht, if_true, Vector2Distance32, Vector2Distance, sub32, mul32, add32, sqrt32,
      hsq, if_false, hm, lt32, decide_eq_true_eq]
    split_ifs <;> simp [hm]
  · simp only [ht, if_false, hm]

/-- C1 (evaluation at the failing input): the inbound line
`I:a:NaN:0:3:4:0` on the start state.  The x field parses as NaN without an
error, the road cost is NaN, the check `s.money < cost` is false, and the
money becomes NaN: the line is stored, `MONEY` is broadcast, and
`money >= 0` is false. -/
theorem C1_nan_coordinate_poisons_money (sqrt : ℚ → ℚ) :
    addInfrastructureLine32 nanLibrary sqrt (Start32 ℚ) "I:a:NaN:0:3:4:0"
        (splitColon "I:a:NaN:0:3:4:0") =
      ({ lines := [⟨Float32.NaN, Float32.val 0, Float32.val 3, Float32.val 4, Road, "a"⟩],
         buildings := [], busRoutes := [], buses := [],
         money := Float32.NaN, incomeRate := Float32.val 0 },
        [Out.toAll (Msg.money Float32.NaN), Out.toAll (Msg.raw "I:a:NaN:0:3:4:0")]) ∧
      ¬ NonNegative32 (addInfrastructureLine32 nanLibrary sqrt (Start32 ℚ) "I:a:NaN:0:3:4:0"
        (splitColon "I:a:NaN:0:3:4:0")).1.money := by
  have hparts : splitColon "I:a:NaN:0:3:4:0" = ["I", "a", "NaN", "0", "3", "4", "0"] := by
    decide
  have h2 : nanLibrary.ParseFloat "NaN" = (Float32.NaN, true) := by decide
  have h3 : nanLibrary.ParseFloat "0" = (Float32.val 0, true) := by with_unfolding_all decide
  have h4 : nanLibrary.ParseFloat "3" = (Float32.val 3, true) := by with_unfolding_all decide
  have h5 : nanLibrary.ParseFloat "4" = (Float32.val 4, true) := by with_unfolding_all decide
  have h6 : nanLibrary.Atoi "0" = (0, true) := by decide
  have heval : addInfrastructureLine32 nanLibrary sqrt (Start32 ℚ) "I:a:NaN:0:3:4:0"
        (splitColon "I:a:NaN:0:3:4:0") =
      ({ lines := [⟨Float32.NaN, Float32.val 0, Float32.val 3, Float32.val 4, Road, "a"⟩],
         buildings := [], busRoutes := [], buses := [],
         money := Float32.NaN, incomeRate := Float32.val 0 },
        [Out.toAll (Msg.money Float32.NaN), Out.toAll (Msg.raw "I:a:NaN:0:3:4:0")]) := by
    simp only [hparts, addInfrastructureLine32, field, List.getD_cons_zero,
      List.getD_cons_succ, h2, h3, h4, h5, h6, addInfrastructure32, Vector2Distance32, sub32,
      mul32, add32, sqrt32, lt32, Start32, Road]
    simp
  refine ⟨heval, ?_⟩
  rw [heval]
  exact fun h => h

/-- Once the money is NaN the affordability check of `addInfrastructure`
stops nothing: every road line is stored, whatever its cost, and the money
stays NaN. -/
theorem nan_money_buys_any_road {R : Type} [LinearOrderedField R] (sqrt : R → R)
    (s : LobbyServer (Float32 R)) (hm : s.money = Float32.NaN) (msg playerID : String)
    (startX startY endX endY : Float32 R) :
    (addInfrastructure32 sqrt s msg playerID startX startY endX endY Road).1.lines =
        s.lines ++ [⟨startX, startY, endX, endY, Road, playerID⟩] ∧
      (addInfrastructure32 sqrt s msg playerID startX startY endX endY Road).1.money =
        Float32.NaN := by
  simp [addInfrastructure32, hm, lt32, sub32]

end NaNMoney

end CityServer
